import Mathlib

/-!
# Crosschain keeper, header ingestion and EVM client of the node: a shallow embedding

The definitions below follow the Go sources of the `x/crosschain` module
(`keeper/cctx.go`, `keeper/msg_server_abort_stuck_cctx.go`,
`keeper/msg_server_add_to_outtx_tracker.go`, `keeper/verify_proof.go`,
`genesis.go`, `types/keys.go`, `types/message_vote_on_observed_inbound_tx.go`),
of the `x/observer` module (`keeper/msg_server_add_block_header.go`,
`keeper/msg_server_update_crosschain_flags.go`, `types/nonce_to_cctx.pb.go`)
and of the observer client (`zetaclient/evm/evm_client.go`).

Conventions of the embedding
* `int64` values are `Int`, `uint64` values and `sdk.Uint` amounts are `Nat`;
  the one narrowing conversion of the sources, `int64(nonce)`, is `toInt64`.
* A prefix store is the list of the values it holds, in ascending order of the
  key that the store's setter derives from a value (every write goes through
  that setter), which is the order in which the SDK iterator walks the store;
  the codec is left out: a store holds the value that `MustUnmarshal` gives back.
  The one codec that is embedded is that of `NonceToCctx` (`pb.*`), over byte
  lists, with the store of its encodings next to it.
* A message handler returns the store after the call together with its Go
  result, so that what an error path wrote (nothing) can be stated.
* Functions of other packages (go-ethereum, btcd, `strings`, the `common`
  package) are fields of `Lib`.
* A method of the EVM client takes the fields of `ChainClient` it works on and
  returns them with its Go result; what the RPC endpoint, the contracts and
  zetacore answer is a field of `EvmWorld`, the same for the whole of one tick;
  a Go panic is a result of its own; `uint64` sums and differences wrap
  (`addU64`, `subU64`).
-/

set_option linter.dupNamespace false

namespace Zetacore

/-! ## Data model -/

/-- CctxStatus of `x/crosschain/types`: the six states of a CCTX. -/
inductive CctxStatus where
  | PendingInbound
  | PendingOutbound
  | OutboundMined
  | PendingRevert
  | Reverted
  | Aborted
  deriving DecidableEq, Repr

/-- CoinType of the `common` package. -/
inductive CoinType where
  | Zeta
  | Gas
  | ERC20
  | Cmd
  deriving DecidableEq, Repr

/-- TxFinalizationStatus of the inbound parameters. -/
inductive TxFinalizationStatus where
  | NotFinalized
  | Finalized
  | Executed
  deriving DecidableEq, Repr

/-- Status record of a CCTX (`types.Status`). -/
structure Status where
  Status : CctxStatus
  StatusMessage : String
  LastUpdateTimestamp : Int
  IsAbortRefunded : Bool
  deriving DecidableEq, Repr

/-- InboundTxParams, with the fields `CreateNewCCTX` fills. -/
structure InboundTxParams where
  Sender : String
  SenderChainId : Int
  TxOrigin : String
  Asset : String
  Amount : Nat
  CoinType : CoinType
  InboundTxObservedHash : String
  InboundTxObservedExternalHeight : Nat
  InboundTxFinalizedZetaHeight : Nat
  InboundTxBallotIndex : String
  TxFinalizationStatus : TxFinalizationStatus
  deriving DecidableEq, Repr

/-- OutboundTxParams, with the fields `CreateNewCCTX` fills. -/
structure OutboundTxParams where
  Receiver : String
  ReceiverChainId : Int
  OutboundTxHash : String
  OutboundTxTssNonce : Nat
  OutboundTxGasLimit : Nat
  OutboundTxGasPrice : String
  OutboundTxBallotIndex : String
  OutboundTxObservedExternalHeight : Nat
  CoinType : CoinType
  Amount : Nat
  TssPubkey : String
  deriving DecidableEq, Repr

/-- CrossChainTx. The Go struct holds `CctxStatus` and `InboundTxParams` behind
pointers that the keeper dereferences without a nil check; the embedding covers
the CCTXs in which both are set, as in every CCTX built by `CreateNewCCTX`. -/
structure CrossChainTx where
  Creator : String
  Index : String
  ZetaFees : Nat
  RelayedMessage : String
  CctxStatus : Status
  InboundTxParams : InboundTxParams
  OutboundTxParams : List OutboundTxParams
  deriving DecidableEq, Repr

/-- InTxHashToCctx: the CCTX indexes that one inbound hash originated. -/
structure InTxHashToCctx where
  InTxHash : String
  CctxIndex : List String
  deriving DecidableEq, Repr

/-- NonceToCctx of `x/observer/types`; its store key is tss+chainid+nonce. -/
structure NonceToCctx where
  ChainId : Int
  Nonce : Int
  CctxIndex : String
  Tss : String
  deriving DecidableEq, Repr

/-- TSS record of the observer module; the crosschain keeper reads its pubkey. -/
structure TSS where
  TssPubkey : String
  deriving DecidableEq, Repr

/-- ZetaAccounting: the aggregate counter of aborted ZETA. -/
structure ZetaAccounting where
  AbortedZetaAmount : Nat
  deriving DecidableEq, Repr

/-- TxHashList: one candidate hash of an outbound tracker. -/
structure TxHashList where
  TxHash : String
  TxSigner : String
  Proved : Bool
  deriving DecidableEq, Repr

/-- OutTxTracker: the candidate hashes of one (chain, nonce). -/
structure OutTxTracker where
  Index : String
  ChainId : Int
  Nonce : Nat
  HashList : List TxHashList
  deriving DecidableEq, Repr

/-- InTxTracker: a hint to scan one external transaction. -/
structure InTxTracker where
  ChainId : Int
  TxHash : String
  CoinType : CoinType
  deriving DecidableEq, Repr

/-- GasPrice record of one chain; the payload is the median price. -/
structure GasPrice where
  ChainId : Int
  MedianPrice : Nat
  deriving DecidableEq, Repr

/-- LastBlockHeight record of one chain. -/
structure LastBlockHeight where
  ChainId : Int
  Height : Nat
  deriving DecidableEq, Repr

/-- Params of the crosschain module. -/
structure Params where
  Enabled : Bool
  deriving DecidableEq, Repr

/-- Chain descriptor as returned by the observer keeper. -/
structure Chain where
  ChainId : Int
  deriving DecidableEq, Repr

/-- Policy groups of the authority module. -/
inductive PolicyType where
  | groupEmergency
  | groupOperational
  | groupAdmin
  deriving DecidableEq, Repr

/-- Errors the handlers of this development return. -/
inductive Err where
  | SupportedChains
  | NotAuthorized
  | CannotFindCctx
  | StatusNotPending
  | CctxByNonceFailed
  | ProofVerificationFail
  | TxBodyVerificationFail
  deriving DecidableEq, Repr

deriving instance DecidableEq for Except

/-! ## Prefix stores -/

/-- Read of a prefix store with key function `key`: the value under `k`, if any. -/
def storeGet {V : Type} (key : V → String) : List V → String → Option V
  | [], _ => none
  | v :: rest, k => if key v = k then some v else storeGet key rest k

/-- Write of a prefix store: the value under the key of `v` is replaced, or
`v` is inserted at its place in the key order (keys compare as their character
lists, which is the order of `String`). -/
def storeSet {V : Type} (key : V → String) : List V → V → List V
  | [], v => [v]
  | v' :: rest, v =>
    if key v' = key v then v :: rest
    else if (key v).data < (key v').data then v :: v' :: rest
    else v' :: storeSet key rest v

/-- Delete of a prefix store: the value under `k` goes. -/
def storeDelete {V : Type} (key : V → String) (st : List V) (k : String) : List V :=
  st.filter (fun v => !decide (key v = k))

/-- Go map read: the value under a key. -/
def mapGet {K V : Type} [DecidableEq K] : List (K × V) → K → Option V
  | [], _ => none
  | (k1, v) :: rest, k => if k1 = k then some v else mapGet rest k

/-- Go map delete. -/
def mapDelete {K V : Type} [DecidableEq K] (m : List (K × V)) (k : K) : List (K × V) :=
  m.filter (fun e => !decide (e.1 = k))

/-- Go map write. -/
def mapSet {K V : Type} [DecidableEq K] (m : List (K × V)) (k : K) (v : V) : List (K × V) :=
  (k, v) :: mapDelete m k

/-- Conversion `int64(n)` of a `uint64`: two's complement reinterpretation. -/
def toInt64 (n : Nat) : Int :=
  if n % 2 ^ 64 < 2 ^ 63 then ((n % 2 ^ 64 : Nat) : Int) else ((n % 2 ^ 64 : Nat) : Int) - 2 ^ 64

/-! ## Keeper state -/

/-- Byte strings (headers, raw transactions, hashes). -/
abbrev Bytes := List Nat

/-- Merkle proof of the `common` package, carried as its encoding. -/
structure Proof where
  raw : Bytes
  deriving DecidableEq, Repr

/-- BlockHeaderVerificationFlags of the crosschain flags. -/
structure BlockHeaderVerificationFlags where
  IsEthTypeChainEnabled : Bool
  IsBtcTypeChainEnabled : Bool
  deriving DecidableEq, Repr

/-- GasPriceIncreaseFlags of the crosschain flags. -/
structure GasPriceIncreaseFlags where
  EpochLength : Int
  RetryInterval : Int
  GasPriceIncreasePercent : Nat
  deriving DecidableEq, Repr

/-- CrosschainFlags of the observer module; the two groups sit behind pointers. -/
structure CrosschainFlags where
  IsInboundEnabled : Bool
  IsOutboundEnabled : Bool
  GasPriceIncreaseFlags : Option GasPriceIncreaseFlags
  BlockHeaderVerificationFlags : Option BlockHeaderVerificationFlags
  deriving DecidableEq, Repr

/-- BlockHeader as stored by the observer module, keyed by block hash. -/
structure BlockHeader where
  Header : Bytes
  Height : Int
  Hash : Bytes
  ParentHash : Bytes
  ChainId : Int
  deriving DecidableEq, Repr

/-- TSS addresses answered by `GetTssAddress`. -/
structure TssAddress where
  Eth : String
  Btc : String
  deriving DecidableEq, Repr

/-- BlockHeaderState of one chain in the observer module. -/
structure BlockHeaderState where
  ChainId : Int
  LatestHeight : Int
  EarliestHeight : Int
  LatestBlockHash : Bytes
  deriving DecidableEq, Repr

/-- ChainParams of the observer module, with the fields the keeper and the EVM
client read. -/
structure ChainParams where
  ConfirmationCount : Nat
  IsSupported : Bool
  ConnectorContractAddress : String
  Erc20CustodyContractAddress : String
  deriving DecidableEq, Repr

/-- Outcome of the three ballot calls of a vote (`FindBallot`, `AddVoteToBallot`,
`CheckIfFinalizingVote`): one of the first two fails, or the vote is added and
finalizes the ballot or not. -/
inductive BallotOutcome where
  | findBallotFailed
  | addVoteFailed
  | voted (isFinalized : Bool)
  deriving DecidableEq, Repr

/-- State that the handlers read and write through `sdk.Context`: the prefix
stores of the crosschain module, the part of the observer keeper that the
crosschain keeper calls, and the authority keeper. -/
structure Ctx where
  /-- Params of the crosschain module (param subspace) -/
  params : Params
  /-- Store `ZetaAccounting-value-`: a singleton -/
  zetaAccounting : Option ZetaAccounting
  /-- Store `OutTxTracker-value-` -/
  outTxTrackers : List OutTxTracker
  /-- Store `InTxTracker-value-` -/
  inTxTrackers : List InTxTracker
  /-- Store `InTxHashToCctx-value-` -/
  inTxHashToCctx : List InTxHashToCctx
  /-- Store `GasPrice-value-` -/
  gasPrices : List GasPrice
  /-- Store `LastBlockHeight-value-` -/
  lastBlockHeights : List LastBlockHeight
  /-- Store `Send-value-` of the CCTXs -/
  cctxs : List CrossChainTx
  /-- Store `FinalizedInbounds-value-`: the markers -/
  finalizedInbounds : List String
  /-- Observer keeper: the current TSS -/
  tss : Option TSS
  /-- Observer keeper: the nonce to CCTX index -/
  nonceToCctx : List NonceToCctx
  /-- Observer keeper: supported chains -/
  supportedChains : List Chain
  /-- Observer keeper: `IsAuthorized`, membership in the observer set -/
  observerIsAuthorized : String → Bool
  /-- Observer keeper: crosschain flags -/
  crosschainFlags : Option CrosschainFlags
  /-- Observer keeper: block headers by hash -/
  blockHeaders : List (Bytes × BlockHeader)
  /-- Observer keeper: answer of `GetTssAddress` for a bitcoin chain id -/
  tssAddress : Int → Option TssAddress
  /-- Authority keeper: `IsAuthorized` -/
  authorityIsAuthorized : String → PolicyType → Bool
  /-- Observer keeper: block header states, one per chain -/
  blockHeaderStates : List BlockHeaderState
  /-- Observer keeper: what the ballot calls answer to a vote of the given
  creator on the ballot of the given digest (the ballot store itself is not
  part of the embedding) -/
  ballotVote : String → String → BallotOutcome
  /-- Block time of the context, `ctx.BlockTime()`, in seconds -/
  blockTime : Int
  /-- Observer keeper: answer of `GetChainParamsByChainID`; `none` is `found = false` -/
  chainParamsByChainID : Int → Option ChainParams

/-- Decoded EVM transaction: what the keeper reads of `ethtypes.Transaction`. -/
structure EvmTx where
  ChainId : Int
  Nonce : Nat
  HashHex : String
  To : Option String
  deriving DecidableEq, Repr

/-- Input of a decoded bitcoin transaction. -/
structure BtcTxIn where
  Witness : List Bytes
  deriving DecidableEq, Repr

/-- Decoded bitcoin transaction: inputs, output values and hash. -/
structure BtcTx where
  TxIn : List BtcTxIn
  TxOut : List Int
  TxHash : String
  deriving DecidableEq, Repr

/-- MsgVoteOnObservedInboundTx: the inbound vote. -/
structure MsgVoteOnObservedInboundTx where
  Creator : String
  Sender : String
  SenderChainId : Int
  TxOrigin : String
  Receiver : String
  ReceiverChain : Int
  Amount : Nat
  Message : String
  InTxHash : String
  InBlockHeight : Nat
  GasLimit : Nat
  CoinType : CoinType
  Asset : String
  EventIndex : Nat
  deriving DecidableEq, Repr

/-- MsgUpdateCrosschainFlags of the observer module; the two groups are
pointers, `none` is nil. -/
structure MsgUpdateCrosschainFlags where
  Creator : String
  IsInboundEnabled : Bool
  IsOutboundEnabled : Bool
  GasPriceIncreaseFlags : Option GasPriceIncreaseFlags
  BlockHeaderVerificationFlags : Option BlockHeaderVerificationFlags
  deriving DecidableEq, Repr

/-- MsgAddToInTxTracker; `Proof` is a pointer, `none` is nil. -/
structure MsgAddToInTxTracker where
  Creator : String
  ChainId : Int
  TxHash : String
  CoinType : CoinType
  Proof : Option Proof
  BlockHash : String
  TxIndex : Int
  deriving DecidableEq, Repr

/-- MsgAddBlockHeader of the observer module. -/
structure MsgAddBlockHeader where
  Creator : String
  ChainId : Int
  BlockHash : Bytes
  Height : Int
  Header : Bytes
  deriving DecidableEq, Repr

/-- Functions of other packages, left uninterpreted. -/
structure Lib where
  /-- Text form `String()` of an inbound vote (generated `proto.CompactTextString`) -/
  VoteString : MsgVoteOnObservedInboundTx → String
  /-- Hash `crypto.Keccak256Hash([]byte(s)).Hex()` -/
  Keccak256Hex : String → String
  /-- Go `strings.EqualFold` -/
  EqualFold : String → String → Bool
  /-- Predicate `common.IsBitcoinChain` -/
  IsBitcoinChain : Int → Bool
  /-- Predicate `common.IsEVMChain` -/
  IsEVMChain : Int → Bool
  /-- Lookup `common.GetChainFromChainID` followed by `SupportMerkleProof`;
  `none` when the chain id is unknown -/
  SupportMerkleProof : Int → Option Bool
  /-- Conversion `common.StringToHash` -/
  StringToHash : Int → String → Option Bytes
  /-- Method `Proof.Verify` on a header and a transaction index -/
  ProofVerify : Proof → Bytes → Int → Option Bytes
  /-- Decoding `ethtypes.Transaction.UnmarshalBinary` -/
  EvmUnmarshalBinary : Bytes → Option EvmTx
  /-- Recovery `ethtypes.Sender` under the London signer of the tx chain id -/
  EvmSender : EvmTx → Option Bytes
  /-- Conversion `eth.HexToAddress` -/
  HexToAddress : String → Bytes
  /-- Decoding `btcutil.NewTxFromBytes` -/
  BtcNewTxFromBytes : Bytes → Option BtcTx
  /-- Parsing `btcec.ParsePubKey`, giving the compressed serialization -/
  ParsePubKey : Bytes → Option Bytes
  /-- Lookup `common.BitcoinNetParamsFromChainID` -/
  BitcoinNetParamsFromChainID : Int → Option Nat
  /-- Address `btcutil.NewAddressWitnessPubKeyHash` of the Hash160 of a
  compressed key, encoded -/
  NewAddressWitnessPubKeyHash : Bytes → Nat → Option String
  /-- Marker `common.NonceMarkAmount` -/
  NonceMarkAmount : Nat → Int
  /-- Decoding `sdk.AccAddressFromBech32`; `none` is an error -/
  AccAddressFromBech32 : String → Option Bytes
  /-- Method `HeaderData.ParentHash`; `none` is an error -/
  HeaderParentHash : Bytes → Option Bytes
  /-- Method `HeaderData.ValidateTimestamp` against a block time; `false` is an error -/
  HeaderValidateTimestamp : Bytes → Int → Bool
  /-- Method `MsgAddBlockHeader.Digest` -/
  AddBlockHeaderDigest : MsgAddBlockHeader → String
  /-- Method `MsgUpdateCrosschainFlags.GetRequiredPolicyType` -/
  GetRequiredPolicyType : MsgUpdateCrosschainFlags → PolicyType
  /-- Value `*types.DefaultCrosschainFlags()` -/
  DefaultCrosschainFlags : CrosschainFlags
  /-- Method `eth.Address.Hex` -/
  AddressHex : Bytes → String

/-! ## keeper/cctx.go -/

/-- SetCrossChainTx: set a specific send in the store from its index. -/
def SetCrossChainTx (ctx : Ctx) (cctx : CrossChainTx) : Ctx :=
  { ctx with cctxs := storeSet CrossChainTx.Index ctx.cctxs cctx }

/-- GetCrossChainTx: the send stored under the index; `none` is `found = false`. -/
def GetCrossChainTx (ctx : Ctx) (index : String) : Option CrossChainTx :=
  storeGet CrossChainTx.Index ctx.cctxs index

/-- GetAllCrossChainTx: iteration over the store. -/
def GetAllCrossChainTx (ctx : Ctx) : List CrossChainTx :=
  ctx.cctxs

/-- RemoveCrossChainTx: removes a send from the store. -/
def RemoveCrossChainTx (ctx : Ctx) (index : String) : Ctx :=
  { ctx with cctxs := storeDelete CrossChainTx.Index ctx.cctxs index }

/-- Modelled from the spec: `InTxHashToCctx-value-<Hash>` maps an inbound hash
to its list of CCTX indexes (the keeper file of this store is not among the
sources). Read; `none` is `found = false`. -/
def GetInTxHashToCctx (ctx : Ctx) (inTxHash : String) : Option InTxHashToCctx :=
  storeGet InTxHashToCctx.InTxHash ctx.inTxHashToCctx inTxHash

/-- Modelled from the spec: write of `InTxHashToCctx-value-<Hash>`, keyed by
the hash the value carries. -/
def SetInTxHashToCctx (ctx : Ctx) (v : InTxHashToCctx) : Ctx :=
  { ctx with inTxHashToCctx := storeSet InTxHashToCctx.InTxHash ctx.inTxHashToCctx v }

/-- Modelled from the spec: the nonce to CCTX index holds at most one entry for
each (TssPubkey, ChainId, Nonce) (the observer keeper file is not among the
sources). Read; `none` is `found = false`. -/
def GetNonceToCctx (ctx : Ctx) (tss : String) (chainId nonce : Int) : Option NonceToCctx :=
  ctx.nonceToCctx.find? (fun n => decide (n.Tss = tss ∧ n.ChainId = chainId ∧ n.Nonce = nonce))

/-- Modelled from the spec: write of the nonce to CCTX index; the entry of the
same (Tss, ChainId, Nonce) is replaced. -/
def SetNonceToCctx (ctx : Ctx) (n : NonceToCctx) : Ctx :=
  { ctx with nonceToCctx :=
      (n :: List.filter
        (fun m => !decide (m.Tss = n.Tss ∧ m.ChainId = n.ChainId ∧ m.Nonce = n.Nonce))
        ctx.nonceToCctx) }

/-- Modelled from the spec: `CurrentOutbound := Outbound[len-1]` (the method
`GetCurrentOutTxParam` is not among the sources). The spec gives every CCTX at
least one outbound entry; for an empty list the zero-valued parameters stand in. -/
def GetCurrentOutTxParam (cctx : CrossChainTx) : OutboundTxParams :=
  match cctx.OutboundTxParams.getLast? with
  | some o => o
  | none =>
    { Receiver := "", ReceiverChainId := 0, OutboundTxHash := "", OutboundTxTssNonce := 0,
      OutboundTxGasLimit := 0, OutboundTxGasPrice := "", OutboundTxBallotIndex := "",
      OutboundTxObservedExternalHeight := 0, CoinType := CoinType.Zeta, Amount := 0,
      TssPubkey := "" }

/-- Modelled from the spec: `abortedAmount(cctx) = outbound.Amount if present
else inbound.Amount else 0` (the function `GetAbortedAmount` is not among the
sources, its test is). The inbound parameters are always present in this
embedding, so the last alternative does not arise. -/
def GetAbortedAmount (cctx : CrossChainTx) : Nat :=
  match cctx.OutboundTxParams.getLast? with
  | some o => o.Amount
  | none => cctx.InboundTxParams.Amount

/-- Modelled from the spec: `ZetaAccounting` is the aggregate counter of aborted
ZETA amounts; read of the singleton (its keeper file is not among the sources). -/
def GetZetaAccounting (ctx : Ctx) : Option ZetaAccounting :=
  ctx.zetaAccounting

/-- Modelled from the spec: write of the `ZetaAccounting` singleton. -/
def SetZetaAccounting (ctx : Ctx) (v : ZetaAccounting) : Ctx :=
  { ctx with zetaAccounting := some v }

/-- Modelled from the spec: increment `ZetaAccounting.AbortedAmount` by the
given amount, starting the counter when it is not stored yet. -/
def AddZetaAbortedAmount (ctx : Ctx) (amount : Nat) : Ctx :=
  match GetZetaAccounting ctx with
  | none => SetZetaAccounting ctx { AbortedZetaAmount := amount }
  | some acc => SetZetaAccounting ctx { AbortedZetaAmount := acc.AbortedZetaAmount + amount }

/-- Loop of `SetCctxAndNonceToCctxAndInTxHashToCctx` over `in.CctxIndex`:
whether the index is already listed. -/
def indexListed (list : List String) (index : String) : Bool :=
  match list with
  | [] => false
  | cctxIndex :: rest => if cctxIndex = index then true else indexListed rest index

/-- SetCctxAndNonceToCctxAndInTxHashToCctx does the following things in one function:
1. set the cctx in the store
2. set the mapping inTxHash -> cctxIndex
3. set the mapping nonce => cctx
4. update the zeta accounting. -/
def SetCctxAndNonceToCctxAndInTxHashToCctx (ctx : Ctx) (cctx : CrossChainTx) : Ctx :=
  let ctx1 := SetCrossChainTx ctx cctx
  -- set mapping inTxHash -> cctxIndex
  let in0 : InTxHashToCctx :=
    (GetInTxHashToCctx ctx1 cctx.InboundTxParams.InboundTxObservedHash).getD
      { InTxHash := "", CctxIndex := [] }
  let in1 : InTxHashToCctx := { in0 with InTxHash := cctx.InboundTxParams.InboundTxObservedHash }
  let in2 : InTxHashToCctx :=
    if indexListed in1.CctxIndex cctx.Index then in1
    else { in1 with CctxIndex := in1.CctxIndex ++ [cctx.Index] }
  let ctx2 := SetInTxHashToCctx ctx1 in2
  match ctx2.tss with
  | none => ctx2
  | some tss =>
    -- set mapping nonce => cctxIndex
    let ctx3 :=
      if cctx.CctxStatus.Status = CctxStatus.PendingOutbound
          ∨ cctx.CctxStatus.Status = CctxStatus.PendingRevert then
        SetNonceToCctx ctx2
          { ChainId := (GetCurrentOutTxParam cctx).ReceiverChainId,
            Nonce := toInt64 (GetCurrentOutTxParam cctx).OutboundTxTssNonce,
            CctxIndex := cctx.Index,
            Tss := tss.TssPubkey }
      else ctx2
    if cctx.CctxStatus.Status = CctxStatus.Aborted
        ∧ (GetCurrentOutTxParam cctx).CoinType = CoinType.Zeta then
      AddZetaAbortedAmount ctx3 (GetAbortedAmount cctx)
    else ctx3

/-- CreateNewCCTX: the CCTX a finalized inbound vote opens. The Go function
writes the sender into `msg.TxOrigin` when that is empty; the message as the
function leaves it is `msg` below. -/
def CreateNewCCTX (ctx : Ctx) (msg : MsgVoteOnObservedInboundTx) (index tssPubkey : String)
    (s : CctxStatus) (senderChainID receiverChainID : Int) : CrossChainTx :=
  let msg := if msg.TxOrigin = "" then { msg with TxOrigin := msg.Sender } else msg
  let inboundParams : InboundTxParams :=
    { Sender := msg.Sender,
      SenderChainId := senderChainID,
      TxOrigin := msg.TxOrigin,
      Asset := msg.Asset,
      Amount := msg.Amount,
      CoinType := msg.CoinType,
      InboundTxObservedHash := msg.InTxHash,
      InboundTxObservedExternalHeight := msg.InBlockHeight,
      InboundTxFinalizedZetaHeight := 0,
      InboundTxBallotIndex := index,
      TxFinalizationStatus := TxFinalizationStatus.NotFinalized }
  let outBoundParams : OutboundTxParams :=
    { Receiver := msg.Receiver,
      ReceiverChainId := receiverChainID,
      OutboundTxHash := "",
      OutboundTxTssNonce := 0,
      OutboundTxGasLimit := msg.GasLimit,
      OutboundTxGasPrice := "",
      OutboundTxBallotIndex := "",
      OutboundTxObservedExternalHeight := 0,
      CoinType := msg.CoinType,
      Amount := 0,
      TssPubkey := tssPubkey }
  let status : Status :=
    { Status := s,
      StatusMessage := "",
      LastUpdateTimestamp := ctx.blockTime,
      IsAbortRefunded := false }
  { Creator := msg.Creator,
    Index := index,
    ZetaFees := 0,
    RelayedMessage := msg.Message,
    CctxStatus := status,
    InboundTxParams := inboundParams,
    OutboundTxParams := [outBoundParams] }

/-! ## types/keys.go -/

/-- FinalizedInboundKey: the marker of one external event,
`fmt.Sprintf("%d-%s-%d", chainID, intxHash, eventIndex)`. -/
def FinalizedInboundKey (intxHash : String) (chainID : Int) (eventIndex : Nat) : String :=
  toString chainID ++ "-" ++ intxHash ++ "-" ++ toString eventIndex

/-! ## keeper/msg_server_abort_stuck_cctx.go -/

/-- AbortMessage is the message to abort a stuck CCTX. -/
def AbortMessage : String := "CCTX aborted with admin cmd"

/-- MsgAbortStuckCCTX. -/
structure MsgAbortStuckCCTX where
  Creator : String
  CctxIndex : String
  deriving DecidableEq, Repr

/-- AbortStuckCCTX aborts a stuck CCTX. Authorized: admin policy group 2.
The result pairs the state after the call with the Go return value. -/
def AbortStuckCCTX (ctx : Ctx) (msg : MsgAbortStuckCCTX) : Ctx × Except Err Unit :=
  -- check if authorized
  if !ctx.authorityIsAuthorized msg.Creator PolicyType.groupAdmin then
    (ctx, .error Err.NotAuthorized)
  else
    -- check if the cctx exists
    match GetCrossChainTx ctx msg.CctxIndex with
    | none => (ctx, .error Err.CannotFindCctx)
    | some cctx =>
      -- check if the cctx is pending
      let isPending : Bool :=
        decide (cctx.CctxStatus.Status = CctxStatus.PendingOutbound) ||
        decide (cctx.CctxStatus.Status = CctxStatus.PendingInbound) ||
        decide (cctx.CctxStatus.Status = CctxStatus.PendingRevert)
      if !isPending then
        (ctx, .error Err.StatusNotPending)
      else
        let cctx1 : CrossChainTx :=
          { cctx with
            CctxStatus :=
              { Status := CctxStatus.Aborted, StatusMessage := AbortMessage,
                LastUpdateTimestamp := 0, IsAbortRefunded := false } }
        (SetCrossChainTx ctx cctx1, .ok ())

/-! ## keeper/verify_proof.go -/

/-- Modelled from the spec: the block header store is keyed by block hash (the
observer keeper file is not among the sources). Read. -/
def GetBlockHeader (ctx : Ctx) (hash : Bytes) : Option BlockHeader :=
  match ctx.blockHeaders.find? (fun e => decide (e.1 = hash)) with
  | some e => some e.2
  | none => none

/-- VerifyProof: the leaf bytes at `txIndex` of a verified proof, or an error. -/
def VerifyProof (lib : Lib) (ctx : Ctx) (proof : Proof) (chainID : Int) (blockHash : String)
    (txIndex : Int) : Except String Bytes :=
  -- header-based merkle proof verification must be enabled
  match ctx.crosschainFlags with
  | none => .error "crosschain flags not found"
  | some crosschainFlags =>
    match crosschainFlags.BlockHeaderVerificationFlags with
    | none => .error "block header verification flags not found"
    | some flags =>
      if lib.IsBitcoinChain chainID && !flags.IsBtcTypeChainEnabled then
        .error "proof verification not enabled for bitcoin chain"
      else if lib.IsEVMChain chainID && !flags.IsEthTypeChainEnabled then
        .error "proof verification not enabled for evm chain"
      else
        -- chain must support header-based merkle proof verification
        match lib.SupportMerkleProof chainID with
        | none => .error "unsupported chain"
        | some false => .error "chain does not support block header-based verification"
        | some true =>
          -- get block header from the store
          match lib.StringToHash chainID blockHash with
          | none => .error "block hash conversion failed"
          | some hashBytes =>
            match GetBlockHeader ctx hashBytes with
            | none => .error "block header not found"
            | some res =>
              -- verify merkle proof
              match lib.ProofVerify proof res.Header txIndex with
              | none => .error "proof verification failed"
              | some txBytes => .ok txBytes

/-- The zero address `eth.Address{}`. -/
def zeroAddress : Bytes := List.replicate 20 0

/-- Result of a body check: nil, an error, or the panic of a method called
through a nil pointer. -/
inductive BodyCheck where
  | nil
  | error (e : String)
  | nilDereference
  deriving DecidableEq, Repr

/-- VerifyEVMInTxBody: the body check of an inbound tracker on an EVM chain.
`txx.To()` is nil for a contract creation, and `txx.To().Hex()` calls a method
with a value receiver through it. -/
def VerifyEVMInTxBody (lib : Lib) (ctx : Ctx) (msg : MsgAddToInTxTracker) (txBytes : Bytes) :
    BodyCheck :=
  match lib.EvmUnmarshalBinary txBytes with
  | none => .error "cannot decode transaction"
  | some txx =>
    if txx.HashHex ≠ msg.TxHash then .error "want tx hash"
    else if txx.ChainId ≠ msg.ChainId then .error "want evm chain id"
    else
      match msg.CoinType with
      | CoinType.Zeta =>
        match ctx.chainParamsByChainID msg.ChainId with
        | none => .error "chain params not found"
        | some chainParams =>
          match txx.To with
          | none => .nilDereference
          | some receiver =>
            if receiver ≠ chainParams.ConnectorContractAddress then
              .error "receiver is not connector contract"
            else .nil
      | CoinType.ERC20 =>
        match ctx.chainParamsByChainID msg.ChainId with
        | none => .error "chain params not found"
        | some chainParams =>
          match txx.To with
          | none => .nilDereference
          | some receiver =>
            if receiver ≠ chainParams.Erc20CustodyContractAddress then
              .error "receiver is not erc20Custory contract"
            else .nil
      | CoinType.Gas =>
        match ctx.tssAddress msg.ChainId with
        | none => .error "tss address query failed"
        | some tss =>
          let tssAddr := lib.HexToAddress tss.Eth
          if tssAddr = zeroAddress then .error "tss address not found"
          else
            match txx.To with
            | none => .nilDereference
            | some receiver =>
              if receiver ≠ lib.AddressHex tssAddr then .error "receiver is not tssAddress contract"
              else .nil
      | CoinType.Cmd => .error "coin type not supported"

/-! ## keeper/msg_server_add_to_outtx_tracker.go -/

/-- MsgAddToOutTxTracker; `Proof` is a pointer, `none` is nil. -/
structure MsgAddToOutTxTracker where
  Creator : String
  ChainId : Int
  Nonce : Nat
  TxHash : String
  Proof : Option Proof
  BlockHash : String
  TxIndex : Int
  deriving DecidableEq, Repr

/-- MsgAddToOutTxTrackerResponse. -/
structure MsgAddToOutTxTrackerResponse where
  IsRemoved : Bool
  deriving DecidableEq, Repr

/-- VerifyEVMOutTxBody validates the sender address, nonce, chain id and tx hash. -/
def VerifyEVMOutTxBody (lib : Lib) (msg : MsgAddToOutTxTracker) (txBytes : Bytes)
    (tssEth : String) : Except String Unit :=
  match lib.EvmUnmarshalBinary txBytes with
  | none => .error "cannot decode transaction"
  | some txx =>
    match lib.EvmSender txx with
    | none => .error "cannot recover sender"
    | some sender =>
      let tssAddr := lib.HexToAddress tssEth
      if tssAddr = zeroAddress then .error "tss address not found"
      else if sender ≠ tssAddr then .error "sender is not tss address"
      else if txx.ChainId ≠ msg.ChainId then .error "want evm chain id"
      else if txx.Nonce ≠ msg.Nonce then .error "want nonce"
      else if txx.HashHex ≠ msg.TxHash then .error "want tx hash"
      else .ok ()

/-- Loop of `VerifyBTCOutTxBody` over the inputs of the transaction. -/
def verifyBTCInputs (lib : Lib) (chainId : Int) (tssBtc : String) :
    List BtcTxIn → Except String Unit
  | [] => .ok ()
  | vin :: rest =>
    if vin.Witness.length ≠ 2 then .error "not a SegWit transaction"
    else
      match lib.ParsePubKey (vin.Witness.getD 1 []) with
      | none => .error "failed to parse public key"
      | some pubKey =>
        match lib.BitcoinNetParamsFromChainID chainId with
        | none => .error "failed to get Bitcoin net params"
        | some bitcoinNetParams =>
          match lib.NewAddressWitnessPubKeyHash pubKey bitcoinNetParams with
          | none => .error "failed to create P2WPKH address"
          | some addrP2WPKH =>
            if addrP2WPKH ≠ tssBtc then .error "sender is not tss address"
            else verifyBTCInputs lib chainId tssBtc rest

/-- VerifyBTCOutTxBody validates the SegWit sender address, nonce and chain id and tx hash. -/
def VerifyBTCOutTxBody (lib : Lib) (msg : MsgAddToOutTxTracker) (txBytes : Bytes)
    (tssBtc : String) : Except String Unit :=
  if !lib.IsBitcoinChain msg.ChainId then .error "not a Bitcoin chain ID"
  else
    match lib.BtcNewTxFromBytes txBytes with
    | none => .error "cannot decode transaction"
    | some tx =>
      match verifyBTCInputs lib msg.ChainId tssBtc tx.TxIn with
      | .error e => .error e
      | .ok _ =>
        match tx.TxOut with
        | [] => .error "outTx should have at least one output"
        | value :: _ =>
          if value ≠ lib.NonceMarkAmount msg.Nonce then .error "want nonce mark"
          else if tx.TxHash ≠ msg.TxHash then .error "want tx hash"
          else .ok ()

/-- VerifyOutTxBody: the body check of the chain family of the message. -/
def VerifyOutTxBody (lib : Lib) (ctx : Ctx) (msg : MsgAddToOutTxTracker) (txBytes : Bytes) :
    Except String Unit :=
  -- get tss address
  let bitcoinChainID : Int := if lib.IsBitcoinChain msg.ChainId then msg.ChainId else 0
  match ctx.tssAddress bitcoinChainID with
  | none => .error "tss address query failed"
  | some tss =>
    -- verify message against transaction body
    if lib.IsEVMChain msg.ChainId then VerifyEVMOutTxBody lib msg txBytes tss.Eth
    else if lib.IsBitcoinChain msg.ChainId then VerifyBTCOutTxBody lib msg txBytes tss.Btc
    else .error "cannot verify outTx body for chain"

/-- Modelled from the spec: a chain is supported when the registry of the
observer keeper lists its id (`GetSupportedChainFromChainID` is not among the
sources); `none` is the nil chain. -/
def GetSupportedChainFromChainID (ctx : Ctx) (chainId : Int) : Option Chain :=
  ctx.supportedChains.find? (fun c => decide (c.ChainId = chainId))

/-- Modelled from the spec: the CCTX bound to (chain, nonce) under the current
TSS key, read through the nonce to CCTX index (the query `CctxByNonce` is not
among the sources). An unknown TSS, nonce or index is an error of the query. -/
def CctxByNonce (ctx : Ctx) (chainId : Int) (nonce : Nat) : Except String (Option CrossChainTx) :=
  match ctx.tss with
  | none => .error "tss not found"
  | some tss =>
    match GetNonceToCctx ctx tss.TssPubkey chainId (toInt64 nonce) with
    | none => .error "nonceToCctx not found"
    | some res =>
      match GetCrossChainTx ctx res.CctxIndex with
      | none => .error "cctx not found"
      | some val => .ok (some val)

/-- Modelled from the spec: only PendingInbound, PendingOutbound and
PendingRevert are pending (the function `IsPending` is not among the sources). -/
def IsPending (cctx : CrossChainTx) : Bool :=
  decide (cctx.CctxStatus.Status = CctxStatus.PendingInbound) ||
  decide (cctx.CctxStatus.Status = CctxStatus.PendingOutbound) ||
  decide (cctx.CctxStatus.Status = CctxStatus.PendingRevert)

/-- Modelled from the spec: the tracker index of the state layout
`OutTxTracker-value-<ChainId>/<Nonce>/` (`getOutTrackerIndex` is not among the
sources). -/
def getOutTrackerIndex (chainID : Int) (nonce : Nat) : String :=
  toString chainID ++ "/" ++ toString nonce

/-- OutTxTrackerKey returns the store key to retrieve a OutTxTracker from the index fields. -/
def OutTxTrackerKey (index : String) : String :=
  index ++ "/"

/-- Store key of a tracker: the key of its chain id and nonce. -/
def OutTxTracker.key (t : OutTxTracker) : String :=
  OutTxTrackerKey (getOutTrackerIndex t.ChainId t.Nonce)

/-- Modelled from the spec: read of `OutTxTracker-value-<ChainId>/<Nonce>/`
(the tracker keeper file is not among the sources); `none` is `found = false`. -/
def GetOutTxTracker (ctx : Ctx) (chainID : Int) (nonce : Nat) : Option OutTxTracker :=
  storeGet OutTxTracker.key ctx.outTxTrackers (OutTxTrackerKey (getOutTrackerIndex chainID nonce))

/-- Modelled from the spec: write of a tracker under the key of its chain id
and nonce. -/
def SetOutTxTracker (ctx : Ctx) (t : OutTxTracker) : Ctx :=
  { ctx with outTxTrackers := storeSet OutTxTracker.key ctx.outTxTrackers t }

/-- Modelled from the spec: removal of the tracker of (chain, nonce). -/
def RemoveOutTxTracker (ctx : Ctx) (chainID : Int) (nonce : Nat) : Ctx :=
  let k := OutTxTrackerKey (getOutTrackerIndex chainID nonce)
  { ctx with outTxTrackers := storeDelete OutTxTracker.key ctx.outTxTrackers k }

/-- Loop over `tracker.HashList`, the `isDup` flag: some entry has the hash of
the message up to letter case. -/
def isDupHash (lib : Lib) (txHash : String) : List TxHashList → Bool
  | [] => false
  | hash :: rest => if lib.EqualFold hash.TxHash txHash then true else isDupHash lib txHash rest

/-- Loop over `tracker.HashList` with `isProven`: the first entry with the hash
of the message gets `Proved = true` (the loop returns there). -/
def markProved (lib : Lib) (txHash : String) : List TxHashList → List TxHashList
  | [] => []
  | hash :: rest =>
    if lib.EqualFold hash.TxHash txHash then { hash with Proved := true } :: rest
    else hash :: markProved lib txHash rest

/-- The proof branch of `AddToOutTxTracker`: `isProven`, or the error returned. -/
def checkProof (lib : Lib) (ctx : Ctx) (msg : MsgAddToOutTxTracker) : Except Err Bool :=
  match msg.Proof with
  | none => .ok false
  | some proof =>
    -- verify proof when it is provided
    match VerifyProof lib ctx proof msg.ChainId msg.BlockHash msg.TxIndex with
    | .error _ => .error Err.ProofVerificationFail
    | .ok txBytes =>
      match VerifyOutTxBody lib ctx msg txBytes with
      | .error _ => .error Err.TxBodyVerificationFail
      | .ok _ => .ok true

/-- AddToOutTxTracker adds a new record to the outbound transaction tracker.
Only the admin policy account and the observer validators are authorized to
broadcast this message without proof. If no pending cctx is found, the tracker
is removed. The result pairs the state after the call with the Go return value. -/
def AddToOutTxTracker (lib : Lib) (ctx : Ctx) (msg : MsgAddToOutTxTracker) :
    Ctx × Except Err MsgAddToOutTxTrackerResponse :=
  match GetSupportedChainFromChainID ctx msg.ChainId with
  | none => (ctx, .error Err.SupportedChains)
  | some chain =>
    -- the cctx must exist
    match CctxByNonce ctx msg.ChainId msg.Nonce with
    | .error _ => (ctx, .error Err.CctxByNonceFailed)
    | .ok none => (ctx, .error Err.CannotFindCctx)
    | .ok (some cctx) =>
      -- tracker submission is only allowed when the cctx is pending
      if !IsPending cctx then
        -- garbage tracker (for any reason) is harmful to outTx observation and should be removed
        (RemoveOutTxTracker ctx msg.ChainId msg.Nonce, .ok { IsRemoved := true })
      else if msg.Proof.isNone
          && !(ctx.authorityIsAuthorized msg.Creator PolicyType.groupEmergency
                || ctx.observerIsAuthorized msg.Creator) then
        -- without proof, only certain accounts can send this message
        (ctx, .error Err.NotAuthorized)
      else
        match checkProof lib ctx msg with
        | .error e => (ctx, .error e)
        | .ok isProven =>
          let hash : TxHashList :=
            { TxHash := msg.TxHash, TxSigner := msg.Creator, Proved := false }
          match GetOutTxTracker ctx msg.ChainId msg.Nonce with
          | none =>
            (SetOutTxTracker ctx
              { Index := "", ChainId := chain.ChainId, Nonce := msg.Nonce, HashList := [hash] },
             .ok { IsRemoved := false })
          | some tracker =>
            if isDupHash lib msg.TxHash tracker.HashList then
              if isProven then
                (SetOutTxTracker ctx
                  { tracker with HashList := markProved lib msg.TxHash tracker.HashList },
                 .ok { IsRemoved := false })
              else (ctx, .ok { IsRemoved := false })
            else if isProven then
              (SetOutTxTracker ctx
                { tracker with HashList := { hash with Proved := true } :: tracker.HashList },
               .ok { IsRemoved := false })
            else if tracker.HashList.length < 2 then
              (SetOutTxTracker ctx { tracker with HashList := tracker.HashList ++ [hash] },
               .ok { IsRemoved := false })
            else (SetOutTxTracker ctx tracker, .ok { IsRemoved := false })

/-! ## types/message_vote_on_observed_inbound_tx.go -/

/-- Digest of an inbound vote: the hash of the text form of the message with
`Creator` and `InBlockHeight` cleared. -/
def MsgVoteOnObservedInboundTx.Digest (lib : Lib) (msg : MsgVoteOnObservedInboundTx) : String :=
  let m : MsgVoteOnObservedInboundTx := { msg with Creator := "", InBlockHeight := 0 }
  lib.Keccak256Hex (lib.VoteString m)

/-- Errors of `ValidateBasic`. -/
inductive ValidateErr where
  | InvalidAddress
  | InvalidChainID
  | InvalidRequest
  deriving DecidableEq, Repr

/-- MaxMessageLength is the maximum length of a message in a cctx. -/
def MaxMessageLength : Nat := 10240

/-- ValidateBasic of an inbound vote; `len(msg.Message)` is the length in bytes. -/
def MsgVoteOnObservedInboundTx.ValidateBasic (lib : Lib) (msg : MsgVoteOnObservedInboundTx) :
    Except ValidateErr Unit :=
  match lib.AccAddressFromBech32 msg.Creator with
  | none => .error ValidateErr.InvalidAddress
  | some _ =>
    if msg.SenderChainId < 0 then .error ValidateErr.InvalidChainID
    else if msg.ReceiverChain < 0 then .error ValidateErr.InvalidChainID
    else if msg.Message.utf8ByteSize > MaxMessageLength then .error ValidateErr.InvalidRequest
    else .ok ()

/-! ## genesis.go -/

/-- GenesisState of the crosschain module; the lists of pointers hold `none`
for a nil element. -/
structure GenesisState where
  Params : Params
  OutTxTrackerList : List OutTxTracker
  GasPriceList : List (Option GasPrice)
  CrossChainTxs : List (Option CrossChainTx)
  LastBlockHeightList : List (Option LastBlockHeight)
  InTxHashToCctxList : List InTxHashToCctx
  InTxTrackerList : List InTxTracker
  ZetaAccounting : ZetaAccounting
  FinalizedInbounds : List String
  deriving DecidableEq, Repr

/-- Modelled from the spec: write of the module params (the params keeper file
is not among the sources). -/
def SetParams (ctx : Ctx) (p : Params) : Ctx :=
  { ctx with params := p }

/-- Modelled from the spec: read of the module params. -/
def GetParams (ctx : Ctx) : Params :=
  ctx.params

/-- Store key of an inbound tracker, `<ChainId>/<TxHash>`. -/
def InTxTracker.key (t : InTxTracker) : String :=
  toString t.ChainId ++ "/" ++ t.TxHash

/-- Store key of a gas price, `<ChainId>`. -/
def GasPrice.key (g : GasPrice) : String :=
  toString g.ChainId

/-- Store key of a last block height, `<ChainId>`. -/
def LastBlockHeight.key (h : LastBlockHeight) : String :=
  toString h.ChainId

/-- Modelled from the spec: write of `InTxTracker-value-<ChainId>/<TxHash>`
(the tracker keeper file is not among the sources). -/
def SetInTxTracker (ctx : Ctx) (t : InTxTracker) : Ctx :=
  { ctx with inTxTrackers := storeSet InTxTracker.key ctx.inTxTrackers t }

/-- Modelled from the spec: write of `GasPrice-value-<ChainId>` (the gas price
keeper file is not among the sources). -/
def SetGasPrice (ctx : Ctx) (g : GasPrice) : Ctx :=
  { ctx with gasPrices := storeSet GasPrice.key ctx.gasPrices g }

/-- Modelled from the spec: write of `LastBlockHeight-value-<ChainId>` (its
keeper file is not among the sources). -/
def SetLastBlockHeight (ctx : Ctx) (h : LastBlockHeight) : Ctx :=
  { ctx with lastBlockHeights := storeSet LastBlockHeight.key ctx.lastBlockHeights h }

/-- Modelled from the spec: write of a marker
`FinalizedInbounds-value-<ChainId>-<TxHash>-<EventIndex>` under the given key
(its keeper file is not among the sources). -/
def SetFinalizedInbound (ctx : Ctx) (finalizedInboundIndex : String) : Ctx :=
  { ctx with finalizedInbounds := storeSet id ctx.finalizedInbounds finalizedInboundIndex }

/-- Modelled from the spec: iteration over the outbound trackers. -/
def GetAllOutTxTracker (ctx : Ctx) : List OutTxTracker :=
  ctx.outTxTrackers

/-- Modelled from the spec: iteration over the inbound trackers. -/
def GetAllInTxTracker (ctx : Ctx) : List InTxTracker :=
  ctx.inTxTrackers

/-- Modelled from the spec: iteration over the inbound hash index. -/
def GetAllInTxHashToCctx (ctx : Ctx) : List InTxHashToCctx :=
  ctx.inTxHashToCctx

/-- Modelled from the spec: iteration over the gas prices. -/
def GetAllGasPrice (ctx : Ctx) : List GasPrice :=
  ctx.gasPrices

/-- Modelled from the spec: iteration over the last block heights. -/
def GetAllLastBlockHeight (ctx : Ctx) : List LastBlockHeight :=
  ctx.lastBlockHeights

/-- Modelled from the spec: iteration over the finalized inbound markers. -/
def GetAllFinalizedInbound (ctx : Ctx) : List String :=
  ctx.finalizedInbounds

/-- InitGenesis initializes the crosschain module's state from a provided
genesis state. -/
def InitGenesis (ctx : Ctx) (genState : GenesisState) : Ctx :=
  -- Params
  let ctx := SetParams ctx genState.Params
  let ctx := SetZetaAccounting ctx genState.ZetaAccounting
  -- Set all the outTxTracker
  let ctx := genState.OutTxTrackerList.foldl SetOutTxTracker ctx
  -- Set all the inTxTracker
  let ctx := genState.InTxTrackerList.foldl SetInTxTracker ctx
  -- Set all the inTxHashToCctx
  let ctx := genState.InTxHashToCctxList.foldl SetInTxHashToCctx ctx
  -- Set all the gasPrice
  let ctx := genState.GasPriceList.foldl
    (fun c elem => match elem with
      | some g => SetGasPrice c g
      | none => c) ctx
  -- Set all the last block heights
  let ctx := genState.LastBlockHeightList.foldl
    (fun c elem => match elem with
      | some h => SetLastBlockHeight c h
      | none => c) ctx
  -- Set all the cross-chain txs
  let ctx := genState.CrossChainTxs.foldl
    (fun c elem => match elem with
      | some cctx => SetCctxAndNonceToCctxAndInTxHashToCctx c cctx
      | none => c) ctx
  genState.FinalizedInbounds.foldl SetFinalizedInbound ctx

/-- ExportGenesis returns the crosschain module's exported genesis. -/
def ExportGenesis (ctx : Ctx) : GenesisState :=
  { Params := GetParams ctx,
    OutTxTrackerList := GetAllOutTxTracker ctx,
    InTxHashToCctxList := GetAllInTxHashToCctx ctx,
    InTxTrackerList := GetAllInTxTracker ctx,
    -- Get all gas prices
    GasPriceList := (GetAllGasPrice ctx).map some,
    -- Get all last block heights
    LastBlockHeightList := (GetAllLastBlockHeight ctx).map some,
    -- Get all send
    CrossChainTxs := (GetAllCrossChainTx ctx).map some,
    ZetaAccounting :=
      match GetZetaAccounting ctx with
      | some amount => amount
      | none => { AbortedZetaAmount := 0 },
    FinalizedInbounds := GetAllFinalizedInbound ctx }

/-- The crosschain module's stores emptied, the other keepers as they are: the
state on which `InitGenesis` of the module runs. -/
def emptyStore (ctx : Ctx) : Ctx :=
  { ctx with
    params := { Enabled := false },
    zetaAccounting := none,
    outTxTrackers := [],
    inTxTrackers := [],
    inTxHashToCctx := [],
    gasPrices := [],
    lastBlockHeights := [],
    cctxs := [],
    finalizedInbounds := [] }

/-! ## x/observer/keeper/msg_server_add_block_header.go -/

/-- Errors of the observer message server. -/
inductive ObserverErr where
  | SupportedChains
  | NotAuthorizedPolicy
  | CrosschainFlagsNotFound
  | VerificationFlagsNotFound
  | BlockHeaderVerificationDisabled
  | BlockAlreadyExist
  | NoParentHash
  | InvalidTimestamp
  | FindBallotFailed
  | AddVoteFailed
  deriving DecidableEq, Repr

/-- Result of an `int64` operation: two's complement wrap-around. -/
def wrapInt64 (x : Int) : Int :=
  (x + 2 ^ 63) % 2 ^ 64 - 2 ^ 63

/-- Modelled from the spec: `BlockHeaderState` per chain (the observer keeper
file of this store is not among the sources). Read; `none` is `found = false`. -/
def GetBlockHeaderState (ctx : Ctx) (chainID : Int) : Option BlockHeaderState :=
  ctx.blockHeaderStates.find? (fun b => decide (b.ChainId = chainID))

/-- Modelled from the spec: write of the `BlockHeaderState` of a chain. -/
def SetBlockHeaderState (ctx : Ctx) (bhs : BlockHeaderState) : Ctx :=
  { ctx with blockHeaderStates :=
      bhs :: List.filter (fun b => !decide (b.ChainId = bhs.ChainId)) ctx.blockHeaderStates }

/-- Modelled from the spec: write of the block header store, keyed by block hash. -/
def SetBlockHeader (ctx : Ctx) (bh : BlockHeader) : Ctx :=
  { ctx with blockHeaders :=
      (bh.Hash, bh) :: List.filter (fun e => !decide (e.1 = bh.Hash)) ctx.blockHeaders }

/-- The parent check of `AddBlockHeader`: if BlockHeaderState exists and the
height is above its earliest one, the parent header must be stored and the
height must be the latest one plus one. -/
def checkParentHeader (lib : Lib) (ctx : Ctx) (msg : MsgAddBlockHeader) :
    Except ObserverErr Unit :=
  match GetBlockHeaderState ctx msg.ChainId with
  | none => .ok ()
  | some bhs =>
    if bhs.EarliestHeight > 0 ∧ bhs.EarliestHeight < msg.Height then
      match lib.HeaderParentHash msg.Header with
      | none => .error ObserverErr.NoParentHash
      | some pHash =>
        match GetBlockHeader ctx pHash with
        | none => .error ObserverErr.NoParentHash
        | some _ =>
          if msg.Height ≠ wrapInt64 (bhs.LatestHeight + 1) then
            .error ObserverErr.NoParentHash
          else .ok ()
    else .ok ()

/-- The BlockHeaderState written when the vote is finalized. -/
def nextBlockHeaderState (ctx : Ctx) (msg : MsgAddBlockHeader) : BlockHeaderState :=
  match GetBlockHeaderState ctx msg.ChainId with
  | none =>
    { ChainId := msg.ChainId, LatestHeight := msg.Height, EarliestHeight := msg.Height,
      LatestBlockHash := msg.BlockHash }
  | some bhs =>
    let bhs1 : BlockHeaderState :=
      if msg.Height > bhs.LatestHeight then
        { bhs with LatestHeight := msg.Height, LatestBlockHash := msg.BlockHash }
      else bhs
    if bhs1.EarliestHeight = 0 then { bhs1 with EarliestHeight := msg.Height } else bhs1

/-- AddBlockHeader handles adding a block header to the store, through
majority voting of observers. The result pairs the state after the call with
the Go return value. -/
def AddBlockHeader (lib : Lib) (ctx : Ctx) (msg : MsgAddBlockHeader) :
    Ctx × Except ObserverErr Unit :=
  -- check authorization for this chain
  match GetSupportedChainFromChainID ctx msg.ChainId with
  | none => (ctx, .error ObserverErr.SupportedChains)
  | some _ =>
    if !ctx.observerIsAuthorized msg.Creator then
      (ctx, .error ObserverErr.NotAuthorizedPolicy)
    else
      match ctx.crosschainFlags with
      | none => (ctx, .error ObserverErr.CrosschainFlagsNotFound)
      | some crosschainFlags =>
        match crosschainFlags.BlockHeaderVerificationFlags with
        | none => (ctx, .error ObserverErr.VerificationFlagsNotFound)
        | some flags =>
          if lib.IsBitcoinChain msg.ChainId && !flags.IsBtcTypeChainEnabled then
            (ctx, .error ObserverErr.BlockHeaderVerificationDisabled)
          else if lib.IsEVMChain msg.ChainId && !flags.IsEthTypeChainEnabled then
            (ctx, .error ObserverErr.BlockHeaderVerificationDisabled)
          else
            match GetBlockHeader ctx msg.BlockHash with
            | some _ => (ctx, .error ObserverErr.BlockAlreadyExist)
            | none =>
              match checkParentHeader lib ctx msg with
              | .error e => (ctx, .error e)
              | .ok _ =>
                -- Check timestamp
                if !lib.HeaderValidateTimestamp msg.Header ctx.blockTime then
                  (ctx, .error ObserverErr.InvalidTimestamp)
                else
                  match lib.HeaderParentHash msg.Header with
                  | none => (ctx, .error ObserverErr.NoParentHash)
                  | some pHash =>
                    -- add vote to ballot
                    match ctx.ballotVote (lib.AddBlockHeaderDigest msg) msg.Creator with
                    | BallotOutcome.findBallotFailed =>
                      (ctx, .error ObserverErr.FindBallotFailed)
                    | BallotOutcome.addVoteFailed => (ctx, .error ObserverErr.AddVoteFailed)
                    | BallotOutcome.voted false => (ctx, .ok ())
                    | BallotOutcome.voted true =>
                      -- Vote finalized, add block header to store
                      let ctx1 := SetBlockHeaderState ctx (nextBlockHeaderState ctx msg)
                      (SetBlockHeader ctx1
                        { Header := msg.Header, Height := msg.Height, Hash := msg.BlockHash,
                          ParentHash := pHash, ChainId := msg.ChainId },
                       .ok ())

/-! ## x/observer/keeper/msg_server_update_crosschain_flags.go -/

/-- Modelled from the spec: the crosschain flags are one record of the
observer keeper (its accessors are not among the sources). Read; `none` is
`found = false`. -/
def GetCrosschainFlags (ctx : Ctx) : Option CrosschainFlags :=
  ctx.crosschainFlags

/-- Modelled from the spec: write of the crosschain flags record. -/
def SetCrosschainFlags (ctx : Ctx) (flags : CrosschainFlags) : Ctx :=
  { ctx with crosschainFlags := some flags }

/-- UpdateCrosschainFlags updates the crosschain related flags. Authorized:
admin policy group 1 (except enabling/disabled inbounds/outbounds and gas
price increase), admin policy group 2 (all). The event the handler emits is
not part of the state. -/
def UpdateCrosschainFlags (lib : Lib) (ctx : Ctx) (msg : MsgUpdateCrosschainFlags) :
    Ctx × Except ObserverErr Unit :=
  -- check permission
  if !ctx.authorityIsAuthorized msg.Creator (lib.GetRequiredPolicyType msg) then
    (ctx, .error ObserverErr.NotAuthorizedPolicy)
  else
    -- check if the value exists
    let flags : CrosschainFlags :=
      match GetCrosschainFlags ctx with
      | some flags => flags
      | none => lib.DefaultCrosschainFlags
    -- update values
    let flags : CrosschainFlags :=
      { flags with
        IsInboundEnabled := msg.IsInboundEnabled, IsOutboundEnabled := msg.IsOutboundEnabled }
    let flags : CrosschainFlags :=
      match msg.GasPriceIncreaseFlags with
      | some g => { flags with GasPriceIncreaseFlags := some g }
      | none => flags
    let flags : CrosschainFlags :=
      match msg.BlockHeaderVerificationFlags with
      | some b => { flags with BlockHeaderVerificationFlags := some b }
      | none => flags
    (SetCrosschainFlags ctx flags, .ok ())

/-! ## x/observer/types/nonce_to_cctx.pb.go -/

/-- NonceToCctx as the generated code handles it: two `int64` and two Go
strings, which are byte sequences. -/
structure pb.NonceToCctx where
  ChainId : Int
  Nonce : Int
  CctxIndex : Bytes
  Tss : Bytes
  deriving DecidableEq, Repr

/-- Errors of the generated decoder; `fmt.Errorf` values are told apart by
their text. -/
inductive pb.Err where
  | ErrInvalidLengthNonceToCctx
  | ErrIntOverflowNonceToCctx
  | ErrUnexpectedEndOfGroupNonceToCctx
  | ErrUnexpectedEOF
  | endGroupForNonGroup
  | illegalTag
  | wrongWireType
  | illegalWireType
  deriving DecidableEq, Repr

/-- Conversion `uint64(x)` of an `int64`. -/
def toUint64 (x : Int) : Nat := (x % 2 ^ 64).toNat

/-- Conversion `int32(x)` of a `uint64`. -/
def toInt32 (x : Nat) : Int :=
  if x % 2 ^ 32 < 2 ^ 31 then ((x % 2 ^ 32 : Nat) : Int) else ((x % 2 ^ 32 : Nat) : Int) - 2 ^ 32

/-- The halvings of `x` down to 0, at most as many as the first argument. -/
def Len64Loop : Nat → Nat → Nat
  | 0, _ => 0
  | fuel + 1, x => if x = 0 then 0 else Len64Loop fuel (x / 2) + 1

/-- Go `bits.Len64`: the minimum number of bits that represent the `uint64`
`x`, 0 for 0. -/
def Len64 (x : Nat) : Nat := Len64Loop 64 x

/-- Function sovNonceToCctx: the number of bytes of the varint of `x`. -/
def pb.sovNonceToCctx (x : Nat) : Nat :=
  (Len64 (x ||| 1) + 6) / 7

/-- The loop of `encodeVarintNonceToCctx` with its last write: the bytes it
puts in ascending positions. On a `uint64` the loop runs at most 9 times. -/
def pb.encodeVarintLoop : Nat → Nat → Bytes
  | 0, v => [v % 256]
  | fuel + 1, v =>
    if v ≥ 128 then ((v &&& 0x7f ||| 0x80) % 256) :: pb.encodeVarintLoop fuel (v >>> 7)
    else [v % 256]

/-- Writes to `dAtA[pos]`, `dAtA[pos+1]`, ...; `none` is the panic of an index
out of range. -/
def pb.putAt (dAtA : Bytes) (pos : Nat) (bs : Bytes) : Option Bytes :=
  if pos + bs.length ≤ dAtA.length then
    some (dAtA.take pos ++ bs ++ dAtA.drop (pos + bs.length))
  else none

/-- Function encodeVarintNonceToCctx: the buffer after the writes and the
returned `base`; `none` is a panic (negative or too large an index). -/
def pb.encodeVarintNonceToCctx (dAtA : Bytes) (offset : Nat) (v : Nat) : Option (Bytes × Nat) :=
  if offset < pb.sovNonceToCctx v then none
  else
    let base := offset - pb.sovNonceToCctx v
    match pb.putAt dAtA base (pb.encodeVarintLoop 9 v) with
    | none => none
    | some d => some (d, base)

/-- Size of the encoding, as the generated code computes it. -/
def pb.NonceToCctx.Size (m : pb.NonceToCctx) : Nat :=
  let n := 0
  let n := if m.ChainId ≠ 0 then n + (1 + pb.sovNonceToCctx (toUint64 m.ChainId)) else n
  let n := if m.Nonce ≠ 0 then n + (1 + pb.sovNonceToCctx (toUint64 m.Nonce)) else n
  let l := m.CctxIndex.length
  let n := if l > 0 then n + (1 + l + pb.sovNonceToCctx l) else n
  let l := m.Tss.length
  let n := if l > 0 then n + (1 + l + pb.sovNonceToCctx l) else n
  n

/-- The block of `MarshalToSizedBuffer` for a string field with tag byte `tag`:
the string is copied before `i`, then its length and the tag are written. -/
def pb.marshalString (tag : Nat) (s : Bytes) (dAtA : Bytes) (i : Nat) : Option (Bytes × Nat) :=
  if s.length > 0 then
    if i < s.length then none
    else
      match pb.putAt dAtA (i - s.length) s with
      | none => none
      | some d1 =>
        match pb.encodeVarintNonceToCctx d1 (i - s.length) s.length with
        | none => none
        | some (d2, i2) =>
          if i2 < 1 then none
          else
            match pb.putAt d2 (i2 - 1) [tag] with
            | none => none
            | some d3 => some (d3, i2 - 1)
  else some (dAtA, i)

/-- The block of `MarshalToSizedBuffer` for an `int64` field with tag byte `tag`. -/
def pb.marshalInt64 (tag : Nat) (x : Int) (dAtA : Bytes) (i : Nat) : Option (Bytes × Nat) :=
  if x ≠ 0 then
    match pb.encodeVarintNonceToCctx dAtA i (toUint64 x) with
    | none => none
    | some (d1, i1) =>
      if i1 < 1 then none
      else
        match pb.putAt d1 (i1 - 1) [tag] with
        | none => none
        | some d2 => some (d2, i1 - 1)
  else some (dAtA, i)

/-- MarshalToSizedBuffer fills the buffer from its end: the buffer after the
writes and the number of bytes written; `none` is a panic. -/
def pb.NonceToCctx.MarshalToSizedBuffer (m : pb.NonceToCctx) (dAtA : Bytes) :
    Option (Bytes × Nat) :=
  match pb.marshalString 0x22 m.Tss dAtA dAtA.length with
  | none => none
  | some (d1, i1) =>
    match pb.marshalString 0x1a m.CctxIndex d1 i1 with
    | none => none
    | some (d2, i2) =>
      match pb.marshalInt64 0x10 m.Nonce d2 i2 with
      | none => none
      | some (d3, i3) =>
        match pb.marshalInt64 0x8 m.ChainId d3 i3 with
        | none => none
        | some (d4, i4) => some (d4, dAtA.length - i4)

/-- Marshal: a buffer of `Size()` bytes is filled and its first `n` bytes are
returned; `none` is a panic. -/
def pb.NonceToCctx.Marshal (m : pb.NonceToCctx) : Option Bytes :=
  let size := m.Size
  match m.MarshalToSizedBuffer (List.replicate size 0) with
  | none => none
  | some (dAtA, n) => some (dAtA.take n)

/-- The varint loop of the decoder from the bytes at `iNdEx` on: the `uint64`
read and the bytes after it. -/
def pb.readVarint : Bytes → Nat → Nat → Except pb.Err (Nat × Bytes)
  | rest, shift, acc =>
    if shift ≥ 64 then .error pb.Err.ErrIntOverflowNonceToCctx
    else
      match rest with
      | [] => .error pb.Err.ErrUnexpectedEOF
      | b :: rest1 =>
        let acc1 := (acc ||| ((b &&& 0x7F) <<< shift)) % 2 ^ 64
        if b < 0x80 then .ok (acc1, rest1) else pb.readVarint rest1 (shift + 7) acc1

/-- The varint loop of `skipNonceToCctx` for wire type 0: the bytes after the
varint. -/
def pb.skipVarint : Bytes → Nat → Except pb.Err Bytes
  | rest, shift =>
    if shift ≥ 64 then .error pb.Err.ErrIntOverflowNonceToCctx
    else
      match rest with
      | [] => .error pb.Err.ErrUnexpectedEOF
      | b :: rest1 => if b < 0x80 then .ok rest1 else pb.skipVarint rest1 (shift + 7)

/-- The loop of `skipNonceToCctx` at position `iNdEx` and group depth `depth`;
the first argument bounds the number of passes, each of which moves `iNdEx`
forward. -/
def pb.skipLoop (dAtA : Bytes) : Nat → Nat → Nat → Except pb.Err Nat
  | 0, _, _ => .error pb.Err.ErrUnexpectedEOF
  | fuel + 1, iNdEx, depth =>
    let l := dAtA.length
    if iNdEx < l then
      match pb.readVarint (dAtA.drop iNdEx) 0 0 with
      | .error e => .error e
      | .ok (wire, rest) =>
        let iNdEx := l - rest.length
        let wireType := wire &&& 0x7
        let step : Except pb.Err (Nat × Nat) :=
          if wireType = 0 then
            match pb.skipVarint rest 0 with
            | .error e => .error e
            | .ok rest1 => .ok (l - rest1.length, depth)
          else if wireType = 1 then .ok (iNdEx + 8, depth)
          else if wireType = 2 then
            match pb.readVarint rest 0 0 with
            | .error e => .error e
            | .ok (length, rest1) =>
              if toInt64 length < 0 then .error pb.Err.ErrInvalidLengthNonceToCctx
              else .ok (l - rest1.length + length, depth)
          else if wireType = 3 then .ok (iNdEx, depth + 1)
          else if wireType = 4 then
            if depth = 0 then .error pb.Err.ErrUnexpectedEndOfGroupNonceToCctx
            else .ok (iNdEx, depth - 1)
          else if wireType = 5 then .ok (iNdEx + 4, depth)
          else .error pb.Err.illegalWireType
        match step with
        | .error e => .error e
        | .ok (iNdEx, depth) =>
          if iNdEx ≥ 2 ^ 63 then .error pb.Err.ErrInvalidLengthNonceToCctx
          else if depth = 0 then .ok iNdEx
          else pb.skipLoop dAtA fuel iNdEx depth
    else .error pb.Err.ErrUnexpectedEOF

/-- Function skipNonceToCctx: the length of the field at the head of `dAtA`. -/
def pb.skipNonceToCctx (dAtA : Bytes) : Except pb.Err Nat :=
  pb.skipLoop dAtA (dAtA.length + 1) 0 0

/-- A string field of the decoder: the length is read, then the bytes; `l` is
`len(dAtA)` and the position `iNdEx` is `l` less the number of bytes left. -/
def pb.readString (l : Nat) (rest : Bytes) : Except pb.Err (Bytes × Bytes) :=
  match pb.readVarint rest 0 0 with
  | .error e => .error e
  | .ok (stringLen, rest1) =>
    let iNdEx := l - rest1.length
    if toInt64 stringLen < 0 then .error pb.Err.ErrInvalidLengthNonceToCctx
    else if iNdEx + stringLen ≥ 2 ^ 63 then .error pb.Err.ErrInvalidLengthNonceToCctx
    else if iNdEx + stringLen > l then .error pb.Err.ErrUnexpectedEOF
    else .ok (rest1.take stringLen, rest1.drop stringLen)

/-- The loop `for iNdEx < l` of Unmarshal over the bytes left; the first
argument bounds the number of passes, each of which reads at least one byte. -/
def pb.unmarshalLoop (l : Nat) : Nat → Bytes → pb.NonceToCctx → Except pb.Err pb.NonceToCctx
  | 0, _, _ => .error pb.Err.ErrUnexpectedEOF
  | fuel + 1, rest, m =>
    match rest with
    | [] => .ok m
    | _ :: _ =>
      match pb.readVarint rest 0 0 with
      | .error e => .error e
      | .ok (wire, rest1) =>
        let fieldNum := toInt32 (wire >>> 3)
        let wireType := wire &&& 0x7
        if wireType = 4 then .error pb.Err.endGroupForNonGroup
        else if fieldNum ≤ 0 then .error pb.Err.illegalTag
        else if fieldNum = 1 then
          if wireType ≠ 0 then .error pb.Err.wrongWireType
          else
            match pb.readVarint rest1 0 0 with
            | .error e => .error e
            | .ok (v, rest2) => pb.unmarshalLoop l fuel rest2 { m with ChainId := toInt64 v }
        else if fieldNum = 2 then
          if wireType ≠ 0 then .error pb.Err.wrongWireType
          else
            match pb.readVarint rest1 0 0 with
            | .error e => .error e
            | .ok (v, rest2) => pb.unmarshalLoop l fuel rest2 { m with Nonce := toInt64 v }
        else if fieldNum = 3 then
          if wireType ≠ 2 then .error pb.Err.wrongWireType
          else
            match pb.readString l rest1 with
            | .error e => .error e
            | .ok (str, rest2) => pb.unmarshalLoop l fuel rest2 { m with CctxIndex := str }
        else if fieldNum = 4 then
          if wireType ≠ 2 then .error pb.Err.wrongWireType
          else
            match pb.readString l rest1 with
            | .error e => .error e
            | .ok (str, rest2) => pb.unmarshalLoop l fuel rest2 { m with Tss := str }
        else
          let iNdEx := l - rest.length
          match pb.skipNonceToCctx rest with
          | .error e => .error e
          | .ok skippy =>
            if iNdEx + skippy ≥ 2 ^ 63 then .error pb.Err.ErrInvalidLengthNonceToCctx
            else if iNdEx + skippy > l then .error pb.Err.ErrUnexpectedEOF
            else pb.unmarshalLoop l fuel (rest.drop skippy) m

/-- Unmarshal decodes `dAtA` into the message `m`. -/
def pb.NonceToCctx.Unmarshal (m : pb.NonceToCctx) (dAtA : Bytes) :
    Except pb.Err pb.NonceToCctx :=
  pb.unmarshalLoop dAtA.length (dAtA.length + 1) dAtA m

/-- Modelled from the spec: the NonceToCctx store of the observer keeper holds,
under the key made of tss, chain id and nonce, the encoding of the record (the
keeper file is not among the sources). Write; `none` is a panic of the codec. -/
def pb.SetNonceToCctx (store : List ((Bytes × Int × Int) × Bytes)) (n : pb.NonceToCctx) :
    Option (List ((Bytes × Int × Int) × Bytes)) :=
  match n.Marshal with
  | none => none
  | some bz => some (mapSet store (n.Tss, n.ChainId, n.Nonce) bz)

/-- Modelled from the spec: read of the NonceToCctx store; `none` is
`found = false`, an error is the panic of `MustUnmarshal`. -/
def pb.GetNonceToCctx (store : List ((Bytes × Int × Int) × Bytes)) (tss : Bytes)
    (chainID nonce : Int) : Option (Except pb.Err pb.NonceToCctx) :=
  match mapGet store (tss, chainID, nonce) with
  | none => none
  | some bz =>
    some (pb.NonceToCctx.Unmarshal
      { ChainId := 0, Nonce := 0, CctxIndex := [], Tss := [] } bz)

/-! ## zetaclient/evm/evm_client.go: state and collaborators -/

/-- Log of a receipt (`ethtypes.Log`). -/
structure EthLog where
  Address : String
  Topics : List String
  BlockNumber : Nat
  TxHash : String
  TxIndex : Nat
  Index : Nat
  deriving DecidableEq, Repr

/-- Receipt of a transaction (`ethtypes.Receipt`); `TxHash` is `TxHash.Hex()`
and `BlockNumber` is `BlockNumber.Uint64()`, the forms in which the client
reads them. -/
structure Receipt where
  Status : Nat
  TxHash : String
  BlockNumber : Nat
  TransactionIndex : Nat
  GasUsed : Nat
  Logs : List EthLog
  deriving DecidableEq, Repr

/-- Transaction as the client reads it (`ethtypes.Transaction`): `HashHex` is
`Hash().Hex()`. -/
structure Transaction where
  HashHex : String
  Nonce : Nat
  GasPrice : Nat
  Gas : Nat
  Value : Nat
  deriving DecidableEq, Repr

/-- Transaction of a JSON-RPC block (`ethrpc.Transaction`). -/
structure RpcTransaction where
  Hash : String
  From : String
  To : String
  deriving DecidableEq, Repr

/-- Block of the JSON-RPC client (`ethrpc.Block`). -/
structure RpcBlock where
  Number : Nat
  Transactions : List RpcTransaction
  deriving DecidableEq, Repr

/-- Event of a contract filterer (ZetaSent, Deposited): the raw log and the
decoded payload. -/
structure ContractEvent where
  Raw : EthLog
  Payload : Bytes
  deriving DecidableEq, Repr

/-- ReceiveStatus of the `common` package. -/
inductive ReceiveStatus where
  | Created
  | Success
  | Failed
  deriving DecidableEq, Repr

/-- The arguments of one `PostVoteOutbound` call. -/
structure OutboundVote where
  SendHash : String
  OutTxHash : String
  OutBlockHeight : Nat
  OutTxGasUsed : Nat
  OutTxEffectiveGasPrice : Nat
  OutTxEffectiveGasLimit : Nat
  Amount : Nat
  Status : ReceiveStatus
  ChainId : Int
  Nonce : Nat
  CoinType : CoinType
  deriving DecidableEq, Repr

/-- The four event topics sets `ValidateEvmTxLog` is called with. -/
inductive TopicsKind where
  | ZetaSent
  | Deposited
  | ZetaReceived
  | ZetaReverted
  | Withdrawn
  deriving DecidableEq, Repr

/-- Steps of a tick that are visible from outside the fields of the client, in
the order taken: an extractor entered, or a call that posts to zetacore. -/
inductive Call where
  | observeZetaSent (startBlock toBlock : Nat)
  | observeERC20Deposited (startBlock toBlock : Nat)
  | observerTSSReceive (startBlock toBlock : Nat)
  | postVoteInbound (msg : MsgVoteOnObservedInboundTx) (coinType : CoinType) (gasLimit : Nat)
  | checkAndVoteInboundTokenGas (tx : RpcTransaction) (receipt : Option Receipt)
  | postAddBlockHeader (hash : Bytes) (height : Int) (header : Bytes)
  | postVoteOutbound (vote : OutboundVote)
  deriving DecidableEq, Repr

/-- Answer of `evmClient.TransactionReceipt`: an error, a nil receipt without
error, or a receipt. -/
inductive ReceiptAnswer where
  | failed
  | nilReceipt
  | receipt (r : Receipt)
  deriving DecidableEq, Repr

/-- Header of an external block (`ethtypes.Header`) with its hash and its RLP
encoding (`none` when the encoding fails). -/
structure EthHeader where
  Number : Nat
  Hash : Bytes
  RLP : Option Bytes
  deriving DecidableEq, Repr

/-- The collaborators of one EVM chain client during a tick: the chain and TSS
it is configured with, the RPC endpoint, the zetacore bridge and the functions
of the client that are not in `evm_client.go`. An answer depends on the
arguments of the call only: the collaborators do not change during the tick. -/
structure EvmWorld where
  /-- Chain id `ob.chain.ChainId` -/
  chainId : Int
  /-- Address `ob.Tss.EVMAddress()` -/
  tssEVMAddress : Bytes
  /-- Text `ob.Tss.EVMAddress().String()` -/
  tssEVMAddressString : String
  /-- Chain params `ob.GetChainParams()` -/
  chainParams : ChainParams
  /-- Predicate `common.IsHeaderSupportedEvmChain(ob.chain.ChainId)` -/
  headerSupportedEvmChain : Bool
  /-- Query `zetaClient.GetCrosschainFlags`; `none` is an error -/
  GetCrosschainFlags : Option CrosschainFlags
  /-- Query `evmClient.BlockNumber`; `none` is an error -/
  BlockNumber : Option Nat
  /-- Query `evmClient.TransactionByHash`: `none` is an error, else the
  transaction (`none` for nil) and `isPending` -/
  TransactionByHash : String → Option (Option Transaction × Bool)
  /-- Recovery `signer.Sender` under the London signer of the chain; `none` is an error -/
  Sender : Transaction → Option Bytes
  /-- Query `evmClient.TransactionReceipt` -/
  TransactionReceipt : String → ReceiptAnswer
  /-- Check `ob.HasEnoughConfirmations` of a receipt against the last block height -/
  HasEnoughConfirmations : Receipt → Nat → Bool
  /-- Constant `config.MaxBlocksPerPeriod` -/
  MaxBlocksPerPeriod : Nat
  /-- Constant `zetabridge.PostVoteInboundMessagePassingExecutionGasLimit` -/
  PostVoteInboundMessagePassingExecutionGasLimit : Nat
  /-- Constant `zetabridge.PostVoteInboundExecutionGasLimit` -/
  PostVoteInboundExecutionGasLimit : Nat
  /-- Write `ob.db.Save` of the last scanned block; `false` is an error -/
  dbSave : Nat → Bool
  /-- Query `evmJSONRPC.EthGetBlockByNumber`; `none` is an error -/
  EthGetBlockByNumber : Nat → Option RpcBlock
  /-- Query `evmJSONRPC.EthGetTransactionByHash`; `none` is an error -/
  EthGetTransactionByHash : String → Option RpcTransaction
  /-- Check `ValidateEvmTransaction`; `false` is an error -/
  ValidateEvmTransaction : RpcTransaction → Bool
  /-- Conversion `ethcommon.HexToAddress` -/
  HexToAddress : String → Bytes
  /-- Go `strings.EqualFold` -/
  EqualFold : String → String → Bool
  /-- Query `evmClient.HeaderByNumber`; `none` is an error -/
  HeaderByNumber : Nat → Option EthHeader
  /-- Query `zetaClient.GetBlockHeaderStateByChain`; `none` is an error or a nil state -/
  GetBlockHeaderStateByChain : Option BlockHeaderState
  /-- Call `zetaClient.PostAddBlockHeader` of a hash, a height and a header;
  `false` is an error -/
  PostAddBlockHeader : Bytes → Int → Bytes → Bool
  /-- Binding `FetchConnectorContract`; `false` is an error -/
  ConnectorContractOk : Bool
  /-- Binding `FetchERC20CustodyContract`; `false` is an error -/
  ERC20CustodyContractOk : Bool
  /-- Filter `connector.FilterZetaSent` over a block range, the events in the
  order the iterator gives them; `none` is an error -/
  FilterZetaSent : Nat → Nat → Option (List ContractEvent)
  /-- Filter `erc20custodyContract.FilterDeposited`; `none` is an error -/
  FilterDeposited : Nat → Nat → Option (List ContractEvent)
  /-- Check `ValidateEvmTxLog` of a log against a contract address, a
  transaction hash and the topics of an event; `false` is an error -/
  ValidateEvmTxLog : EthLog → Bytes → String → TopicsKind → Bool
  /-- Builder `BuildInboundVoteMsgForZetaSentEvent`; `none` is nil -/
  BuildInboundVoteMsgForZetaSentEvent : ContractEvent → Option MsgVoteOnObservedInboundTx
  /-- Builder `BuildInboundVoteMsgForDepositedEvent` of an event and a sender; `none` is nil -/
  BuildInboundVoteMsgForDepositedEvent :
    ContractEvent → Bytes → Option MsgVoteOnObservedInboundTx
  /-- Call `ob.PostVoteInbound` of a message, a coin type and a gas limit;
  `false` is an error -/
  PostVoteInbound : MsgVoteOnObservedInboundTx → CoinType → Nat → Bool
  /-- Call `ob.CheckAndVoteInboundTokenGas` of a transaction and its receipt
  (`none` for nil); `false` is an error -/
  CheckAndVoteInboundTokenGas : RpcTransaction → Option Receipt → Bool
  /-- Query `zetaClient.GetAllOutTxTrackerByChain`, ascending; `none` is an error -/
  GetAllOutTxTrackerByChain : Option (List OutTxTracker)
  /-- Whether the timeout of the tick has fired when the hash at the given
  position of the tracker of the given nonce is reached -/
  outTimeout : Nat → Nat → Bool
  /-- Predicate `clientcommon.IsCctxRestricted` -/
  IsCctxRestricted : CrossChainTx → Bool
  /-- Call `zetaClient.PostVoteOutbound`: `none` is an error, else the zeta tx hash -/
  PostVoteOutbound : OutboundVote → Option String
  /-- Parser `ParseZetaReceived`: the ZetaValue of the event; `none` is an error -/
  ParseZetaReceived : EthLog → Option Nat
  /-- Parser `ParseZetaReverted`: the RemainingZetaValue; `none` is an error -/
  ParseZetaReverted : EthLog → Option Nat
  /-- Parser `ParseWithdrawn`: the Amount; `none` is an error -/
  ParseWithdrawn : EthLog → Option Nat

/-- The fields of `ChainClient` that a tick reads and writes, and the calls it
has made to its collaborators. -/
structure ChainClient where
  lastBlockScanned : Nat
  lastBlock : Nat
  outTxPendingTransactions : List (String × Transaction)
  outTXConfirmedReceipts : List (String × Receipt)
  outTXConfirmedTransactions : List (String × Transaction)
  /-- Block cache, an LRU of 1000 entries, most recently used first -/
  blockCache : List (Nat × RpcBlock)
  /-- Header cache, an LRU of 1000 entries -/
  headerCache : List (Nat × EthHeader)
  /-- Height given to `ts.SetLastScannedBlockNumber` last -/
  telemetryLastScanned : Option Nat
  /-- Row `last_block` of the local database -/
  dbLastBlock : Option Nat
  /-- Calls made to the collaborators, oldest first -/
  calls : List Call
  deriving DecidableEq, Repr

/-- LRU read (`lru.Cache.Get`): the entry moves to the front. -/
def lruGet {V : Type} (c : List (Nat × V)) (k : Nat) : Option (V × List (Nat × V)) :=
  match mapGet c k with
  | some v => some (v, (k, v) :: mapDelete c k)
  | none => none

/-- LRU write (`lru.Cache.Add`) with capacity `size`: the entry goes to the
front and the least recently used ones beyond the capacity go. -/
def lruAdd {V : Type} (size : Nat) (c : List (Nat × V)) (k : Nat) (v : V) : List (Nat × V) :=
  ((k, v) :: mapDelete c k).take size

/-- Capacity of the block and header caches, `lru.New(1000)`. -/
def cacheSize : Nat := 1000

/-- Largest `int64`, `math.MaxInt64`. -/
def MaxInt64 : Nat := 2 ^ 63 - 1

/-- Largest `int32`, `math.MaxInt32`. -/
def MaxInt32 : Nat := 2 ^ 31 - 1

/-- Result of a `uint64` addition. -/
def addU64 (a b : Nat) : Nat := (a + b) % 2 ^ 64

/-- Result of a `uint64` subtraction. -/
def subU64 (a b : Nat) : Nat := (a + 2 ^ 64 - b % 2 ^ 64) % 2 ^ 64

/-- GetTxID: the key of a nonce in the maps of the client. -/
def GetTxID (w : EvmWorld) (nonce : Nat) : String :=
  toString w.chainId ++ "-" ++ w.tssEVMAddressString ++ "-" ++ toString nonce

/-- SetPendingTx sets the pending transaction in memory. -/
def SetPendingTx (w : EvmWorld) (ob : ChainClient) (nonce : Nat) (transaction : Transaction) :
    ChainClient :=
  { ob with
    outTxPendingTransactions := mapSet ob.outTxPendingTransactions (GetTxID w nonce) transaction }

/-- SetTxNReceipt sets the receipt and transaction in memory. -/
def SetTxNReceipt (w : EvmWorld) (ob : ChainClient) (nonce : Nat) (receipt : Receipt)
    (transaction : Transaction) : ChainClient :=
  { ob with
    outTxPendingTransactions := mapDelete ob.outTxPendingTransactions (GetTxID w nonce),
    outTXConfirmedReceipts := mapSet ob.outTXConfirmedReceipts (GetTxID w nonce) receipt,
    outTXConfirmedTransactions :=
      mapSet ob.outTXConfirmedTransactions (GetTxID w nonce) transaction }

/-- GetTxNReceipt gets the receipt and transaction from memory; `none` is nil. -/
def GetTxNReceipt (w : EvmWorld) (ob : ChainClient) (nonce : Nat) :
    Option Receipt × Option Transaction :=
  (mapGet ob.outTXConfirmedReceipts (GetTxID w nonce),
   mapGet ob.outTXConfirmedTransactions (GetTxID w nonce))

/-- Predicate isTxConfirmed returns true if there is a confirmed tx for `nonce`. -/
def isTxConfirmed (w : EvmWorld) (ob : ChainClient) (nonce : Nat) : Bool :=
  (mapGet ob.outTXConfirmedReceipts (GetTxID w nonce)).isSome
    && (mapGet ob.outTXConfirmedTransactions (GetTxID w nonce)).isSome

/-- SetLastBlockHeightScanned set last block height scanned. -/
def SetLastBlockHeightScanned (ob : ChainClient) (height : Nat) : ChainClient :=
  { ob with lastBlockScanned := height, telemetryLastScanned := some height }

/-- GetLastBlockHeightScanned get last block height scanned. -/
def GetLastBlockHeightScanned (ob : ChainClient) : Nat :=
  ob.lastBlockScanned

/-- SetLastBlockHeight set external last block height; `none` is the panic
"lastBlock is too large". -/
def ChainClient.SetLastBlockHeight (ob : ChainClient) (height : Nat) : Option ChainClient :=
  if height ≥ MaxInt64 then none else some { ob with lastBlock := height }

/-- GetLastBlockHeight get external last block height; `none` is the panic
"lastBlock is too large". -/
def ChainClient.GetLastBlockHeight (ob : ChainClient) : Option Nat :=
  if ob.lastBlock ≥ MaxInt64 then none else some ob.lastBlock

/-- BlockByNumber query block by number via JSON-RPC; `none` is an error. -/
def BlockByNumber (w : EvmWorld) (blockNumber : Nat) : Option RpcBlock :=
  match w.EthGetBlockByNumber blockNumber with
  | none => none
  | some block =>
    if block.Transactions.all w.ValidateEvmTransaction then some block else none

/-- GetBlockByNumberCached get block by number from cache; `none` is an error. -/
def GetBlockByNumberCached (w : EvmWorld) (ob : ChainClient) (blockNumber : Nat) :
    ChainClient × Option RpcBlock :=
  match lruGet ob.blockCache blockNumber with
  | some (block, cache) => ({ ob with blockCache := cache }, some block)
  | none =>
    if blockNumber > MaxInt32 then (ob, none)
    else
      match BlockByNumber w blockNumber with
      | none => (ob, none)
      | some block =>
        ({ ob with blockCache := lruAdd cacheSize ob.blockCache blockNumber block }, some block)

/-- RemoveCachedBlock remove block from cache. -/
def RemoveCachedBlock (ob : ChainClient) (blockNumber : Nat) : ChainClient :=
  { ob with blockCache := mapDelete ob.blockCache blockNumber }

/-- CheckTxInclusion returns nil (`true`) only if tx is included at the
position indicated by the receipt ([block, index]). -/
def CheckTxInclusion (w : EvmWorld) (ob : ChainClient) (tx : Transaction) (receipt : Receipt) :
    ChainClient × Bool :=
  match GetBlockByNumberCached w ob receipt.BlockNumber with
  | (ob1, none) => (ob1, false)
  | (ob1, some block) =>
    match block.Transactions.get? receipt.TransactionIndex with
    | none => (ob1, false)
    | some txAtIndex =>
      if !w.EqualFold txAtIndex.Hash tx.HashHex then
        -- clean stale block from cache
        (RemoveCachedBlock ob1 receipt.BlockNumber, false)
      else (ob1, true)

/-- Result of `checkConfirmedTx`: `(receipt, transaction, true)`,
`(nil, nil, false)`, or the panic of `GetLastBlockHeight`. -/
inductive Confirmation where
  | confirmed (receipt : Receipt) (transaction : Transaction)
  | notConfirmed
  | panicked
  deriving DecidableEq, Repr

/-- Function checkConfirmedTx checks if a txHash is confirmed. -/
def checkConfirmedTx (w : EvmWorld) (ob : ChainClient) (txHash : String) (nonce : Nat) :
    ChainClient × Confirmation :=
  -- query transaction
  match w.TransactionByHash txHash with
  | none => (ob, Confirmation.notConfirmed)
  | some (none, _) => (ob, Confirmation.notConfirmed)
  | some (some transaction, isPending) =>
    -- check tx sender and nonce
    match w.Sender transaction with
    | none => (ob, Confirmation.notConfirmed)
    | some sender =>
      if sender ≠ w.tssEVMAddress then (ob, Confirmation.notConfirmed)
      else if transaction.Nonce ≠ nonce then (ob, Confirmation.notConfirmed)
      else if isPending then
        -- save pending transaction
        (SetPendingTx w ob nonce transaction, Confirmation.notConfirmed)
      else
        -- query receipt
        match w.TransactionReceipt txHash with
        | ReceiptAnswer.failed => (ob, Confirmation.notConfirmed)
        | ReceiptAnswer.nilReceipt => (ob, Confirmation.notConfirmed)
        | ReceiptAnswer.receipt receipt =>
          -- check confirmations
          match ob.GetLastBlockHeight with
          | none => (ob, Confirmation.panicked)
          | some lastHeight =>
            if !w.HasEnoughConfirmations receipt lastHeight then (ob, Confirmation.notConfirmed)
            else
              -- cross-check tx inclusion against the block
              match CheckTxInclusion w ob transaction receipt with
              | (ob1, false) => (ob1, Confirmation.notConfirmed)
              | (ob1, true) => (ob1, Confirmation.confirmed receipt transaction)

/-- How a loop of `observeOutTx` was left: it ran to its end, the timeout of
the tick fired (`break TRACKERLOOP`), or `GetLastBlockHeight` panicked. -/
inductive LoopExit where
  | finished
  | timedOut
  | panicked
  deriving DecidableEq, Repr

/-- The loop of `observeOutTx` over the hash list of one tracker: position in
the list, `txCount` and the `receipt` and `transaction` variables are carried
along. -/
def observeOutTxHashes (w : EvmWorld) (nonceInt : Nat) :
    ChainClient → List TxHashList → Nat → Nat → Option (Receipt × Transaction) →
      ChainClient × LoopExit × Nat × Option (Receipt × Transaction)
  | ob, [], _, txCount, last => (ob, LoopExit.finished, txCount, last)
  | ob, txHash :: rest, i, txCount, last =>
    if w.outTimeout nonceInt i then (ob, LoopExit.timedOut, txCount, last)
    else
      match checkConfirmedTx w ob txHash.TxHash nonceInt with
      | (ob1, Confirmation.confirmed recpt tx) =>
        observeOutTxHashes w nonceInt ob1 rest (i + 1) (txCount + 1) (some (recpt, tx))
      | (ob1, Confirmation.notConfirmed) =>
        observeOutTxHashes w nonceInt ob1 rest (i + 1) txCount last
      | (ob1, Confirmation.panicked) => (ob1, LoopExit.panicked, txCount, last)

/-- One pass of `TRACKERLOOP` of `observeOutTx`, for one tracker. -/
def observeOutTxTracker (w : EvmWorld) (ob : ChainClient) (tracker : OutTxTracker) :
    ChainClient × LoopExit :=
  let nonceInt := tracker.Nonce
  -- Go to next tracker if this one already has a confirmed tx
  if isTxConfirmed w ob nonceInt then (ob, LoopExit.finished)
  else
    match observeOutTxHashes w nonceInt ob tracker.HashList 0 0 none with
    | (ob1, LoopExit.timedOut, _, _) => (ob1, LoopExit.timedOut)
    | (ob1, LoopExit.panicked, _, _) => (ob1, LoopExit.panicked)
    | (ob1, LoopExit.finished, txCount, last) =>
      -- should be only one txHash confirmed for each nonce
      if txCount = 1 then
        match last with
        | some (receipt, transaction) =>
          (SetTxNReceipt w ob1 nonceInt receipt transaction, LoopExit.finished)
        | none => (ob1, LoopExit.finished)
      else (ob1, LoopExit.finished)

/-- `TRACKERLOOP` of `observeOutTx`. -/
def observeOutTxTrackers (w : EvmWorld) : ChainClient → List OutTxTracker → ChainClient × LoopExit
  | ob, [] => (ob, LoopExit.finished)
  | ob, tracker :: rest =>
    match observeOutTxTracker w ob tracker with
    | (ob1, LoopExit.finished) => observeOutTxTrackers w ob1 rest
    | (ob1, exit) => (ob1, exit)

/-- One tick of observeOutTx, which periodically checks all the txhash in
potential outbound txs. -/
def observeOutTx (w : EvmWorld) (ob : ChainClient) : ChainClient × LoopExit :=
  match w.GetAllOutTxTrackerByChain with
  | none => (ob, LoopExit.finished)
  | some trackers => observeOutTxTrackers w ob trackers

/-- Function calcBlockRangeToScan calculates the next range of blocks to scan. -/
def calcBlockRangeToScan (latestConfirmed lastScanned batchSize : Nat) : Nat × Nat :=
  let startBlock := addU64 lastScanned 1
  let toBlock := addU64 lastScanned batchSize
  if toBlock > latestConfirmed then (startBlock, latestConfirmed) else (startBlock, toBlock)

/-- GetBlockHeaderCached get block header by number from cache; `none` is an error. -/
def GetBlockHeaderCached (w : EvmWorld) (ob : ChainClient) (blockNumber : Nat) :
    ChainClient × Option EthHeader :=
  match lruGet ob.headerCache blockNumber with
  | some (header, cache) => ({ ob with headerCache := cache }, some header)
  | none =>
    match w.HeaderByNumber blockNumber with
    | none => (ob, none)
    | some header =>
      ({ ob with headerCache := lruAdd cacheSize ob.headerCache blockNumber header },
       some header)

/-- Function postBlockHeader posts the next block header up to `tip`; `false`
is an error. -/
def postBlockHeader (w : EvmWorld) (ob : ChainClient) (tip : Nat) : ChainClient × Bool :=
  let bn :=
    match w.GetBlockHeaderStateByChain with
    | some bhs =>
      -- the next header to post
      if bhs.EarliestHeight > 0 then addU64 (bhs.LatestHeight % 2 ^ 64).toNat 1 else tip
    | none => tip
  if bn > tip then (ob, false)
  else
    match GetBlockHeaderCached w ob bn with
    | (ob1, none) => (ob1, false)
    | (ob1, some header) =>
      match header.RLP with
      | none => (ob1, false)
      | some headerRLP =>
        let height := wrapInt64 header.Number
        ({ ob1 with calls := ob1.calls ++ [Call.postAddBlockHeader header.Hash height headerRLP] },
         w.PostAddBlockHeader header.Hash height headerRLP)

/-- The order of `sort.SliceStable` in the extractors: block number, then tx
index, then log index. -/
def eventLess (a b : ContractEvent) : Bool :=
  if a.Raw.BlockNumber = b.Raw.BlockNumber then
    if a.Raw.TxIndex = b.Raw.TxIndex then decide (a.Raw.Index < b.Raw.Index)
    else decide (a.Raw.TxIndex < b.Raw.TxIndex)
  else decide (a.Raw.BlockNumber < b.Raw.BlockNumber)

/-- Go `sort.SliceStable` with `eventLess`: a stable sort, an event goes in
front of the first one that is not less than it. -/
def sortEvents (events : List ContractEvent) : List ContractEvent :=
  events.insertionSort (fun a b => eventLess b a = false)

/-- The loop of `observeZetaSent` that posts to zetabridge; `some n` is the
early `return n`. -/
def observeZetaSentEvents (w : EvmWorld) :
    ChainClient → List ContractEvent → Nat → List String → ChainClient × Option Nat
  | ob, [], _, _ => (ob, none)
  | ob, event :: rest, beingScanned, guard =>
    -- remember which block we are scanning
    let beingScanned :=
      if event.Raw.BlockNumber > beingScanned then event.Raw.BlockNumber else beingScanned
    -- guard against multiple events in the same tx
    if guard.contains event.Raw.TxHash then
      observeZetaSentEvents w ob rest beingScanned guard
    else
      let guard := event.Raw.TxHash :: guard
      match w.BuildInboundVoteMsgForZetaSentEvent event with
      | none => observeZetaSentEvents w ob rest beingScanned guard
      | some msg =>
        let gasLimit := w.PostVoteInboundMessagePassingExecutionGasLimit
        let ob1 :=
          { ob with calls := ob.calls ++ [Call.postVoteInbound msg CoinType.Zeta gasLimit] }
        if w.PostVoteInbound msg CoinType.Zeta gasLimit then
          observeZetaSentEvents w ob1 rest beingScanned guard
        else
          -- we have to re-scan from this block next time
          (ob1, some (subU64 beingScanned 1))

/-- Function observeZetaSent queries the ZetaSent event from the connector
contract and posts to zetabridge; returns the last block successfully scanned. -/
def observeZetaSent (w : EvmWorld) (ob : ChainClient) (startBlock toBlock : Nat) :
    ChainClient × Nat :=
  let ob := { ob with calls := ob.calls ++ [Call.observeZetaSent startBlock toBlock] }
  let addrConnector := w.HexToAddress w.chainParams.ConnectorContractAddress
  if !w.ConnectorContractOk then (ob, subU64 startBlock 1)
  else
    match w.FilterZetaSent startBlock toBlock with
    | none => (ob, subU64 startBlock 1)
    | some iter =>
      let events :=
        iter.filter (fun e => w.ValidateEvmTxLog e.Raw addrConnector "" TopicsKind.ZetaSent)
      match observeZetaSentEvents w ob (sortEvents events) 0 [] with
      | (ob1, some n) => (ob1, n)
      | (ob1, none) => (ob1, toBlock)

/-- ChainClient.TransactionByHash query transaction by hash via JSON-RPC; `none`
is an error. -/
def ChainClient.TransactionByHash (w : EvmWorld) (txHash : String) : Option RpcTransaction :=
  match w.EthGetTransactionByHash txHash with
  | none => none
  | some tx => if w.ValidateEvmTransaction tx then some tx else none

/-- The loop of `observeERC20Deposited` that posts to zetabridge; `some n` is
the early `return n`. -/
def observeERC20DepositedEvents (w : EvmWorld) :
    ChainClient → List ContractEvent → Nat → List String → ChainClient × Option Nat
  | ob, [], _, _ => (ob, none)
  | ob, event :: rest, beingScanned, guard =>
    let beingScanned :=
      if event.Raw.BlockNumber > beingScanned then event.Raw.BlockNumber else beingScanned
    match ChainClient.TransactionByHash w event.Raw.TxHash with
    | none => (ob, some (subU64 beingScanned 1))
    | some tx =>
      let sender := w.HexToAddress tx.From
      if guard.contains event.Raw.TxHash then
        observeERC20DepositedEvents w ob rest beingScanned guard
      else
        let guard := event.Raw.TxHash :: guard
        match w.BuildInboundVoteMsgForDepositedEvent event sender with
        | none => observeERC20DepositedEvents w ob rest beingScanned guard
        | some msg =>
          let gasLimit := w.PostVoteInboundExecutionGasLimit
          let ob1 :=
            { ob with calls := ob.calls ++ [Call.postVoteInbound msg CoinType.ERC20 gasLimit] }
          if w.PostVoteInbound msg CoinType.ERC20 gasLimit then
            observeERC20DepositedEvents w ob1 rest beingScanned guard
          else (ob1, some (subU64 beingScanned 1))

/-- Function observeERC20Deposited queries the ERC20CustodyDeposited event from
the ERC20Custody contract and posts to zetabridge; returns the last block
successfully scanned. -/
def observeERC20Deposited (w : EvmWorld) (ob : ChainClient) (startBlock toBlock : Nat) :
    ChainClient × Nat :=
  let ob := { ob with calls := ob.calls ++ [Call.observeERC20Deposited startBlock toBlock] }
  let addrCustody := w.HexToAddress w.chainParams.Erc20CustodyContractAddress
  if !w.ERC20CustodyContractOk then (ob, subU64 startBlock 1)
  else
    match w.FilterDeposited startBlock toBlock with
    | none => (ob, subU64 startBlock 1)
    | some iter =>
      let events :=
        iter.filter (fun e => w.ValidateEvmTxLog e.Raw addrCustody "" TopicsKind.Deposited)
      match observeERC20DepositedEvents w ob (sortEvents events) 0 [] with
      | (ob1, some n) => (ob1, n)
      | (ob1, none) => (ob1, toBlock)

/-- The loop of `observerTSSReceive` over the transactions of one block;
`false` is the early return. -/
def observerTSSReceiveTxs (w : EvmWorld) : ChainClient → List RpcTransaction → ChainClient × Bool
  | ob, [] => (ob, true)
  | ob, tx :: rest =>
    if w.HexToAddress tx.To = w.tssEVMAddress then
      match w.TransactionReceipt tx.Hash with
      | ReceiptAnswer.failed => (ob, false)
      | answer =>
        let receipt :=
          match answer with
          | ReceiptAnswer.receipt r => some r
          | _ => none
        let ob1 := { ob with calls := ob.calls ++ [Call.checkAndVoteInboundTokenGas tx receipt] }
        if w.CheckAndVoteInboundTokenGas tx receipt then observerTSSReceiveTxs w ob1 rest
        else (ob1, false)
    else observerTSSReceiveTxs w ob rest

/-- The loop of `observerTSSReceive` over the block numbers; `some n` is the
early `return n`. -/
def observerTSSReceiveBlocks (w : EvmWorld) (flags : CrosschainFlags) (toBlock : Nat) :
    ChainClient → List Nat → ChainClient × Option Nat
  | ob, [] => (ob, none)
  | ob, bn :: rest =>
    -- post new block header (if any) to zetabridge and ignore error
    let postHeader :=
      match flags.BlockHeaderVerificationFlags with
      | some f => f.IsEthTypeChainEnabled && w.headerSupportedEvmChain
      | none => false
    let ob1 := if postHeader then (postBlockHeader w ob toBlock).1 else ob
    match GetBlockByNumberCached w ob1 bn with
    | (ob2, none) => (ob2, some (subU64 bn 1))
    | (ob2, some block) =>
      match observerTSSReceiveTxs w ob2 block.Transactions with
      | (ob3, false) => (ob3, some (subU64 bn 1))
      | (ob3, true) => observerTSSReceiveBlocks w flags toBlock ob3 rest

/-- Function observerTSSReceive queries the incoming gas asset to TSS address
and posts to zetabridge; returns the last block successfully scanned. The loop
`for bn := startBlock; bn <= toBlock; bn++` runs over the block numbers from
`startBlock` to `toBlock`, as it does for every `toBlock` below the largest
`uint64`. -/
def observerTSSReceive (w : EvmWorld) (ob : ChainClient) (startBlock toBlock : Nat)
    (flags : CrosschainFlags) : ChainClient × Nat :=
  let ob := { ob with calls := ob.calls ++ [Call.observerTSSReceive startBlock toBlock] }
  if !w.chainParams.IsSupported then (ob, subU64 startBlock 1)
  else
    match observerTSSReceiveBlocks w flags toBlock ob
        (List.range' startBlock (toBlock + 1 - startBlock)) with
    | (ob1, some n) => (ob1, n)
    | (ob1, none) => (ob1, toBlock)

/-- Errors of `observeInTX`; `panicked` is the panic "lastBlock is too large". -/
inductive InTxErr where
  | GetCrosschainFlags
  | InboundDisabled
  | BlockNumber
  | BlockNumberDecreased
  | BlockNumberTooLow
  | panicked
  deriving DecidableEq, Repr

/-- One tick of the inbound observer. -/
def observeInTX (w : EvmWorld) (ob : ChainClient) : ChainClient × Except InTxErr Unit :=
  -- make sure inbound TXS / Send is enabled by the protocol
  match w.GetCrosschainFlags with
  | none => (ob, .error InTxErr.GetCrosschainFlags)
  | some flags =>
    if !flags.IsInboundEnabled then (ob, .error InTxErr.InboundDisabled)
    else
      -- get and update latest block height
      match w.BlockNumber with
      | none => (ob, .error InTxErr.BlockNumber)
      | some blockNumber =>
        match ob.GetLastBlockHeight with
        | none => (ob, .error InTxErr.panicked)
        | some lastBlock =>
          if blockNumber < lastBlock then (ob, .error InTxErr.BlockNumberDecreased)
          else
            match ob.SetLastBlockHeight blockNumber with
            | none => (ob, .error InTxErr.panicked)
            | some ob =>
              -- skip if current height is too low
              if blockNumber < w.chainParams.ConfirmationCount then
                (ob, .error InTxErr.BlockNumberTooLow)
              else
                let confirmedBlockNum := blockNumber - w.chainParams.ConfirmationCount
                -- skip if no new block is confirmed
                let lastScanned := GetLastBlockHeightScanned ob
                if lastScanned ≥ confirmedBlockNum then (ob, .ok ())
                else
                  let range :=
                    calcBlockRangeToScan confirmedBlockNum lastScanned w.MaxBlocksPerPeriod
                  let startBlock := range.1
                  let toBlock := range.2
                  -- task 1: query evm chain for zeta sent logs
                  let zetaSent := observeZetaSent w ob startBlock toBlock
                  -- task 2: query evm chain for deposited logs
                  let deposited := observeERC20Deposited w zetaSent.1 startBlock toBlock
                  -- task 3: query the incoming tx to TSS address
                  let tssRecvd := observerTSSReceive w deposited.1 startBlock toBlock flags
                  let ob := tssRecvd.1
                  let lastScannedLowest := zetaSent.2
                  let lastScannedLowest :=
                    if deposited.2 < lastScannedLowest then deposited.2 else lastScannedLowest
                  let lastScannedLowest :=
                    if tssRecvd.2 < lastScannedLowest then tssRecvd.2 else lastScannedLowest
                  -- update last scanned block height for all 3 events, ignore db error
                  if lastScannedLowest > lastScanned then
                    let ob := SetLastBlockHeightScanned ob lastScannedLowest
                    if w.dbSave lastScannedLowest then
                      ({ ob with dbLastBlock := some lastScannedLowest }, .ok ())
                    else (ob, .ok ())
                  else (ob, .ok ())

/-- Result of `IsSendOutTxProcessed`: `(isIncluded, isConfirmed, nil)`, an
error `(false, false, err)`, or a panic (of `GetLastBlockHeight`, of an index
into the topics of a log, or of a method of a nil contract). -/
inductive Processed where
  | result (isIncluded isConfirmed : Bool)
  | failed
  | panicked
  deriving DecidableEq, Repr

/-- The call `ob.zetaClient.PostVoteOutbound`; `false` is an error. -/
def postVoteOutbound (w : EvmWorld) (ob : ChainClient) (vote : OutboundVote) :
    ChainClient × Bool :=
  ({ ob with calls := ob.calls ++ [Call.postVoteOutbound vote] },
   (w.PostVoteOutbound vote).isSome)

/-- The part of `IsSendOutTxProcessed` for one ZetaReceived or ZetaReverted
event of a log, `mMint` being its value and `topic` the position of the send
hash in the topics; `none` is `continue`. -/
def zetaEventProcessed (w : EvmWorld) (ob : ChainClient) (receipt : Receipt)
    (transaction : Transaction) (nonce : Nat) (vLog : EthLog) (mMint : Nat)
    (kind : TopicsKind) (topic : Nat) : ChainClient × Option Processed :=
  let confHeight := addU64 vLog.BlockNumber w.chainParams.ConfirmationCount
  let connectorAddr := w.HexToAddress w.chainParams.ConnectorContractAddress
  match ob.GetLastBlockHeight with
  | none => (ob, some Processed.panicked)
  | some lastBlock =>
    if confHeight ≤ lastBlock then
      -- sanity check tx event
      if !w.ValidateEvmTxLog vLog connectorAddr transaction.HashHex kind then
        (ob, some Processed.failed)
      else
        match vLog.Topics.get? topic with
        | none => (ob, some Processed.panicked)
        | some sendhash =>
          let vote : OutboundVote :=
            { SendHash := sendhash, OutTxHash := vLog.TxHash, OutBlockHeight := vLog.BlockNumber,
              OutTxGasUsed := receipt.GasUsed, OutTxEffectiveGasPrice := transaction.GasPrice,
              OutTxEffectiveGasLimit := transaction.Gas, Amount := mMint,
              Status := ReceiveStatus.Success, ChainId := w.chainId, Nonce := nonce,
              CoinType := CoinType.Zeta }
          match postVoteOutbound w ob vote with
          | (ob1, false) => (ob1, none)
          | (ob1, true) => (ob1, some (Processed.result true true))
    else (ob, some (Processed.result true false))

/-- The loop of `IsSendOutTxProcessed` over the logs of a successful Zeta
outbound; `none` is the end of the loop. -/
def zetaLogsProcessed (w : EvmWorld) (receipt : Receipt) (transaction : Transaction)
    (nonce : Nat) : ChainClient → List EthLog → ChainClient × Option Processed
  | ob, [] => (ob, none)
  | ob, vLog :: rest =>
    if !w.ConnectorContractOk then (ob, some Processed.failed)
    else
      match w.ParseZetaReceived vLog with
      | some zetaValue =>
        match zetaEventProcessed w ob receipt transaction nonce vLog zetaValue
            TopicsKind.ZetaReceived 3 with
        | (ob1, some r) => (ob1, some r)
        | (ob1, none) => zetaLogsProcessed w receipt transaction nonce ob1 rest
      | none =>
        match w.ParseZetaReverted vLog with
        | some remainingZetaValue =>
          match zetaEventProcessed w ob receipt transaction nonce vLog remainingZetaValue
              TopicsKind.ZetaReverted 2 with
          | (ob1, some r) => (ob1, some r)
          | (ob1, none) => zetaLogsProcessed w receipt transaction nonce ob1 rest
        | none => zetaLogsProcessed w receipt transaction nonce ob rest

/-- The loop of `IsSendOutTxProcessed` over the logs of a successful ERC20
outbound; `none` is the end of the loop. When the custody contract could not be
bound, `ParseWithdrawn` is called on a nil contract. -/
def erc20LogsProcessed (w : EvmWorld) (sendHash : String) (receipt : Receipt)
    (transaction : Transaction) (nonce : Nat) :
    ChainClient → List EthLog → ChainClient × Option Processed
  | ob, [] => (ob, none)
  | ob, vLog :: rest =>
    if !w.ERC20CustodyContractOk then (ob, some Processed.panicked)
    else
      let addrCustody := w.HexToAddress w.chainParams.Erc20CustodyContractAddress
      let confHeight := addU64 vLog.BlockNumber w.chainParams.ConfirmationCount
      match w.ParseWithdrawn vLog with
      | some amount =>
        -- sanity check tx event
        if !w.ValidateEvmTxLog vLog addrCustody transaction.HashHex TopicsKind.Withdrawn then
          (ob, some Processed.failed)
        else
          match ob.GetLastBlockHeight with
          | none => (ob, some Processed.panicked)
          | some lastBlock =>
            if confHeight ≤ lastBlock then
              let vote : OutboundVote :=
                { SendHash := sendHash, OutTxHash := vLog.TxHash,
                  OutBlockHeight := vLog.BlockNumber, OutTxGasUsed := receipt.GasUsed,
                  OutTxEffectiveGasPrice := transaction.GasPrice,
                  OutTxEffectiveGasLimit := transaction.Gas, Amount := amount,
                  Status := ReceiveStatus.Success, ChainId := w.chainId, Nonce := nonce,
                  CoinType := CoinType.ERC20 }
              match postVoteOutbound w ob vote with
              | (ob1, false) => erc20LogsProcessed w sendHash receipt transaction nonce ob1 rest
              | (ob1, true) => (ob1, some (Processed.result true true))
            else (ob, some (Processed.result true false))
      | none => erc20LogsProcessed w sendHash receipt transaction nonce ob rest

/-- The vote of `IsSendOutTxProcessed` on the receipt as a whole. -/
def receiptVote (w : EvmWorld) (sendHash : String) (receipt : Receipt)
    (transaction : Transaction) (nonce amount : Nat) (recvStatus : ReceiveStatus)
    (coinType : CoinType) : OutboundVote :=
  { SendHash := sendHash, OutTxHash := receipt.TxHash, OutBlockHeight := receipt.BlockNumber,
    OutTxGasUsed := receipt.GasUsed, OutTxEffectiveGasPrice := transaction.GasPrice,
    OutTxEffectiveGasLimit := transaction.Gas, Amount := amount, Status := recvStatus,
    ChainId := w.chainId, Nonce := nonce, CoinType := coinType }

/-- IsSendOutTxProcessed returns isIncluded, isConfirmed, Error; if
isConfirmed, it also posts to ZetaCore. -/
def IsSendOutTxProcessed (w : EvmWorld) (ob : ChainClient) (cctx : CrossChainTx) :
    ChainClient × Processed :=
  let sendHash := cctx.Index
  let cointype := (GetCurrentOutTxParam cctx).CoinType
  let nonce := (GetCurrentOutTxParam cctx).OutboundTxTssNonce
  -- skip if outtx is not confirmed
  match GetTxNReceipt w ob nonce with
  | (some receipt, some transaction) =>
    -- compliance check, special handling the cancelled cctx
    if w.IsCctxRestricted cctx then
      let recvStatus :=
        if receipt.Status = 1 then ReceiveStatus.Success else ReceiveStatus.Failed
      -- use cctx's amount to bypass the amount check in zetacore
      let vote := receiptVote w sendHash receipt transaction nonce
        (GetCurrentOutTxParam cctx).Amount recvStatus CoinType.Cmd
      ((postVoteOutbound w ob vote).1, Processed.result true true)
    else if cointype = CoinType.Cmd then
      let recvStatus :=
        if receipt.Status = 1 then ReceiveStatus.Success else ReceiveStatus.Failed
      let vote := receiptVote w sendHash receipt transaction nonce
        transaction.Value recvStatus CoinType.Cmd
      ((postVoteOutbound w ob vote).1, Processed.result true true)
    else if cointype = CoinType.Gas then
      -- the outbound is a regular Ether/BNB/Matic transfer; no need to check events
      if receipt.Status = 1 then
        let vote := receiptVote w sendHash receipt transaction nonce
          transaction.Value ReceiveStatus.Success CoinType.Gas
        ((postVoteOutbound w ob vote).1, Processed.result true true)
      else if receipt.Status = 0 then
        let vote := receiptVote w sendHash receipt transaction nonce
          0 ReceiveStatus.Failed CoinType.Gas
        ((postVoteOutbound w ob vote).1, Processed.result true true)
      else (ob, Processed.result false false)
    else if cointype = CoinType.Zeta then
      -- the outbound is a Zeta transfer; need to check events ZetaReceived
      if receipt.Status = 1 then
        match zetaLogsProcessed w receipt transaction nonce ob receipt.Logs with
        | (ob1, some r) => (ob1, r)
        | (ob1, none) => (ob1, Processed.result false false)
      else if receipt.Status = 0 then
        let vote := receiptVote w sendHash receipt transaction nonce
          0 ReceiveStatus.Failed CoinType.Zeta
        ((postVoteOutbound w ob vote).1, Processed.result true true)
      else (ob, Processed.result false false)
    else if cointype = CoinType.ERC20 then
      if receipt.Status = 1 then
        match erc20LogsProcessed w sendHash receipt transaction nonce ob receipt.Logs with
        | (ob1, some r) => (ob1, r)
        | (ob1, none) => (ob1, Processed.result false false)
      else
        let vote := receiptVote w sendHash receipt transaction nonce
          0 ReceiveStatus.Failed CoinType.ERC20
        ((postVoteOutbound w ob vote).1, Processed.result true true)
    else (ob, Processed.result false false)
  -- not confirmed yet
  | _ => (ob, Processed.result false false)

/-! ## Example data, on which the definitions are run -/

/-- An instance of the library functions: `EqualFold` folds ASCII letters, an
EVM transaction decodes to chain 5 with its length as nonce, every proof
verifies to its own bytes. -/
def exampleLib : Lib :=
  { VoteString := fun m =>
      m.Sender ++ "|" ++ toString m.SenderChainId ++ "|" ++ m.TxOrigin ++ "|" ++ m.Receiver
        ++ "|" ++ toString m.ReceiverChain ++ "|" ++ toString m.Amount ++ "|" ++ m.Message
        ++ "|" ++ m.InTxHash ++ "|" ++ toString m.GasLimit ++ "|" ++ m.Asset
        ++ "|" ++ toString m.EventIndex ++ "|" ++ m.Creator ++ "|" ++ toString m.InBlockHeight,
    Keccak256Hex := fun s => s,
    EqualFold := fun a b => decide (a.data.map Char.toLower = b.data.map Char.toLower),
    IsBitcoinChain := fun _ => false,
    IsEVMChain := fun _ => true,
    SupportMerkleProof := fun _ => some true,
    StringToHash := fun _ _ => some [1],
    ProofVerify := fun p _ _ => some p.raw,
    EvmUnmarshalBinary := fun b =>
      some { ChainId := 5, Nonce := b.length, HashHex := "0xCD", To := none },
    EvmSender := fun _ => some [1],
    HexToAddress := fun _ => [1],
    BtcNewTxFromBytes := fun _ => none,
    ParsePubKey := fun _ => none,
    BitcoinNetParamsFromChainID := fun _ => none,
    NewAddressWitnessPubKeyHash := fun _ _ => none,
    NonceMarkAmount := fun n => n,
    AccAddressFromBech32 := fun a => if a.data.take 4 = "zeta".data then some [] else none,
    HeaderParentHash := fun h => some (h.drop 1),
    HeaderValidateTimestamp := fun _ _ => true,
    AddBlockHeaderDigest := fun m => toString m.Height,
    GetRequiredPolicyType := fun m =>
      if m.IsInboundEnabled || m.IsOutboundEnabled || m.GasPriceIncreaseFlags.isSome then
        PolicyType.groupAdmin
      else PolicyType.groupEmergency,
    DefaultCrosschainFlags :=
      { IsInboundEnabled := true, IsOutboundEnabled := true,
        GasPriceIncreaseFlags :=
          some { EpochLength := 100, RetryInterval := 600, GasPriceIncreasePercent := 100 },
        BlockHeaderVerificationFlags :=
          some { IsEthTypeChainEnabled := true, IsBtcTypeChainEnabled := true } },
    AddressHex := fun a => if a = [1] then "0x01" else "0x00" }

/-- A ZETA transfer of 100 with index `idx1`, inbound hash `h1` and one
outbound to chain 5 with TSS nonce 7, in the given status. -/
def exampleCctx (st : CctxStatus) : CrossChainTx :=
  { Creator := "",
    Index := "idx1",
    ZetaFees := 0,
    RelayedMessage := "",
    CctxStatus :=
      { Status := st, StatusMessage := "", LastUpdateTimestamp := 9, IsAbortRefunded := false },
    InboundTxParams :=
      { Sender := "s", SenderChainId := 1, TxOrigin := "s", Asset := "", Amount := 100,
        CoinType := CoinType.Zeta, InboundTxObservedHash := "h1",
        InboundTxObservedExternalHeight := 1, InboundTxFinalizedZetaHeight := 0,
        InboundTxBallotIndex := "idx1",
        TxFinalizationStatus := TxFinalizationStatus.NotFinalized },
    OutboundTxParams :=
      [{ Receiver := "r", ReceiverChainId := 5, OutboundTxHash := "", OutboundTxTssNonce := 7,
         OutboundTxGasLimit := 0, OutboundTxGasPrice := "", OutboundTxBallotIndex := "",
         OutboundTxObservedExternalHeight := 0, CoinType := CoinType.Zeta, Amount := 100,
         TssPubkey := "tss" }] }

/-- The tracker of (chain 5, nonce 7) with one unproved hash `0xab`. -/
def exampleTracker : OutTxTracker :=
  { Index := "", ChainId := 5, Nonce := 7,
    HashList := [{ TxHash := "0xab", TxSigner := "obs", Proved := false }] }

/-- A state with no crosschain record: TSS key `tss`, chain 5 supported,
observer `obs`, admin `admin` (admin group only), header verification on for
EVM chains and one stored header. -/
def exampleBase : Ctx :=
  { params := { Enabled := false },
    zetaAccounting := none,
    outTxTrackers := [],
    inTxTrackers := [],
    inTxHashToCctx := [],
    gasPrices := [],
    lastBlockHeights := [],
    cctxs := [],
    finalizedInbounds := [],
    tss := some { TssPubkey := "tss" },
    nonceToCctx := [],
    supportedChains := [{ ChainId := 5 }],
    observerIsAuthorized := fun a => decide (a = "obs"),
    crosschainFlags :=
      some { IsInboundEnabled := true, IsOutboundEnabled := true,
             GasPriceIncreaseFlags := none,
             BlockHeaderVerificationFlags :=
               some { IsEthTypeChainEnabled := true, IsBtcTypeChainEnabled := false } },
    blockHeaders :=
      [([1], { Header := [], Height := 1, Hash := [1], ParentHash := [], ChainId := 5 })],
    tssAddress := fun _ => some { Eth := "0x01", Btc := "" },
    authorityIsAuthorized := fun a p => decide (a = "admin" ∧ p = PolicyType.groupAdmin),
    blockHeaderStates := [],
    ballotVote := fun _ _ => BallotOutcome.voted true,
    blockTime := 0,
    chainParamsByChainID := fun c =>
      if c = 5 then
        some { ConfirmationCount := 2, IsSupported := true,
               ConnectorContractAddress := "0xconn", Erc20CustodyContractAddress := "0xcust" }
      else none }

/-- The state `exampleBase` holding `exampleCctx st`, bound to (chain 5,
nonce 7), and `exampleTracker`. -/
def exampleCtx (st : CctxStatus) : Ctx :=
  { exampleBase with
    outTxTrackers := [exampleTracker],
    inTxHashToCctx := [{ InTxHash := "h1", CctxIndex := ["idx1"] }],
    cctxs := [exampleCctx st],
    nonceToCctx := [{ ChainId := 5, Nonce := 7, CctxIndex := "idx1", Tss := "tss" }] }

/-- A tracker message for (chain 5, nonce 7) without proof, sent by an account
that is neither admin nor observer. -/
def exampleMsg : MsgAddToOutTxTracker :=
  { Creator := "mallory", ChainId := 5, Nonce := 7, TxHash := "0xAB", Proof := none,
    BlockHash := "b", TxIndex := 0 }

/-- The state reached from `exampleBase` by writing the example CCTX in status
Aborted through `SetCctxAndNonceToCctxAndInTxHashToCctx`: one aborted ZETA
transfer of 100, accounted for. -/
def exampleAbortedCtx : Ctx :=
  SetCctxAndNonceToCctxAndInTxHashToCctx exampleBase (exampleCctx CctxStatus.Aborted)

/-- The example CCTX as AbortStuckCCTX rewrites it. -/
def exampleAbortedByAdmin : CrossChainTx :=
  { exampleCctx CctxStatus.PendingOutbound with
    CctxStatus :=
      { Status := CctxStatus.Aborted, StatusMessage := "CCTX aborted with admin cmd",
        LastUpdateTimestamp := 0, IsAbortRefunded := false } }

/-- The state after the admin has aborted the example CCTX pending outbound:
the CCTX is Aborted and still bound to (chain 5, nonce 7), the tracker is still
stored. -/
def exampleAbortedByAdminCtx : Ctx :=
  (AbortStuckCCTX (exampleCtx CctxStatus.PendingOutbound)
    { Creator := "admin", CctxIndex := "idx1" }).1

/-- Two inbound votes on the same event by two observers at two heights. -/
def exampleVote (creator : String) (inBlockHeight : Nat) : MsgVoteOnObservedInboundTx :=
  { Creator := creator, Sender := "0x95", SenderChainId := 1337, TxOrigin := "0x95",
    Receiver := "0x95", ReceiverChain := 101, Amount := 10000000, Message := "",
    InTxHash := "0x7a", InBlockHeight := inBlockHeight, GasLimit := 1000000000,
    CoinType := CoinType.Zeta, Asset := "", EventIndex := 1 }

/-- The example vote of `zeta1observer` with another gas limit: the second
message of the test "prevent double event submission". -/
def exampleVoteGas (gasLimit : Nat) : MsgVoteOnObservedInboundTx :=
  { exampleVote "zeta1observer" 1 with GasLimit := gasLimit }

/-- The example vote with a message of `n` letters `a`, that is of `n` bytes. -/
def exampleVoteMessage (n : Nat) : MsgVoteOnObservedInboundTx :=
  { exampleVote "zeta1observer" 1 with Message := String.mk (List.replicate n 'a') }

/-- A header message of the observer `obs` for chain 5; the header is given by
its hash, and under `exampleLib` its parent hash is the hash without its first
byte. -/
def exampleHeaderMsg (height : Int) (hash : Bytes) : MsgAddBlockHeader :=
  { Creator := "obs", ChainId := 5, BlockHash := hash, Height := height, Header := hash }

/-- The state after the header of height 2 (hash `[2]`) has been voted in on
`exampleBase`: the BlockHeaderState of chain 5 has earliest and latest height 2. -/
def exampleHeaderCtx : Ctx :=
  (AddBlockHeader exampleLib exampleBase (exampleHeaderMsg 2 [2])).1

/-- The outbound transaction of nonce 7 and value 5 with the given hash. -/
def exampleTransaction (hash : String) : Transaction :=
  { HashHex := hash, Nonce := 7, GasPrice := 1, Gas := 21000, Value := 5 }

/-- A successful receipt in block 12 at the given position. -/
def exampleReceipt (hash : String) (index : Nat) : Receipt :=
  { Status := 1, TxHash := hash, BlockNumber := 12, TransactionIndex := index,
    GasUsed := 21000, Logs := [] }

/-- An external chain of id 5 at height 20 with confirmation count 2 and TSS
address `[1]` (`0xtss`). Block 12 holds the transactions `0xA` and `0xB`, both
sent by the TSS address with nonce 7; the receipt of `0xm` points at the
position of `0xA`; `0xp` is pending; block 15 cannot be read; no contract
emits an event. -/
def exampleWorld : EvmWorld :=
  { chainId := 5,
    tssEVMAddress := [1],
    tssEVMAddressString := "0xtss",
    chainParams :=
      { ConfirmationCount := 2, IsSupported := true, ConnectorContractAddress := "0xconn",
        Erc20CustodyContractAddress := "0xcust" },
    headerSupportedEvmChain := false,
    GetCrosschainFlags :=
      some { IsInboundEnabled := true, IsOutboundEnabled := true,
             GasPriceIncreaseFlags := none, BlockHeaderVerificationFlags := none },
    BlockNumber := some 20,
    TransactionByHash := fun h =>
      if h = "0xa" ∨ h = "0xb" ∨ h = "0xm" then some (some (exampleTransaction h), false)
      else if h = "0xp" then some (some (exampleTransaction h), true)
      else none,
    Sender := fun _ => some [1],
    TransactionReceipt := fun h =>
      if h = "0xa" then ReceiptAnswer.receipt (exampleReceipt h 0)
      else if h = "0xb" then ReceiptAnswer.receipt (exampleReceipt h 1)
      else if h = "0xm" then ReceiptAnswer.receipt (exampleReceipt h 0)
      else ReceiptAnswer.failed,
    HasEnoughConfirmations := fun r lastHeight => decide (r.BlockNumber + 2 ≤ lastHeight),
    MaxBlocksPerPeriod := 100,
    PostVoteInboundMessagePassingExecutionGasLimit := 1000000,
    PostVoteInboundExecutionGasLimit := 400000,
    dbSave := fun _ => true,
    EthGetBlockByNumber := fun n =>
      if n = 15 then none
      else if n = 12 then
        some { Number := n,
               Transactions := [{ Hash := "0xA", From := "0xtss", To := "0xr" },
                                { Hash := "0xB", From := "0xtss", To := "0xr" }] }
      else some { Number := n, Transactions := [] },
    EthGetTransactionByHash := fun _ => none,
    ValidateEvmTransaction := fun _ => true,
    HexToAddress := fun a => if a = "0xtss" then [1] else [0],
    EqualFold := fun a b => a.data.map Char.toLower = b.data.map Char.toLower,
    HeaderByNumber := fun _ => none,
    GetBlockHeaderStateByChain := none,
    PostAddBlockHeader := fun _ _ _ => true,
    ConnectorContractOk := true,
    ERC20CustodyContractOk := true,
    FilterZetaSent := fun _ _ => some [],
    FilterDeposited := fun _ _ => some [],
    ValidateEvmTxLog := fun _ _ _ _ => true,
    BuildInboundVoteMsgForZetaSentEvent := fun _ => none,
    BuildInboundVoteMsgForDepositedEvent := fun _ _ => none,
    PostVoteInbound := fun _ _ _ => true,
    CheckAndVoteInboundTokenGas := fun _ _ => true,
    GetAllOutTxTrackerByChain := none,
    outTimeout := fun _ _ => false,
    IsCctxRestricted := fun _ => false,
    PostVoteOutbound := fun _ => some "0xvote",
    ParseZetaReceived := fun _ => none,
    ParseZetaReverted := fun _ => none,
    ParseWithdrawn := fun _ => none }

/-- A client that has scanned up to block 10, has seen height 20 and holds
nothing else. -/
def exampleClient : ChainClient :=
  { lastBlockScanned := 10, lastBlock := 20, outTxPendingTransactions := [],
    outTXConfirmedReceipts := [], outTXConfirmedTransactions := [], blockCache := [],
    headerCache := [], telemetryLastScanned := none, dbLastBlock := none, calls := [] }

/-- The tracker of nonce 7 with the given candidate hashes. -/
def exampleHashes (hashes : List String) : OutTxTracker :=
  { Index := "", ChainId := 5, Nonce := 7,
    HashList := hashes.map (fun h => { TxHash := h, TxSigner := "obs", Proved := false }) }

/-- The CCTX `exampleCctx` with a Cmd outbound of amount 100 and nonce 7. -/
def exampleCmdCctx : CrossChainTx :=
  { exampleCctx CctxStatus.PendingOutbound with
    OutboundTxParams :=
      [{ Receiver := "r", ReceiverChainId := 5, OutboundTxHash := "", OutboundTxTssNonce := 7,
         OutboundTxGasLimit := 0, OutboundTxGasPrice := "", OutboundTxBallotIndex := "",
         OutboundTxObservedExternalHeight := 0, CoinType := CoinType.Cmd, Amount := 100,
         TssPubkey := "tss" }] }

/-- The client `exampleClient` after the outbound `0xa` of nonce 7 (value 5)
was confirmed. -/
def exampleConfirmedClient : ChainClient :=
  SetTxNReceipt exampleWorld exampleClient 7 (exampleReceipt "0xa" 0) (exampleTransaction "0xa")

/-- An event of transaction `0xe` at the given block number, transaction index
and log index. -/
def exampleEvent (blockNumber txIndex index : Nat) : ContractEvent :=
  { Raw := { Address := "0xconn", Topics := [], BlockNumber := blockNumber, TxHash := "0xe",
             TxIndex := txIndex, Index := index },
    Payload := [] }

/-- A tracker message for (chain 5, nonce 7) that carries a proof of a body of
7 bytes, which under `exampleLib` decodes to chain 5, nonce 7 and hash `0xCD`. -/
def exampleProofMsg : MsgAddToOutTxTracker :=
  { Creator := "mallory", ChainId := 5, Nonce := 7, TxHash := "0xCD",
    Proof := some { raw := [0, 0, 0, 0, 0, 0, 0] }, BlockHash := "b", TxIndex := 0 }

/-- The state `exampleCtx` pending outbound without its tracker. -/
def exampleNoTrackerCtx : Ctx :=
  { exampleCtx CctxStatus.PendingOutbound with outTxTrackers := [] }

/-- An inbound tracker message for chain 5 on the transaction `0xCD`. -/
def exampleInTxMsg (coinType : CoinType) : MsgAddToInTxTracker :=
  { Creator := "obs", ChainId := 5, TxHash := "0xCD", CoinType := coinType, Proof := none,
    BlockHash := "b", TxIndex := 0 }

/-- A record with a negative chain id, a nonce of two varint bytes and two
non-empty strings. -/
def exampleNonceToCctx : pb.NonceToCctx :=
  { ChainId := -1, Nonce := 300, CctxIndex := [97, 98], Tss := [116] }

/-- The world `exampleWorld` with an endpoint that answers the queries for the
hash `0xc` with the transaction `0xa` and the receipt of `0xa`. -/
def exampleOtherHashWorld : EvmWorld :=
  { exampleWorld with
    TransactionByHash := fun h =>
      if h = "0xc" then some (some (exampleTransaction "0xa"), false)
      else exampleWorld.TransactionByHash h,
    TransactionReceipt := fun h =>
      if h = "0xc" then ReceiptAnswer.receipt (exampleReceipt "0xa" 0)
      else exampleWorld.TransactionReceipt h }

/-- The world `exampleWorld` whose zetacore lists the given outbound trackers. -/
def exampleTrackerWorld (trackers : List OutTxTracker) : EvmWorld :=
  { exampleWorld with GetAllOutTxTrackerByChain := some trackers }

/-- Three trackers: one of nonce 8 with the hash `0xa`, one of nonce 7 with
the hashes `0xa`, `0xz`, and another one of nonce 7 with the hash `0xb`. -/
def exampleTrackers : List OutTxTracker :=
  [{ exampleHashes ["0xa"] with Nonce := 8 }, exampleHashes ["0xa", "0xz"],
   exampleHashes ["0xb"]]

/-! ## Predicates of the statements -/

/-- The block range a tick of `observeInTX` scans at external height `blockNumber`. -/
def scanRange (w : EvmWorld) (ob : ChainClient) (blockNumber : Nat) : Nat × Nat :=
  calcBlockRangeToScan (blockNumber - w.chainParams.ConfirmationCount) ob.lastBlockScanned
    w.MaxBlocksPerPeriod

/-- The run of the ZetaSent extractor in a tick at external height `blockNumber`. -/
def zetaSentRun (w : EvmWorld) (ob : ChainClient) (blockNumber : Nat) : ChainClient × Nat :=
  observeZetaSent w { ob with lastBlock := blockNumber } (scanRange w ob blockNumber).1
    (scanRange w ob blockNumber).2

/-- The run of the ERC20 Deposited extractor, after the ZetaSent one. -/
def depositedRun (w : EvmWorld) (ob : ChainClient) (blockNumber : Nat) : ChainClient × Nat :=
  observeERC20Deposited w (zetaSentRun w ob blockNumber).1 (scanRange w ob blockNumber).1
    (scanRange w ob blockNumber).2

/-- The run of the TSS-receive extractor, after the other two. -/
def tssRecvdRun (w : EvmWorld) (ob : ChainClient) (blockNumber : Nat)
    (flags : CrosschainFlags) : ChainClient × Nat :=
  observerTSSReceive w (depositedRun w ob blockNumber).1 (scanRange w ob blockNumber).1
    (scanRange w ob blockNumber).2 flags

/-- A tick of `observeInTX` reaches the scan: inbound is enabled, the external
height is read, is not below the last one, is below the largest `int64` and not
below the confirmation count, and a new block is confirmed. -/
def reachesScan (w : EvmWorld) (ob : ChainClient) (flags : CrosschainFlags)
    (blockNumber : Nat) : Prop :=
  w.GetCrosschainFlags = some flags ∧ flags.IsInboundEnabled = true
    ∧ w.BlockNumber = some blockNumber ∧ ob.lastBlock ≤ blockNumber ∧ blockNumber < MaxInt64
    ∧ w.chainParams.ConfirmationCount ≤ blockNumber
    ∧ ob.lastBlockScanned < blockNumber - w.chainParams.ConfirmationCount

/-- The order of the extractors on events: ascending lexicographic order of
(block number, transaction index, log index). -/
def eventLe (a b : ContractEvent) : Prop :=
  a.Raw.BlockNumber < b.Raw.BlockNumber
    ∨ (a.Raw.BlockNumber = b.Raw.BlockNumber
        ∧ (a.Raw.TxIndex < b.Raw.TxIndex
            ∨ (a.Raw.TxIndex = b.Raw.TxIndex ∧ a.Raw.Index ≤ b.Raw.Index)))

/-- The number that a list of decimal digits writes. -/
def digitsVal (cs : List Char) : Nat :=
  cs.foldl (fun a c => 10 * a + (c.toNat - 48)) 0

/-- The hashes of a tracker that pass `checkConfirmedTx` when checked one after
the other from the state `ob`, with their receipts and transactions. -/
def passingHashes (w : EvmWorld) (nonce : Nat) :
    ChainClient → List TxHashList → List (Receipt × Transaction)
  | _, [] => []
  | ob, txHash :: rest =>
    match checkConfirmedTx w ob txHash.TxHash nonce with
    | (ob1, Confirmation.confirmed receipt transaction) =>
      (receipt, transaction) :: passingHashes w nonce ob1 rest
    | (ob1, _) => passingHashes w nonce ob1 rest

/-- Number of entries of a hash list with `Proved = false`. -/
def unprovedCount (l : List TxHashList) : Nat :=
  (l.filter (fun h => !h.Proved)).length

/-- No two entries of a hash list have hashes that `EqualFold` equates, in
either order of the two. -/
def noFoldDup (lib : Lib) (l : List TxHashList) : Prop :=
  (l.map TxHashList.TxHash).Pairwise
    (fun a b => lib.EqualFold a b = false ∧ lib.EqualFold b a = false)

/-- The CCTX indexes listed under an inbound hash, none when the hash has no
entry. -/
def inTxHashIndexes (ctx : Ctx) (inTxHash : String) : List String :=
  match GetInTxHashToCctx ctx inTxHash with
  | some e => e.CctxIndex
  | none => []

/-- The bytes of an `int64` field on the wire: the tag byte and the varint of
the value as a `uint64`; nothing for 0. -/
def pb.wireInt64 (tag : Nat) (x : Int) : Bytes :=
  if x ≠ 0 then tag :: pb.encodeVarintLoop 9 (toUint64 x) else []

/-- The bytes of a string field on the wire: the tag byte, the varint of the
length and the bytes of the string; nothing for the empty string. -/
def pb.wireString (tag : Nat) (s : Bytes) : Bytes :=
  if s.length > 0 then tag :: (pb.encodeVarintLoop 9 s.length ++ s) else []

/-- The wire format of a record: its four fields in the order of their numbers. -/
def pb.wire (m : pb.NonceToCctx) : Bytes :=
  pb.wireInt64 0x8 m.ChainId ++ (pb.wireInt64 0x10 m.Nonce ++
    (pb.wireString 0x1a m.CctxIndex ++ pb.wireString 0x22 m.Tss))

/-! ## Lemmas on prefix stores -/

theorem storeGet_storeSet_self {V : Type} (key : V → String) (st : List V) (v : V) :
    storeGet key (storeSet key st v) (key v) = some v := by
  induction st with
  | nil => simp [storeSet, storeGet]
  | cons v' rest ih =>
    unfold storeSet
    by_cases h1 : key v' = key v
    · simp [h1, storeGet]
    · by_cases h2 : (key v).data < (key v').data
      · simp [h1, h2, storeGet]
      · simp [h1, h2, storeGet, ih]

theorem storeGet_storeSet_ne {V : Type} (key : V → String) (st : List V) (v : V) (k : String)
    (hk : k ≠ key v) : storeGet key (storeSet key st v) k = storeGet key st k := by
  induction st with
  | nil => simp [storeSet, storeGet, Ne.symm hk]
  | cons v' rest ih =>
    unfold storeSet
    by_cases h1 : key v' = key v
    · simp [h1, storeGet, Ne.symm hk]
    · by_cases h2 : (key v).data < (key v').data
      · simp [h1, h2, storeGet, Ne.symm hk]
      · simp [h1, h2, storeGet, ih]

theorem storeGet_storeDelete_self {V : Type} (key : V → String) (st : List V) (k : String) :
    storeGet key (storeDelete key st k) k = none := by
  induction st with
  | nil => simp [storeDelete, storeGet]
  | cons v' rest ih =>
    unfold storeDelete at ih ⊢
    by_cases h1 : key v' = k
    · simp [List.filter, h1, ih]
    · simp [List.filter, h1, storeGet, ih]

theorem storeGet_key {V : Type} (key : V → String) (st : List V) (k : String) (v : V)
    (h : storeGet key st k = some v) : key v = k := by
  induction st with
  | nil => simp [storeGet] at h
  | cons v' rest ih =>
    unfold storeGet at h
    by_cases h1 : key v' = k
    · simp [h1] at h
      rw [← h]; exact h1
    · simp [h1] at h
      exact ih h

theorem GetCrossChainTx_index (ctx : Ctx) (index : String) (c : CrossChainTx)
    (h : GetCrossChainTx ctx index = some c) : c.Index = index :=
  storeGet_key CrossChainTx.Index ctx.cctxs index c h

theorem GetCrossChainTx_SetCrossChainTx (ctx : Ctx) (c : CrossChainTx) :
    GetCrossChainTx (SetCrossChainTx ctx c) c.Index = some c := by
  unfold GetCrossChainTx SetCrossChainTx
  exact storeGet_storeSet_self CrossChainTx.Index ctx.cctxs c

theorem exampleCtx_reached :
    (AddToOutTxTracker exampleLib
        (SetCctxAndNonceToCctxAndInTxHashToCctx exampleBase
          (exampleCctx CctxStatus.PendingOutbound))
        { exampleMsg with Creator := "obs", TxHash := "0xab" }).1
      = exampleCtx CctxStatus.PendingOutbound := by
  rfl

/-! ## AddToOutTxTracker: authorization -/

/-- C1, as stated, fails: after the admin has aborted the example CCTX, its
nonce is still bound to it; a message without proof from an account that is
neither emergency admin nor observer then returns no error, and the stored
tracker of (chain 5, nonce 7) is removed. -/
theorem AddToOutTxTracker_unauthorized_not_pending_removes :
    GetSupportedChainFromChainID exampleAbortedByAdminCtx exampleMsg.ChainId
        = some { ChainId := 5 }
    ∧ CctxByNonce exampleAbortedByAdminCtx exampleMsg.ChainId exampleMsg.Nonce
        = .ok (some exampleAbortedByAdmin)
    ∧ exampleMsg.Proof = none
    ∧ exampleAbortedByAdminCtx.authorityIsAuthorized exampleMsg.Creator
        PolicyType.groupEmergency = false
    ∧ exampleAbortedByAdminCtx.observerIsAuthorized exampleMsg.Creator = false
    ∧ (AddToOutTxTracker exampleLib exampleAbortedByAdminCtx exampleMsg).2
        = .ok { IsRemoved := true }
    ∧ (AddToOutTxTracker exampleLib exampleAbortedByAdminCtx exampleMsg).2
        ≠ .error Err.NotAuthorized
    ∧ GetOutTxTracker exampleAbortedByAdminCtx 5 7 = some exampleTracker
    ∧ GetOutTxTracker (AddToOutTxTracker exampleLib exampleAbortedByAdminCtx exampleMsg).1 5 7
        = none := by
  refine ⟨by decide, by decide, rfl, by decide, by decide, by decide, by decide, by decide,
    by decide⟩

/-- C1, amended: on a supported chain, for a nonce bound to a CCTX that is
pending, a message without proof whose creator is neither authorized under the
emergency policy nor an observer fails with NotAuthorized and the call writes
nothing: the state, and with it every outbound tracker, is as before. -/
theorem AddToOutTxTracker_unauthorized_pending (lib : Lib) (ctx : Ctx)
    (msg : MsgAddToOutTxTracker) (chain : Chain) (cctx : CrossChainTx)
    (hchain : GetSupportedChainFromChainID ctx msg.ChainId = some chain)
    (hcctx : CctxByNonce ctx msg.ChainId msg.Nonce = .ok (some cctx))
    (hpending : IsPending cctx = true)
    (hproof : msg.Proof = none)
    (hadmin : ctx.authorityIsAuthorized msg.Creator PolicyType.groupEmergency = false)
    (hobserver : ctx.observerIsAuthorized msg.Creator = false) :
    (AddToOutTxTracker lib ctx msg).2 = .error Err.NotAuthorized
    ∧ (AddToOutTxTracker lib ctx msg).1 = ctx
    ∧ ∀ chainID nonce, GetOutTxTracker (AddToOutTxTracker lib ctx msg).1 chainID nonce
        = GetOutTxTracker ctx chainID nonce := by
  have h : AddToOutTxTracker lib ctx msg = (ctx, .error Err.NotAuthorized) := by
    unfold AddToOutTxTracker
    simp [hchain, hcctx, hpending, hproof, hadmin, hobserver]
  simp [h]

/-- Witness of the amended C1: the example message on the pending example CCTX. -/
theorem AddToOutTxTracker_unauthorized_pending_witness :
    (AddToOutTxTracker exampleLib (exampleCtx CctxStatus.PendingOutbound) exampleMsg).2
        = .error Err.NotAuthorized
    ∧ (AddToOutTxTracker exampleLib (exampleCtx CctxStatus.PendingOutbound) exampleMsg).1
        = exampleCtx CctxStatus.PendingOutbound
    ∧ ∀ chainID nonce,
        GetOutTxTracker
          (AddToOutTxTracker exampleLib (exampleCtx CctxStatus.PendingOutbound) exampleMsg).1
          chainID nonce
        = GetOutTxTracker (exampleCtx CctxStatus.PendingOutbound) chainID nonce :=
  AddToOutTxTracker_unauthorized_pending exampleLib (exampleCtx CctxStatus.PendingOutbound)
    exampleMsg { ChainId := 5 } (exampleCctx CctxStatus.PendingOutbound)
    (by decide) (by decide) (by decide) rfl (by decide) (by decide)

/-! ## AbortStuckCCTX -/

/-- C2: AbortStuckCCTX returns an error exactly when the creator is not
authorized under the admin policy (NotAuthorized), else when no CCTX is stored
under the index (CannotFindCctx), else when the stored CCTX is OutboundMined,
Reverted or Aborted (StatusNotPending); it returns no other error, and in
every failing case the state is the one before the call, so that the CCTX
stored under the index, a terminal one in particular, is read back unchanged. -/
theorem AbortStuckCCTX_failures (ctx : Ctx) (msg : MsgAbortStuckCCTX) :
    ((AbortStuckCCTX ctx msg).2 = .error Err.NotAuthorized
      ↔ ctx.authorityIsAuthorized msg.Creator PolicyType.groupAdmin = false)
    ∧ ((AbortStuckCCTX ctx msg).2 = .error Err.CannotFindCctx
      ↔ ctx.authorityIsAuthorized msg.Creator PolicyType.groupAdmin = true
        ∧ GetCrossChainTx ctx msg.CctxIndex = none)
    ∧ ((AbortStuckCCTX ctx msg).2 = .error Err.StatusNotPending
      ↔ ctx.authorityIsAuthorized msg.Creator PolicyType.groupAdmin = true
        ∧ ∃ c, GetCrossChainTx ctx msg.CctxIndex = some c
          ∧ (c.CctxStatus.Status = CctxStatus.OutboundMined
            ∨ c.CctxStatus.Status = CctxStatus.Reverted
            ∨ c.CctxStatus.Status = CctxStatus.Aborted))
    ∧ (∀ e, (AbortStuckCCTX ctx msg).2 = .error e
        → (e = Err.NotAuthorized ∨ e = Err.CannotFindCctx ∨ e = Err.StatusNotPending)
          ∧ (AbortStuckCCTX ctx msg).1 = ctx)
    ∧ (∀ c, GetCrossChainTx ctx msg.CctxIndex = some c
        → (c.CctxStatus.Status = CctxStatus.OutboundMined
            ∨ c.CctxStatus.Status = CctxStatus.Reverted
            ∨ c.CctxStatus.Status = CctxStatus.Aborted)
        → (AbortStuckCCTX ctx msg).2 ≠ .ok ()
          ∧ GetCrossChainTx (AbortStuckCCTX ctx msg).1 msg.CctxIndex = some c) := by
  unfold AbortStuckCCTX
  cases hauth : ctx.authorityIsAuthorized msg.Creator PolicyType.groupAdmin with
  | false =>
    simp
    intro c hc _
    exact hc
  | true =>
    cases hget : GetCrossChainTx ctx msg.CctxIndex with
    | none => simp
    | some c =>
      cases hst : c.CctxStatus.Status <;> simp [hst, hget]

/-- Witness of C2: an admin aborting the mined example CCTX gets
StatusNotPending and the CCTX is read back as it was. -/
theorem AbortStuckCCTX_failures_witness :
    (AbortStuckCCTX (exampleCtx CctxStatus.OutboundMined)
        { Creator := "admin", CctxIndex := "idx1" }).2 = .error Err.StatusNotPending
    ∧ GetCrossChainTx
        (AbortStuckCCTX (exampleCtx CctxStatus.OutboundMined)
          { Creator := "admin", CctxIndex := "idx1" }).1 "idx1"
        = some (exampleCctx CctxStatus.OutboundMined) :=
  ⟨(AbortStuckCCTX_failures (exampleCtx CctxStatus.OutboundMined)
      { Creator := "admin", CctxIndex := "idx1" }).2.2.1.mpr
      ⟨by decide, exampleCctx CctxStatus.OutboundMined, by decide, Or.inl rfl⟩,
   ((AbortStuckCCTX_failures (exampleCtx CctxStatus.OutboundMined)
      { Creator := "admin", CctxIndex := "idx1" }).2.2.2.2
      (exampleCctx CctxStatus.OutboundMined) (by decide) (Or.inl rfl)).2⟩

/-- C3: for a creator authorized under the admin policy and a stored CCTX in
status PendingInbound, PendingOutbound or PendingRevert, AbortStuckCCTX
succeeds and the CCTX read back under the index has status Aborted with the
status message "CCTX aborted with admin cmd". -/
theorem AbortStuckCCTX_aborts_pending (ctx : Ctx) (msg : MsgAbortStuckCCTX) (c : CrossChainTx)
    (hauth : ctx.authorityIsAuthorized msg.Creator PolicyType.groupAdmin = true)
    (hget : GetCrossChainTx ctx msg.CctxIndex = some c)
    (hpending : c.CctxStatus.Status = CctxStatus.PendingInbound
      ∨ c.CctxStatus.Status = CctxStatus.PendingOutbound
      ∨ c.CctxStatus.Status = CctxStatus.PendingRevert) :
    (AbortStuckCCTX ctx msg).2 = .ok ()
    ∧ ∃ c1, GetCrossChainTx (AbortStuckCCTX ctx msg).1 msg.CctxIndex = some c1
        ∧ c1.CctxStatus.Status = CctxStatus.Aborted
        ∧ c1.CctxStatus.StatusMessage = "CCTX aborted with admin cmd" := by
  have hidx : c.Index = msg.CctxIndex := GetCrossChainTx_index ctx msg.CctxIndex c hget
  have hrun : AbortStuckCCTX ctx msg =
      (SetCrossChainTx ctx
        { c with CctxStatus :=
            { Status := CctxStatus.Aborted, StatusMessage := AbortMessage,
              LastUpdateTimestamp := 0, IsAbortRefunded := false } }, .ok ()) := by
    unfold AbortStuckCCTX
    rcases hpending with h | h | h <;> simp [hauth, hget, h]
  have hread := GetCrossChainTx_SetCrossChainTx ctx
    { c with CctxStatus :=
        { Status := CctxStatus.Aborted, StatusMessage := AbortMessage,
          LastUpdateTimestamp := 0, IsAbortRefunded := false } }
  rw [hrun, ← hidx]
  exact ⟨rfl, _, hread, rfl, rfl⟩

/-- Witness of C3: the admin aborts the example CCTX pending outbound. -/
theorem AbortStuckCCTX_aborts_pending_witness :
    (AbortStuckCCTX (exampleCtx CctxStatus.PendingOutbound)
        { Creator := "admin", CctxIndex := "idx1" }).2 = .ok ()
    ∧ ∃ c1, GetCrossChainTx
          (AbortStuckCCTX (exampleCtx CctxStatus.PendingOutbound)
            { Creator := "admin", CctxIndex := "idx1" }).1 "idx1" = some c1
        ∧ c1.CctxStatus.Status = CctxStatus.Aborted
        ∧ c1.CctxStatus.StatusMessage = "CCTX aborted with admin cmd" :=
  AbortStuckCCTX_aborts_pending (exampleCtx CctxStatus.PendingOutbound)
    { Creator := "admin", CctxIndex := "idx1" } (exampleCctx CctxStatus.PendingOutbound)
    (by decide) (by decide) (Or.inr (Or.inl rfl))

/-! ## AddToOutTxTracker: the tracker store -/

theorem GetOutTxTracker_key (ctx : Ctx) (chainID : Int) (nonce : Nat) (t : OutTxTracker)
    (h : GetOutTxTracker ctx chainID nonce = some t) :
    t.key = OutTxTrackerKey (getOutTrackerIndex chainID nonce) :=
  storeGet_key OutTxTracker.key ctx.outTxTrackers _ t h

theorem GetOutTxTracker_SetOutTxTracker (ctx : Ctx) (chainID : Int) (nonce : Nat)
    (t : OutTxTracker) (hk : t.key = OutTxTrackerKey (getOutTrackerIndex chainID nonce)) :
    GetOutTxTracker (SetOutTxTracker ctx t) chainID nonce = some t := by
  unfold GetOutTxTracker SetOutTxTracker
  rw [← hk]
  exact storeGet_storeSet_self OutTxTracker.key ctx.outTxTrackers t

theorem GetOutTxTracker_RemoveOutTxTracker (ctx : Ctx) (chainID : Int) (nonce : Nat) :
    GetOutTxTracker (RemoveOutTxTracker ctx chainID nonce) chainID nonce = none := by
  unfold GetOutTxTracker RemoveOutTxTracker
  exact storeGet_storeDelete_self OutTxTracker.key ctx.outTxTrackers _

theorem GetSupportedChainFromChainID_id (ctx : Ctx) (chainId : Int) (chain : Chain)
    (h : GetSupportedChainFromChainID ctx chainId = some chain) : chain.ChainId = chainId := by
  unfold GetSupportedChainFromChainID at h
  have := List.find?_some h
  simpa using this

theorem unprovedCount_le_length (l : List TxHashList) : unprovedCount l ≤ l.length :=
  List.length_filter_le _ l

theorem unprovedCount_markProved_le (lib : Lib) (txHash : String) (l : List TxHashList) :
    unprovedCount (markProved lib txHash l) ≤ unprovedCount l := by
  induction l with
  | nil => simp [markProved]
  | cons h rest ih =>
    unfold markProved
    by_cases hf : lib.EqualFold h.TxHash txHash = true
    · cases hp : h.Proved <;> simp [hf, unprovedCount, List.filter, hp]
    · cases hp : h.Proved <;> simp [hf, unprovedCount, List.filter, hp] <;>
        simpa [unprovedCount] using ih

theorem map_TxHash_markProved (lib : Lib) (txHash : String) (l : List TxHashList) :
    (markProved lib txHash l).map TxHashList.TxHash = l.map TxHashList.TxHash := by
  induction l with
  | nil => simp [markProved]
  | cons h rest ih =>
    unfold markProved
    by_cases hf : lib.EqualFold h.TxHash txHash = true
    · simp [hf]
    · simp [hf, ih]

theorem isDupHash_false (lib : Lib) (txHash : String) (l : List TxHashList)
    (h : isDupHash lib txHash l = false) :
    ∀ a ∈ l.map TxHashList.TxHash, lib.EqualFold a txHash = false := by
  induction l with
  | nil => simp
  | cons x rest ih =>
    unfold isDupHash at h
    by_cases hf : lib.EqualFold x.TxHash txHash = true
    · simp [hf] at h
    · simp [hf] at h
      intro a ha
      simp at ha
      rcases ha with ha | ⟨y, hy, rfl⟩
      · subst ha; simpa using hf
      · exact ih h _ (List.mem_map_of_mem _ hy)

theorem noFoldDup_cons (lib : Lib) (hsymm : ∀ a b, lib.EqualFold a b = lib.EqualFold b a)
    (x : TxHashList) (l : List TxHashList) (hl : noFoldDup lib l)
    (hx : isDupHash lib x.TxHash l = false) : noFoldDup lib (x :: l) := by
  unfold noFoldDup at hl ⊢
  simp only [List.map_cons, List.pairwise_cons]
  refine ⟨?_, hl⟩
  intro a ha
  have h1 := isDupHash_false lib x.TxHash l hx a ha
  exact ⟨by rw [hsymm]; exact h1, h1⟩

theorem noFoldDup_append (lib : Lib) (hsymm : ∀ a b, lib.EqualFold a b = lib.EqualFold b a)
    (x : TxHashList) (l : List TxHashList) (hl : noFoldDup lib l)
    (hx : isDupHash lib x.TxHash l = false) : noFoldDup lib (l ++ [x]) := by
  unfold noFoldDup at hl ⊢
  simp only [List.map_append, List.map_cons, List.map_nil, List.pairwise_append]
  refine ⟨hl, by simp, ?_⟩
  intro a ha b hb
  simp at hb
  subst hb
  have h1 := isDupHash_false lib x.TxHash l hx a ha
  exact ⟨h1, by rw [hsymm]; exact h1⟩

/-- C4: tracker cap and dedup are preserved by AddToOutTxTracker. If the
tracker stored for (chainId, nonce) of the message has at most 2 entries with
Proved=false and no two entries with hashes equal up to letter case, then so
has the tracker stored for (chainId, nonce) after the call, when one remains
(`EqualFold` being symmetric, as equality up to case is). Proved entries are
not bounded: a verified proof with a hash not yet listed puts a Proved=true
entry in front of a stored list of any length. -/
theorem AddToOutTxTracker_cap_dedup (lib : Lib) (ctx : Ctx) (msg : MsgAddToOutTxTracker)
    (hsymm : ∀ a b, lib.EqualFold a b = lib.EqualFold b a)
    (hinv : ∀ t, GetOutTxTracker ctx msg.ChainId msg.Nonce = some t →
      unprovedCount t.HashList ≤ 2 ∧ noFoldDup lib t.HashList) :
    (∀ t1, GetOutTxTracker (AddToOutTxTracker lib ctx msg).1 msg.ChainId msg.Nonce = some t1 →
      unprovedCount t1.HashList ≤ 2 ∧ noFoldDup lib t1.HashList)
    ∧ (∀ chain cctx t,
        GetSupportedChainFromChainID ctx msg.ChainId = some chain →
        CctxByNonce ctx msg.ChainId msg.Nonce = .ok (some cctx) →
        IsPending cctx = true →
        checkProof lib ctx msg = .ok true →
        GetOutTxTracker ctx msg.ChainId msg.Nonce = some t →
        isDupHash lib msg.TxHash t.HashList = false →
        ∃ t1, GetOutTxTracker (AddToOutTxTracker lib ctx msg).1 msg.ChainId msg.Nonce = some t1
          ∧ t1.HashList
              = { TxHash := msg.TxHash, TxSigner := msg.Creator, Proved := true } :: t.HashList
          ∧ (t1.HashList.filter (fun h => h.Proved)).length
              = (t.HashList.filter (fun h => h.Proved)).length + 1) := by
  constructor
  · intro t1
    unfold AddToOutTxTracker
    split
    · exact hinv t1
    · rename_i chain hchain
      split
      · exact hinv t1
      · exact hinv t1
      · split
        · rw [GetOutTxTracker_RemoveOutTxTracker]
          intro h; cases h
        · split
          · exact hinv t1
          · split
            · exact hinv t1
            · rename_i isProven _
              split
              · -- no tracker stored: a new one with the single, unproved hash
                have hid := GetSupportedChainFromChainID_id ctx msg.ChainId chain hchain
                rw [GetOutTxTracker_SetOutTxTracker _ _ _ _ (by simp [OutTxTracker.key, hid])]
                intro h
                cases h
                simp [unprovedCount, noFoldDup]
              · rename_i tracker htr
                have hk := GetOutTxTracker_key ctx _ _ tracker htr
                have ⟨hcap, hdup⟩ := hinv tracker htr
                split
                · rename_i hisdup
                  split
                  · rw [GetOutTxTracker_SetOutTxTracker _ _ _ _ (by simpa [OutTxTracker.key] using hk)]
                    intro h
                    cases h
                    refine ⟨le_trans (unprovedCount_markProved_le _ _ _) hcap, ?_⟩
                    unfold noFoldDup at hdup ⊢
                    rw [map_TxHash_markProved]
                    exact hdup
                  · exact hinv t1
                · rename_i hnodup
                  have hnd : isDupHash lib msg.TxHash tracker.HashList = false := by
                    simpa using hnodup
                  split
                  · rw [GetOutTxTracker_SetOutTxTracker _ _ _ _ (by simpa [OutTxTracker.key] using hk)]
                    intro h
                    cases h
                    refine ⟨?_, noFoldDup_cons lib hsymm _ _ hdup hnd⟩
                    simpa [unprovedCount, List.filter] using hcap
                  · split
                    · rename_i hlen
                      rw [GetOutTxTracker_SetOutTxTracker _ _ _ _
                        (by simpa [OutTxTracker.key] using hk)]
                      intro h
                      cases h
                      refine ⟨?_, noFoldDup_append lib hsymm _ _ hdup hnd⟩
                      have := unprovedCount_le_length
                        (tracker.HashList ++
                          [{ TxHash := msg.TxHash, TxSigner := msg.Creator, Proved := false }])
                      simp at this
                      simp only
                      omega
                    · rw [GetOutTxTracker_SetOutTxTracker _ _ _ _ hk]
                      intro h
                      cases h
                      exact ⟨hcap, hdup⟩
  · intro chain cctx t hchain hcctx hpending hproof htr hnodup
    have hk := GetOutTxTracker_key ctx _ _ t htr
    have hsome : msg.Proof.isNone = false := by
      cases hp : msg.Proof with
      | none => simp [checkProof, hp] at hproof
      | some _ => rfl
    have hrun : AddToOutTxTracker lib ctx msg =
        (SetOutTxTracker ctx
          { t with HashList :=
              { TxHash := msg.TxHash, TxSigner := msg.Creator, Proved := true } :: t.HashList },
         .ok { IsRemoved := false }) := by
      unfold AddToOutTxTracker
      simp [hchain, hcctx, hpending, hsome, hproof, htr, hnodup]
    rw [hrun]
    refine ⟨_, GetOutTxTracker_SetOutTxTracker _ _ _ _ (by simpa [OutTxTracker.key] using hk),
      rfl, ?_⟩
    simp [List.filter]

/-- Witness of C4: the observer adds a second hash to the example tracker; the
tracker read back has two unproved entries and no duplicate. -/
theorem AddToOutTxTracker_cap_dedup_witness :
    (∀ t1, GetOutTxTracker
        (AddToOutTxTracker exampleLib (exampleCtx CctxStatus.PendingOutbound)
          { exampleMsg with Creator := "obs", TxHash := "0xcd" }).1 5 7 = some t1 →
      unprovedCount t1.HashList ≤ 2 ∧ noFoldDup exampleLib t1.HashList)
    ∧ GetOutTxTracker
        (AddToOutTxTracker exampleLib (exampleCtx CctxStatus.PendingOutbound)
          { exampleMsg with Creator := "obs", TxHash := "0xcd" }).1 5 7
      = some { exampleTracker with
          HashList := [{ TxHash := "0xab", TxSigner := "obs", Proved := false },
                       { TxHash := "0xcd", TxSigner := "obs", Proved := false }] } :=
  ⟨(AddToOutTxTracker_cap_dedup exampleLib (exampleCtx CctxStatus.PendingOutbound)
      { exampleMsg with Creator := "obs", TxHash := "0xcd" }
      (fun a b => by
        show decide (a.data.map Char.toLower = b.data.map Char.toLower)
          = decide (b.data.map Char.toLower = a.data.map Char.toLower)
        exact decide_eq_decide.mpr ⟨Eq.symm, Eq.symm⟩)
      (fun t h => by
        have h0 : GetOutTxTracker (exampleCtx CctxStatus.PendingOutbound) 5 7
            = some exampleTracker := by decide
        have h1 : some exampleTracker = some t := h0.symm.trans h
        cases h1
        exact ⟨by decide, by unfold noFoldDup; decide⟩)).1,
   by decide⟩

/-- C5: on a supported chain, for a (chainId, nonce) bound to a CCTX: when the
status of the CCTX is none of PendingInbound, PendingOutbound, PendingRevert,
the call returns IsRemoved=true and no tracker is stored for (chainId, nonce)
afterwards; when the CCTX is pending and the call returns without error, the
response has IsRemoved=false and a tracker is stored for (chainId, nonce). -/
theorem AddToOutTxTracker_IsRemoved (lib : Lib) (ctx : Ctx) (msg : MsgAddToOutTxTracker)
    (chain : Chain) (cctx : CrossChainTx)
    (hchain : GetSupportedChainFromChainID ctx msg.ChainId = some chain)
    (hcctx : CctxByNonce ctx msg.ChainId msg.Nonce = .ok (some cctx)) :
    ((cctx.CctxStatus.Status ≠ CctxStatus.PendingInbound
        ∧ cctx.CctxStatus.Status ≠ CctxStatus.PendingOutbound
        ∧ cctx.CctxStatus.Status ≠ CctxStatus.PendingRevert) →
      (AddToOutTxTracker lib ctx msg).2 = .ok { IsRemoved := true }
      ∧ GetOutTxTracker (AddToOutTxTracker lib ctx msg).1 msg.ChainId msg.Nonce = none)
    ∧ ((cctx.CctxStatus.Status = CctxStatus.PendingInbound
        ∨ cctx.CctxStatus.Status = CctxStatus.PendingOutbound
        ∨ cctx.CctxStatus.Status = CctxStatus.PendingRevert) →
      ∀ resp, (AddToOutTxTracker lib ctx msg).2 = .ok resp →
        resp.IsRemoved = false
        ∧ ∃ t, GetOutTxTracker (AddToOutTxTracker lib ctx msg).1 msg.ChainId msg.Nonce
            = some t) := by
  constructor
  · intro ⟨h1, h2, h3⟩
    have hnp : IsPending cctx = false := by simp [IsPending, h1, h2, h3]
    have hrun : AddToOutTxTracker lib ctx msg =
        (RemoveOutTxTracker ctx msg.ChainId msg.Nonce, .ok { IsRemoved := true }) := by
      unfold AddToOutTxTracker
      simp [hchain, hcctx, hnp]
    rw [hrun]
    exact ⟨rfl, GetOutTxTracker_RemoveOutTxTracker ctx msg.ChainId msg.Nonce⟩
  · intro hp resp
    have hpend : IsPending cctx = true := by
      rcases hp with h | h | h <;> simp [IsPending, h]
    have hid := GetSupportedChainFromChainID_id ctx msg.ChainId chain hchain
    unfold AddToOutTxTracker
    simp only [hchain, hcctx, hpend, Bool.not_true, Bool.false_eq_true, if_false]
    split
    · intro h; cases h
    · split
      · intro h; cases h
      · split
        · intro h
          cases h
          exact ⟨rfl, _, GetOutTxTracker_SetOutTxTracker _ _ _ _
            (by simp [OutTxTracker.key, hid])⟩
        · rename_i tracker htr
          have hk := GetOutTxTracker_key ctx _ _ tracker htr
          split
          · split
            · intro h
              cases h
              exact ⟨rfl, _, GetOutTxTracker_SetOutTxTracker _ _ _ _
                (by simpa [OutTxTracker.key] using hk)⟩
            · intro h
              cases h
              exact ⟨rfl, _, htr⟩
          · split
            · intro h
              cases h
              exact ⟨rfl, _, GetOutTxTracker_SetOutTxTracker _ _ _ _
                (by simpa [OutTxTracker.key] using hk)⟩
            · split
              · intro h
                cases h
                exact ⟨rfl, _, GetOutTxTracker_SetOutTxTracker _ _ _ _
                  (by simpa [OutTxTracker.key] using hk)⟩
              · intro h
                cases h
                exact ⟨rfl, _, GetOutTxTracker_SetOutTxTracker _ _ _ _ hk⟩

/-- Witness of C5: on the mined example CCTX the tracker is removed with
IsRemoved=true; on the pending one the observer's call answers IsRemoved=false
and the tracker stays. -/
theorem AddToOutTxTracker_IsRemoved_witness :
    ((AddToOutTxTracker exampleLib (exampleCtx CctxStatus.OutboundMined) exampleMsg).2
        = .ok { IsRemoved := true }
      ∧ GetOutTxTracker
          (AddToOutTxTracker exampleLib (exampleCtx CctxStatus.OutboundMined) exampleMsg).1
          exampleMsg.ChainId exampleMsg.Nonce = none)
    ∧ ((AddToOutTxTracker exampleLib (exampleCtx CctxStatus.PendingRevert)
          { exampleMsg with Creator := "obs" }).2 = .ok { IsRemoved := false }
      ∧ ∃ t, GetOutTxTracker
          (AddToOutTxTracker exampleLib (exampleCtx CctxStatus.PendingRevert)
            { exampleMsg with Creator := "obs" }).1 exampleMsg.ChainId exampleMsg.Nonce
          = some t) :=
  ⟨(AddToOutTxTracker_IsRemoved exampleLib (exampleCtx CctxStatus.OutboundMined) exampleMsg
      { ChainId := 5 } (exampleCctx CctxStatus.OutboundMined) (by decide) (by decide)).1
      (by decide),
   by decide,
   ((AddToOutTxTracker_IsRemoved exampleLib (exampleCtx CctxStatus.PendingRevert)
      { exampleMsg with Creator := "obs" }
      { ChainId := 5 } (exampleCctx CctxStatus.PendingRevert) (by decide) (by decide)).2
      (by decide) { IsRemoved := false } (by decide)).2⟩

/-! ## SetCctxAndNonceToCctxAndInTxHashToCctx -/

theorem indexListed_iff (list : List String) (index : String) :
    indexListed list index = true ↔ index ∈ list := by
  induction list with
  | nil => simp [indexListed]
  | cons x rest ih =>
    unfold indexListed
    by_cases h : x = index
    · simp [h]
    · simp [h, ih, Ne.symm h]

theorem SetCctx_cctxs (ctx : Ctx) (c : CrossChainTx) :
    (SetCctxAndNonceToCctxAndInTxHashToCctx ctx c).cctxs
      = storeSet CrossChainTx.Index ctx.cctxs c := by
  unfold SetCctxAndNonceToCctxAndInTxHashToCctx
  simp only [SetInTxHashToCctx, SetCrossChainTx]
  split
  · rfl
  · split <;> split <;> simp [AddZetaAbortedAmount, GetZetaAccounting, SetZetaAccounting,
      SetNonceToCctx] <;> split <;> rfl

theorem SetCctx_inTxHashToCctx (ctx : Ctx) (c : CrossChainTx) :
    (SetCctxAndNonceToCctxAndInTxHashToCctx ctx c).inTxHashToCctx
      = storeSet InTxHashToCctx.InTxHash ctx.inTxHashToCctx
          { InTxHash := c.InboundTxParams.InboundTxObservedHash,
            CctxIndex :=
              if indexListed (inTxHashIndexes ctx c.InboundTxParams.InboundTxObservedHash)
                  c.Index then
                inTxHashIndexes ctx c.InboundTxParams.InboundTxObservedHash
              else inTxHashIndexes ctx c.InboundTxParams.InboundTxObservedHash ++ [c.Index] } := by
  have hval : ∀ o : Option InTxHashToCctx,
      (if indexListed (o.getD { InTxHash := "", CctxIndex := [] }).CctxIndex c.Index = true then
          ({ InTxHash := c.InboundTxParams.InboundTxObservedHash,
             CctxIndex := (o.getD { InTxHash := "", CctxIndex := [] }).CctxIndex }
            : InTxHashToCctx)
        else
          { InTxHash := c.InboundTxParams.InboundTxObservedHash,
            CctxIndex := (o.getD { InTxHash := "", CctxIndex := [] }).CctxIndex ++ [c.Index] })
      = { InTxHash := c.InboundTxParams.InboundTxObservedHash,
          CctxIndex :=
            if indexListed (match o with | some e => e.CctxIndex | none => []) c.Index then
              (match o with | some e => e.CctxIndex | none => [])
            else (match o with | some e => e.CctxIndex | none => []) ++ [c.Index] } := by
    intro o
    cases o <;> simp <;> split <;> rfl
  unfold SetCctxAndNonceToCctxAndInTxHashToCctx inTxHashIndexes
  simp only [SetInTxHashToCctx, SetCrossChainTx, GetInTxHashToCctx]
  rw [hval]
  split
  · rfl
  · split <;> split <;> simp [AddZetaAbortedAmount, GetZetaAccounting, SetZetaAccounting,
      SetNonceToCctx] <;> split <;> rfl

theorem GetCrossChainTx_SetCctx (ctx : Ctx) (c : CrossChainTx) :
    GetCrossChainTx (SetCctxAndNonceToCctxAndInTxHashToCctx ctx c) c.Index = some c := by
  unfold GetCrossChainTx
  rw [SetCctx_cctxs]
  exact storeGet_storeSet_self CrossChainTx.Index ctx.cctxs c

theorem inTxHashIndexes_SetCctx (ctx : Ctx) (c : CrossChainTx) :
    inTxHashIndexes (SetCctxAndNonceToCctxAndInTxHashToCctx ctx c)
        c.InboundTxParams.InboundTxObservedHash
      = if indexListed (inTxHashIndexes ctx c.InboundTxParams.InboundTxObservedHash) c.Index then
          inTxHashIndexes ctx c.InboundTxParams.InboundTxObservedHash
        else inTxHashIndexes ctx c.InboundTxParams.InboundTxObservedHash ++ [c.Index] := by
  have h := storeGet_storeSet_self InTxHashToCctx.InTxHash ctx.inTxHashToCctx
    { InTxHash := c.InboundTxParams.InboundTxObservedHash,
      CctxIndex :=
        if indexListed (inTxHashIndexes ctx c.InboundTxParams.InboundTxObservedHash)
            c.Index then
          inTxHashIndexes ctx c.InboundTxParams.InboundTxObservedHash
        else inTxHashIndexes ctx c.InboundTxParams.InboundTxObservedHash ++ [c.Index] }
  conv_lhs => unfold inTxHashIndexes GetInTxHashToCctx
  rw [SetCctx_inTxHashToCctx, h]

/-- C6: after SetCctxAndNonceToCctxAndInTxHashToCctx(c), on any store,
GetCrossChainTx(c.Index) returns c with found=true; given that c.Index was
listed at most once under the inbound observed hash of c before, it is listed
exactly once afterwards, also after a second call with the same c; the indexes
listed before are kept, in their order and number; the second call leaves the
list as the first call made it and c is still read back. -/
theorem SetCctx_read_back_and_index_once (ctx : Ctx) (c : CrossChainTx) :
    GetCrossChainTx (SetCctxAndNonceToCctxAndInTxHashToCctx ctx c) c.Index = some c
    ∧ ((inTxHashIndexes ctx c.InboundTxParams.InboundTxObservedHash).count c.Index ≤ 1 →
        (inTxHashIndexes (SetCctxAndNonceToCctxAndInTxHashToCctx ctx c)
          c.InboundTxParams.InboundTxObservedHash).count c.Index = 1
        ∧ (inTxHashIndexes
            (SetCctxAndNonceToCctxAndInTxHashToCctx
              (SetCctxAndNonceToCctxAndInTxHashToCctx ctx c) c)
            c.InboundTxParams.InboundTxObservedHash).count c.Index = 1)
    ∧ (inTxHashIndexes ctx c.InboundTxParams.InboundTxObservedHash
        <+: inTxHashIndexes (SetCctxAndNonceToCctxAndInTxHashToCctx ctx c)
          c.InboundTxParams.InboundTxObservedHash)
    ∧ (∀ i, i ≠ c.Index →
        (inTxHashIndexes (SetCctxAndNonceToCctxAndInTxHashToCctx ctx c)
          c.InboundTxParams.InboundTxObservedHash).count i
        = (inTxHashIndexes ctx c.InboundTxParams.InboundTxObservedHash).count i)
    ∧ GetCrossChainTx
        (SetCctxAndNonceToCctxAndInTxHashToCctx
          (SetCctxAndNonceToCctxAndInTxHashToCctx ctx c) c) c.Index = some c
    ∧ inTxHashIndexes
        (SetCctxAndNonceToCctxAndInTxHashToCctx
          (SetCctxAndNonceToCctxAndInTxHashToCctx ctx c) c)
        c.InboundTxParams.InboundTxObservedHash
      = inTxHashIndexes (SetCctxAndNonceToCctxAndInTxHashToCctx ctx c)
          c.InboundTxParams.InboundTxObservedHash := by
  have hmem : c.Index ∈ inTxHashIndexes (SetCctxAndNonceToCctxAndInTxHashToCctx ctx c)
      c.InboundTxParams.InboundTxObservedHash := by
    rw [inTxHashIndexes_SetCctx]
    by_cases hl : indexListed (inTxHashIndexes ctx c.InboundTxParams.InboundTxObservedHash)
        c.Index = true
    · simpa [hl] using (indexListed_iff _ _).mp hl
    · simp [hl]
  have hsecond : inTxHashIndexes
        (SetCctxAndNonceToCctxAndInTxHashToCctx
          (SetCctxAndNonceToCctxAndInTxHashToCctx ctx c) c)
        c.InboundTxParams.InboundTxObservedHash
      = inTxHashIndexes (SetCctxAndNonceToCctxAndInTxHashToCctx ctx c)
          c.InboundTxParams.InboundTxObservedHash := by
    rw [inTxHashIndexes_SetCctx (SetCctxAndNonceToCctxAndInTxHashToCctx ctx c) c]
    simp [(indexListed_iff _ _).mpr hmem]
  have hfirst : (inTxHashIndexes ctx c.InboundTxParams.InboundTxObservedHash).count c.Index ≤ 1 →
      (inTxHashIndexes (SetCctxAndNonceToCctxAndInTxHashToCctx ctx c)
        c.InboundTxParams.InboundTxObservedHash).count c.Index = 1 := by
    intro hcount
    rw [inTxHashIndexes_SetCctx]
    by_cases hl : indexListed (inTxHashIndexes ctx c.InboundTxParams.InboundTxObservedHash)
        c.Index = true
    · have hin := (indexListed_iff _ _).mp hl
      have hpos : 0 < (inTxHashIndexes ctx c.InboundTxParams.InboundTxObservedHash).count
          c.Index := List.count_pos_iff.mpr hin
      simp only [hl, if_true]
      omega
    · have hnin : c.Index ∉ inTxHashIndexes ctx c.InboundTxParams.InboundTxObservedHash :=
        fun hin => hl ((indexListed_iff _ _).mpr hin)
      simp [hl, List.count_eq_zero_of_not_mem hnin]
  refine ⟨GetCrossChainTx_SetCctx ctx c, ?_, ?_, ?_, GetCrossChainTx_SetCctx _ c, hsecond⟩
  · intro hcount
    exact ⟨hfirst hcount, by rw [hsecond]; exact hfirst hcount⟩
  · rw [inTxHashIndexes_SetCctx]
    split
    · exact List.prefix_refl _
    · exact List.prefix_append _ _
  · intro i hi
    rw [inTxHashIndexes_SetCctx]
    split
    · rfl
    · simp [List.count_append, hi]

/-- Witness of C6: the example CCTX written once and twice to the state without
crosschain records, and once more to a state in which another CCTX (`idx0`)
has the same inbound hash. -/
theorem SetCctx_read_back_and_index_once_witness :
    GetCrossChainTx
        (SetCctxAndNonceToCctxAndInTxHashToCctx exampleBase
          (exampleCctx CctxStatus.PendingOutbound)) "idx1"
      = some (exampleCctx CctxStatus.PendingOutbound)
    ∧ ((inTxHashIndexes
          (SetCctxAndNonceToCctxAndInTxHashToCctx exampleBase
            (exampleCctx CctxStatus.PendingOutbound)) "h1").count "idx1" = 1
      ∧ (inTxHashIndexes
          (SetCctxAndNonceToCctxAndInTxHashToCctx
            (SetCctxAndNonceToCctxAndInTxHashToCctx exampleBase
              (exampleCctx CctxStatus.PendingOutbound))
            (exampleCctx CctxStatus.PendingOutbound)) "h1").count "idx1" = 1)
    ∧ inTxHashIndexes
        (SetCctxAndNonceToCctxAndInTxHashToCctx
          { exampleBase with inTxHashToCctx := [{ InTxHash := "h1", CctxIndex := ["idx0"] }] }
          (exampleCctx CctxStatus.PendingOutbound)) "h1" = ["idx0", "idx1"] :=
  ⟨(SetCctx_read_back_and_index_once exampleBase (exampleCctx CctxStatus.PendingOutbound)).1,
   (SetCctx_read_back_and_index_once exampleBase (exampleCctx CctxStatus.PendingOutbound)).2.1
      (by decide),
   by decide⟩

/-- C7, as stated, fails: with no TSS stored, writing a CCTX in status
PendingOutbound leaves the nonce to CCTX index empty. -/
theorem SetCctx_without_tss_no_nonce_entry :
    (exampleCctx CctxStatus.PendingOutbound).CctxStatus.Status = CctxStatus.PendingOutbound
    ∧ ({ exampleBase with tss := none } : Ctx).nonceToCctx = []
    ∧ (SetCctxAndNonceToCctxAndInTxHashToCctx { exampleBase with tss := none }
        (exampleCctx CctxStatus.PendingOutbound)).nonceToCctx = []
    ∧ GetNonceToCctx
        (SetCctxAndNonceToCctxAndInTxHashToCctx { exampleBase with tss := none }
          (exampleCctx CctxStatus.PendingOutbound)) "tss" 5 7 = none := by
  refine ⟨rfl, rfl, by decide, by decide⟩

/-- C7, amended: when a TSS is stored, for a CCTX c in status PendingOutbound
or PendingRevert, after SetCctxAndNonceToCctxAndInTxHashToCctx(c) the nonce to
CCTX index holds, under the TSS pubkey, the ReceiverChainId of the current
outbound of c and its OutboundTxTssNonce (as int64), an entry whose CctxIndex
is c.Index; the int64 is the nonce itself below 2^63. -/
theorem SetCctx_nonce_index (ctx : Ctx) (c : CrossChainTx) (tss : TSS)
    (htss : ctx.tss = some tss)
    (hstatus : c.CctxStatus.Status = CctxStatus.PendingOutbound
      ∨ c.CctxStatus.Status = CctxStatus.PendingRevert) :
    GetNonceToCctx (SetCctxAndNonceToCctxAndInTxHashToCctx ctx c) tss.TssPubkey
        (GetCurrentOutTxParam c).ReceiverChainId
        (toInt64 (GetCurrentOutTxParam c).OutboundTxTssNonce)
      = some { ChainId := (GetCurrentOutTxParam c).ReceiverChainId,
               Nonce := toInt64 (GetCurrentOutTxParam c).OutboundTxTssNonce,
               CctxIndex := c.Index,
               Tss := tss.TssPubkey }
    ∧ ((GetCurrentOutTxParam c).OutboundTxTssNonce < 2 ^ 63 →
        toInt64 (GetCurrentOutTxParam c).OutboundTxTssNonce
          = ((GetCurrentOutTxParam c).OutboundTxTssNonce : Int)) := by
  constructor
  · have hna : c.CctxStatus.Status ≠ CctxStatus.Aborted := by
      rcases hstatus with h | h <;> simp [h]
    unfold SetCctxAndNonceToCctxAndInTxHashToCctx
    simp only [SetInTxHashToCctx, SetCrossChainTx, htss]
    simp [hstatus, hna, SetNonceToCctx, GetNonceToCctx]
  · intro hlt
    unfold toInt64
    have h1 : (GetCurrentOutTxParam c).OutboundTxTssNonce % 2 ^ 64
        = (GetCurrentOutTxParam c).OutboundTxTssNonce :=
      Nat.mod_eq_of_lt (by omega)
    rw [h1, if_pos hlt]

/-- Witness of the amended C7: the example CCTX pending outbound, written to
the state that holds the TSS key `tss`. -/
theorem SetCctx_nonce_index_witness :
    GetNonceToCctx
        (SetCctxAndNonceToCctxAndInTxHashToCctx exampleBase
          (exampleCctx CctxStatus.PendingOutbound)) "tss" 5 7
      = some { ChainId := 5, Nonce := 7, CctxIndex := "idx1", Tss := "tss" } :=
  (SetCctx_nonce_index exampleBase (exampleCctx CctxStatus.PendingOutbound)
    { TssPubkey := "tss" } rfl (Or.inl rfl)).1

/-! ## Genesis -/

/-- C8 fails on the code: the state `exampleAbortedCtx` (TSS stored, one
aborted ZETA CCTX of amount 100, AbortedZetaAmount 100) exports an aborted
amount of 100; InitGenesis of that export on the emptied module store sets the
amount and then adds the amount of the imported aborted CCTX again, so the
second export carries 200 and differs from the first in that field only. -/
theorem genesis_round_trip_doubles_aborted_amount :
    (ExportGenesis exampleAbortedCtx).ZetaAccounting = { AbortedZetaAmount := 100 }
    ∧ (ExportGenesis exampleAbortedCtx).CrossChainTxs = [some (exampleCctx CctxStatus.Aborted)]
    ∧ (ExportGenesis
        (InitGenesis (emptyStore exampleAbortedCtx) (ExportGenesis exampleAbortedCtx))).ZetaAccounting
      = { AbortedZetaAmount := 200 }
    ∧ ExportGenesis
        (InitGenesis (emptyStore exampleAbortedCtx) (ExportGenesis exampleAbortedCtx))
      ≠ ExportGenesis exampleAbortedCtx
    ∧ { ExportGenesis
          (InitGenesis (emptyStore exampleAbortedCtx) (ExportGenesis exampleAbortedCtx)) with
        ZetaAccounting := { AbortedZetaAmount := 100 } }
      = ExportGenesis exampleAbortedCtx := by
  refine ⟨by decide, by decide, by decide, by decide, by decide⟩

/-! ## Aborted accounting -/

/-- C9 fails on the code: the admin aborts the example ZETA CCTX (pending
outbound, aborted amount 100) with AbortStuckCCTX; the CCTX read back is
Aborted with coin type Zeta, and ZetaAccounting is what it was (not stored),
while writing the same aborted CCTX through
SetCctxAndNonceToCctxAndInTxHashToCctx accounts for the 100. -/
theorem AbortStuckCCTX_leaves_ZetaAccounting :
    (AbortStuckCCTX (exampleCtx CctxStatus.PendingOutbound)
        { Creator := "admin", CctxIndex := "idx1" }).2 = .ok ()
    ∧ GetCrossChainTx
        (AbortStuckCCTX (exampleCtx CctxStatus.PendingOutbound)
          { Creator := "admin", CctxIndex := "idx1" }).1 "idx1" = some exampleAbortedByAdmin
    ∧ exampleAbortedByAdmin.CctxStatus.Status = CctxStatus.Aborted
    ∧ (GetCurrentOutTxParam exampleAbortedByAdmin).CoinType = CoinType.Zeta
    ∧ GetAbortedAmount exampleAbortedByAdmin = 100
    ∧ GetZetaAccounting (exampleCtx CctxStatus.PendingOutbound) = none
    ∧ GetZetaAccounting
        (AbortStuckCCTX (exampleCtx CctxStatus.PendingOutbound)
          { Creator := "admin", CctxIndex := "idx1" }).1 = none
    ∧ GetZetaAccounting
        (SetCctxAndNonceToCctxAndInTxHashToCctx (exampleCtx CctxStatus.PendingOutbound)
          (exampleCctx CctxStatus.Aborted)) = some { AbortedZetaAmount := 100 } := by
  refine ⟨by decide, by decide, by decide, by decide, by decide, by decide, by decide,
    by decide⟩

/-! ## Digest of an inbound vote -/

/-- C10: two inbound votes that are equal in every field except Creator and
InBlockHeight have the same Digest. -/
theorem Digest_ignores_creator_and_height (lib : Lib) (m1 m2 : MsgVoteOnObservedInboundTx)
    (h : m1.Sender = m2.Sender ∧ m1.SenderChainId = m2.SenderChainId
      ∧ m1.TxOrigin = m2.TxOrigin ∧ m1.Receiver = m2.Receiver
      ∧ m1.ReceiverChain = m2.ReceiverChain ∧ m1.Amount = m2.Amount
      ∧ m1.Message = m2.Message ∧ m1.InTxHash = m2.InTxHash
      ∧ m1.GasLimit = m2.GasLimit ∧ m1.CoinType = m2.CoinType
      ∧ m1.Asset = m2.Asset ∧ m1.EventIndex = m2.EventIndex) :
    m1.Digest lib = m2.Digest lib := by
  obtain ⟨h1, h2, h3, h4, h5, h6, h7, h8, h9, h10, h11, h12⟩ := h
  unfold MsgVoteOnObservedInboundTx.Digest
  simp only [h1, h2, h3, h4, h5, h6, h7, h8, h9, h10, h11, h12]

/-- Witness of C10: the votes of two observers, seen at heights 1 and 2. -/
theorem Digest_ignores_creator_and_height_witness :
    (exampleVote "zeta1observer" 1).Creator ≠ (exampleVote "zeta1other" 2).Creator
    ∧ (exampleVote "zeta1observer" 1).InBlockHeight ≠ (exampleVote "zeta1other" 2).InBlockHeight
    ∧ (exampleVote "zeta1observer" 1).Digest exampleLib
      = (exampleVote "zeta1other" 2).Digest exampleLib :=
  ⟨by decide, by decide,
   Digest_ignores_creator_and_height exampleLib (exampleVote "zeta1observer" 1)
    (exampleVote "zeta1other" 2)
    ⟨rfl, rfl, rfl, rfl, rfl, rfl, rfl, rfl, rfl, rfl, rfl, rfl⟩⟩

/-- C11, as stated, fails: two votes that agree on the ten fields (and on
Creator, InBlockHeight and TxOrigin) and differ in GasLimit only, as the two
messages of the test "prevent double event submission" do, have different
digests as soon as the text form and the hash are injective; they have
different digests under the example library. -/
theorem Digest_depends_on_GasLimit :
    ((exampleVote "zeta1observer" 1).Sender = (exampleVoteGas 1000000001).Sender
      ∧ (exampleVote "zeta1observer" 1).SenderChainId = (exampleVoteGas 1000000001).SenderChainId
      ∧ (exampleVote "zeta1observer" 1).Receiver = (exampleVoteGas 1000000001).Receiver
      ∧ (exampleVote "zeta1observer" 1).ReceiverChain = (exampleVoteGas 1000000001).ReceiverChain
      ∧ (exampleVote "zeta1observer" 1).Amount = (exampleVoteGas 1000000001).Amount
      ∧ (exampleVote "zeta1observer" 1).Message = (exampleVoteGas 1000000001).Message
      ∧ (exampleVote "zeta1observer" 1).InTxHash = (exampleVoteGas 1000000001).InTxHash
      ∧ (exampleVote "zeta1observer" 1).CoinType = (exampleVoteGas 1000000001).CoinType
      ∧ (exampleVote "zeta1observer" 1).Asset = (exampleVoteGas 1000000001).Asset
      ∧ (exampleVote "zeta1observer" 1).EventIndex = (exampleVoteGas 1000000001).EventIndex)
    ∧ (∀ lib : Lib, Function.Injective lib.VoteString → Function.Injective lib.Keccak256Hex →
        (exampleVote "zeta1observer" 1).Digest lib ≠ (exampleVoteGas 1000000001).Digest lib)
    ∧ (exampleVote "zeta1observer" 1).Digest exampleLib
        ≠ (exampleVoteGas 1000000001).Digest exampleLib := by
  refine ⟨by decide, ?_, by decide⟩
  intro lib hs hk h
  have h1 := hs (hk h)
  exact absurd (congrArg MsgVoteOnObservedInboundTx.GasLimit h1) (by decide)

/-- C11, amended: the digest of an inbound vote is determined by the twelve
fields Sender, SenderChainId, TxOrigin, Receiver, ReceiverChain, Amount,
Message, InTxHash, GasLimit, CoinType, Asset and EventIndex: two votes that
agree on them have the same Digest whatever their Creator and InBlockHeight;
and, the text form and the hash being injective, two votes with the same
Digest agree on all twelve, TxOrigin and GasLimit included. -/
theorem Digest_determined_by_twelve_fields (lib : Lib) (m1 m2 : MsgVoteOnObservedInboundTx) :
    ((m1.Sender = m2.Sender ∧ m1.SenderChainId = m2.SenderChainId
        ∧ m1.TxOrigin = m2.TxOrigin ∧ m1.Receiver = m2.Receiver
        ∧ m1.ReceiverChain = m2.ReceiverChain ∧ m1.Amount = m2.Amount
        ∧ m1.Message = m2.Message ∧ m1.InTxHash = m2.InTxHash
        ∧ m1.GasLimit = m2.GasLimit ∧ m1.CoinType = m2.CoinType
        ∧ m1.Asset = m2.Asset ∧ m1.EventIndex = m2.EventIndex) →
      m1.Digest lib = m2.Digest lib)
    ∧ (Function.Injective lib.VoteString → Function.Injective lib.Keccak256Hex →
        m1.Digest lib = m2.Digest lib →
        m1.Sender = m2.Sender ∧ m1.SenderChainId = m2.SenderChainId
        ∧ m1.TxOrigin = m2.TxOrigin ∧ m1.Receiver = m2.Receiver
        ∧ m1.ReceiverChain = m2.ReceiverChain ∧ m1.Amount = m2.Amount
        ∧ m1.Message = m2.Message ∧ m1.InTxHash = m2.InTxHash
        ∧ m1.GasLimit = m2.GasLimit ∧ m1.CoinType = m2.CoinType
        ∧ m1.Asset = m2.Asset ∧ m1.EventIndex = m2.EventIndex) := by
  constructor
  · rintro ⟨h1, h2, h3, h4, h5, h6, h7, h8, h9, h10, h11, h12⟩
    unfold MsgVoteOnObservedInboundTx.Digest
    simp only [h1, h2, h3, h4, h5, h6, h7, h8, h9, h10, h11, h12]
  · intro hs hk h
    have h1 := hs (hk h)
    simp only [MsgVoteOnObservedInboundTx.mk.injEq] at h1
    obtain ⟨-, a2, a3, a4, a5, a6, a7, a8, a9, -, a11, a12, a13, a14⟩ := h1
    exact ⟨a2, a3, a4, a5, a6, a7, a8, a9, a11, a12, a13, a14⟩

/-- Witness of the amended C11: the votes of two observers at two heights. -/
theorem Digest_determined_by_twelve_fields_witness :
    (exampleVote "zeta1observer" 1).Digest exampleLib
      = (exampleVote "zeta1other" 2).Digest exampleLib :=
  (Digest_determined_by_twelve_fields exampleLib (exampleVote "zeta1observer" 1)
    (exampleVote "zeta1other" 2)).1
    ⟨rfl, rfl, rfl, rfl, rfl, rfl, rfl, rfl, rfl, rfl, rfl, rfl⟩

/-! ## ValidateBasic of an inbound vote -/

theorem utf8ByteSize_replicate_a (n : Nat) :
    (String.mk (List.replicate n 'a')).utf8ByteSize = n := by
  have h : ∀ k, String.utf8ByteSize.go (List.replicate k 'a') = k := by
    intro k
    induction k with
    | zero => rfl
    | succ k ih =>
      simp only [List.replicate_succ, String.utf8ByteSize.go, ih]
      rfl
  exact h n

/-- C12: ValidateBasic of an inbound vote returns an error if SenderChainId < 0,
if ReceiverChain < 0, or if the message is longer than 10240 bytes; for a
creator that is a valid bech32 address it returns nil exactly when
SenderChainId ≥ 0, ReceiverChain ≥ 0 and len(Message) ≤ 10240. -/
theorem ValidateBasic_spec (lib : Lib) (msg : MsgVoteOnObservedInboundTx) :
    (msg.SenderChainId < 0 → msg.ValidateBasic lib ≠ .ok ())
    ∧ (msg.ReceiverChain < 0 → msg.ValidateBasic lib ≠ .ok ())
    ∧ (msg.Message.utf8ByteSize > 10240 → msg.ValidateBasic lib ≠ .ok ())
    ∧ ((lib.AccAddressFromBech32 msg.Creator).isSome = true →
        (msg.ValidateBasic lib = .ok ()
          ↔ 0 ≤ msg.SenderChainId ∧ 0 ≤ msg.ReceiverChain
            ∧ msg.Message.utf8ByteSize ≤ 10240)) := by
  unfold MsgVoteOnObservedInboundTx.ValidateBasic MaxMessageLength
  cases hc : lib.AccAddressFromBech32 msg.Creator with
  | none => simp
  | some a =>
    by_cases h1 : msg.SenderChainId < 0
    · simp [h1]
    · by_cases h2 : msg.ReceiverChain < 0
      · simp [h1, h2]
      · by_cases h3 : msg.Message.utf8ByteSize > 10240
        · simp [h1, h2, h3]
        · simp [h1, h2, h3]
          omega

/-- Witness of C12: a message of exactly 10240 bytes is accepted, one of 10241
bytes is not. -/
theorem ValidateBasic_spec_witness :
    (exampleVoteMessage 10240).Message.utf8ByteSize = 10240
    ∧ (exampleVoteMessage 10240).ValidateBasic exampleLib = .ok ()
    ∧ (exampleVoteMessage 10241).ValidateBasic exampleLib ≠ .ok () :=
  ⟨utf8ByteSize_replicate_a 10240,
   ((ValidateBasic_spec exampleLib (exampleVoteMessage 10240)).2.2.2 (by decide)).mpr
     ⟨by decide, by decide, le_of_eq (utf8ByteSize_replicate_a 10240)⟩,
   (ValidateBasic_spec exampleLib (exampleVoteMessage 10241)).2.2.1
     (by
       have h : (exampleVoteMessage 10241).Message.utf8ByteSize = 10241 :=
         utf8ByteSize_replicate_a 10241
       omega)⟩

/-! ## AddBlockHeader -/

theorem GetBlockHeader_SetBlockHeader (ctx : Ctx) (bh : BlockHeader) :
    GetBlockHeader (SetBlockHeader ctx bh) bh.Hash = some bh := by
  simp [GetBlockHeader, SetBlockHeader]

theorem GetBlockHeaderState_SetBlockHeaderState (ctx : Ctx) (bhs : BlockHeaderState) :
    GetBlockHeaderState (SetBlockHeaderState ctx bhs) bhs.ChainId = some bhs := by
  simp [GetBlockHeaderState, SetBlockHeaderState]

theorem GetBlockHeaderState_chain (ctx : Ctx) (chainID : Int) (bhs : BlockHeaderState)
    (h : GetBlockHeaderState ctx chainID = some bhs) : bhs.ChainId = chainID := by
  unfold GetBlockHeaderState at h
  have := List.find?_some h
  simpa using this

theorem nextBlockHeaderState_chain (ctx : Ctx) (msg : MsgAddBlockHeader) :
    (nextBlockHeaderState ctx msg).ChainId = msg.ChainId := by
  unfold nextBlockHeaderState
  cases h : GetBlockHeaderState ctx msg.ChainId with
  | none => rfl
  | some bhs =>
    have hc := GetBlockHeaderState_chain ctx msg.ChainId bhs h
    simp only
    split <;> split <;> simp_all

theorem AddBlockHeader_error_unchanged (lib : Lib) (ctx : Ctx) (msg : MsgAddBlockHeader)
    (e : ObserverErr) (h : (AddBlockHeader lib ctx msg).2 = .error e) :
    (AddBlockHeader lib ctx msg).1 = ctx := by
  unfold AddBlockHeader at h ⊢
  repeat' split
  all_goals first | rfl | simp_all

theorem wrapInt64_succ_pos (l h : Int) (hl : -(2 : Int) ^ 63 ≤ l ∧ l < 2 ^ 63)
    (hpos : 0 < h) (heq : h = wrapInt64 (l + 1)) : h = l + 1 := by
  unfold wrapInt64 at heq
  norm_num at hl heq
  omega

theorem checkParentHeader_not_above_earliest (lib : Lib) (ctx : Ctx) (msg : MsgAddBlockHeader)
    (bhs : BlockHeaderState) (hbhs : GetBlockHeaderState ctx msg.ChainId = some bhs)
    (hheight : msg.Height ≤ bhs.EarliestHeight) :
    checkParentHeader lib ctx msg = .ok () := by
  unfold checkParentHeader
  simp only [hbhs]
  rw [if_neg (by omega)]

/-- C13 does not hold of the code: on `exampleHeaderCtx` the BlockHeaderState of
chain 5 exists with EarliestHeight 2 > 0 and LatestHeight 2; a header of height
1 whose parent is not stored is accepted (the vote finalizes and the header is
stored), although its parent is missing and 1 is not LatestHeight + 1, whereas
the property, like the comment above the check, has such a call fail with
NoParentHash. -/
theorem AddBlockHeader_accepts_below_earliest :
    GetBlockHeaderState exampleHeaderCtx 5
      = some { ChainId := 5, LatestHeight := 2, EarliestHeight := 2, LatestBlockHash := [2] }
    ∧ exampleLib.HeaderParentHash (exampleHeaderMsg 1 [9]).Header = some []
    ∧ GetBlockHeader exampleHeaderCtx [] = none
    ∧ (exampleHeaderMsg 1 [9]).Height ≠ 2 + 1
    ∧ (AddBlockHeader exampleLib exampleHeaderCtx (exampleHeaderMsg 1 [9])).2 = .ok ()
    ∧ GetBlockHeader (AddBlockHeader exampleLib exampleHeaderCtx (exampleHeaderMsg 1 [9])).1 [9]
      = some { Header := [9], Height := 1, Hash := [9], ParentHash := [], ChainId := 5 } := by
  refine ⟨by decide, by decide, by decide, by decide, by decide, by decide⟩

/-- The parent check where the code runs it: on a chain whose BlockHeaderState
exists with EarliestHeight > 0 and EarliestHeight < msg.Height, AddBlockHeader is accepted
only if the parent header of the message is stored and msg.Height is
LatestHeight + 1 (in int64 arithmetic; the sum itself for a LatestHeight in
range); when the checks before it pass (supported chain, observer, flags on,
hash not stored) and the parent hash cannot be read, the parent is not stored
or the height is another one, it fails with NoParentHash; a failing call
stores nothing. -/
theorem AddBlockHeader_parent_check (lib : Lib) (ctx : Ctx) (msg : MsgAddBlockHeader)
    (bhs : BlockHeaderState)
    (hbhs : GetBlockHeaderState ctx msg.ChainId = some bhs)
    (hearliest : 0 < bhs.EarliestHeight)
    (hheight : bhs.EarliestHeight < msg.Height) :
    ((AddBlockHeader lib ctx msg).2 = .ok () →
      (∃ pHash, lib.HeaderParentHash msg.Header = some pHash
        ∧ (GetBlockHeader ctx pHash).isSome = true)
      ∧ msg.Height = wrapInt64 (bhs.LatestHeight + 1)
      ∧ (-(2 : Int) ^ 63 ≤ bhs.LatestHeight ∧ bhs.LatestHeight < 2 ^ 63 →
          msg.Height = bhs.LatestHeight + 1))
    ∧ (∀ chain crosschainFlags flags,
        GetSupportedChainFromChainID ctx msg.ChainId = some chain →
        ctx.observerIsAuthorized msg.Creator = true →
        ctx.crosschainFlags = some crosschainFlags →
        crosschainFlags.BlockHeaderVerificationFlags = some flags →
        (lib.IsBitcoinChain msg.ChainId && !flags.IsBtcTypeChainEnabled) = false →
        (lib.IsEVMChain msg.ChainId && !flags.IsEthTypeChainEnabled) = false →
        GetBlockHeader ctx msg.BlockHash = none →
        (lib.HeaderParentHash msg.Header = none
          ∨ (∃ pHash, lib.HeaderParentHash msg.Header = some pHash
              ∧ GetBlockHeader ctx pHash = none)
          ∨ msg.Height ≠ wrapInt64 (bhs.LatestHeight + 1)) →
        AddBlockHeader lib ctx msg = (ctx, .error ObserverErr.NoParentHash))
    ∧ (∀ e, (AddBlockHeader lib ctx msg).2 = .error e → (AddBlockHeader lib ctx msg).1 = ctx) := by
  have hguard : (bhs.EarliestHeight > 0 ∧ bhs.EarliestHeight < msg.Height) := ⟨hearliest, hheight⟩
  refine ⟨?_, ?_, fun e h => AddBlockHeader_error_unchanged lib ctx msg e h⟩
  · intro hok
    have hcp : checkParentHeader lib ctx msg = .ok () := by
      unfold AddBlockHeader at hok
      repeat' split at hok
      all_goals first | (simp at hok; done) | assumption
    unfold checkParentHeader at hcp
    simp only [hbhs, hguard, and_self, if_true] at hcp
    cases hp : lib.HeaderParentHash msg.Header with
    | none => simp [hp] at hcp
    | some pHash =>
      cases hg : GetBlockHeader ctx pHash with
      | none => simp [hp, hg] at hcp
      | some bh =>
        simp only [hp, hg] at hcp
        by_cases hh : msg.Height = wrapInt64 (bhs.LatestHeight + 1)
        · refine ⟨⟨pHash, rfl, by simp [hg]⟩, hh, ?_⟩
          intro hrange
          exact wrapInt64_succ_pos bhs.LatestHeight msg.Height hrange
            (lt_trans hearliest hheight) hh
        · simp [hh] at hcp
  · intro chain crosschainFlags flags hchain hauth hflags hv hbtc hevm hnew hbad
    have hcp : checkParentHeader lib ctx msg = .error ObserverErr.NoParentHash := by
      unfold checkParentHeader
      simp only [hbhs, hguard, and_self, if_true]
      rcases hbad with h | ⟨pHash, h1, h2⟩ | h
      · simp [h]
      · simp [h1, h2]
      · cases hp : lib.HeaderParentHash msg.Header with
        | none => rfl
        | some pHash =>
          cases hg : GetBlockHeader ctx pHash with
          | none => simp [hg]
          | some bh => simp [hg, h]
    unfold AddBlockHeader
    simp [hchain, hauth, hflags, hv, hbtc, hevm, hnew, hcp]

/-- The parent check on `exampleHeaderCtx` (earliest and latest
height 2, header `[2]` stored): the header of height 3 with parent `[2]` is
accepted, the one of height 3 with the missing parent `[7]` fails with
NoParentHash and stores nothing. -/
theorem AddBlockHeader_parent_check_witness :
    ((AddBlockHeader exampleLib exampleHeaderCtx (exampleHeaderMsg 3 [3, 2])).2 = .ok ()
      ∧ (∃ pHash, exampleLib.HeaderParentHash (exampleHeaderMsg 3 [3, 2]).Header = some pHash
          ∧ (GetBlockHeader exampleHeaderCtx pHash).isSome = true)
      ∧ (exampleHeaderMsg 3 [3, 2]).Height = 2 + 1)
    ∧ AddBlockHeader exampleLib exampleHeaderCtx (exampleHeaderMsg 3 [3, 7])
        = (exampleHeaderCtx, .error ObserverErr.NoParentHash) :=
  ⟨⟨by decide,
    ((AddBlockHeader_parent_check exampleLib exampleHeaderCtx (exampleHeaderMsg 3 [3, 2])
      { ChainId := 5, LatestHeight := 2, EarliestHeight := 2, LatestBlockHash := [2] }
      (by decide) (by decide) (by decide)).1 (by decide)).1,
    ((AddBlockHeader_parent_check exampleLib exampleHeaderCtx (exampleHeaderMsg 3 [3, 2])
      { ChainId := 5, LatestHeight := 2, EarliestHeight := 2, LatestBlockHash := [2] }
      (by decide) (by decide) (by decide)).1 (by decide)).2.2 (by decide)⟩,
   (AddBlockHeader_parent_check exampleLib exampleHeaderCtx (exampleHeaderMsg 3 [3, 7])
      { ChainId := 5, LatestHeight := 2, EarliestHeight := 2, LatestBlockHash := [2] }
      (by decide) (by decide) (by decide)).2.1
      { ChainId := 5 }
      { IsInboundEnabled := true, IsOutboundEnabled := true, GasPriceIncreaseFlags := none,
        BlockHeaderVerificationFlags :=
          some { IsEthTypeChainEnabled := true, IsBtcTypeChainEnabled := false } }
      { IsEthTypeChainEnabled := true, IsBtcTypeChainEnabled := false }
      (by decide) (by decide) (by decide) rfl (by decide) (by decide) (by decide)
      (Or.inr (Or.inl ⟨[7], by decide, by decide⟩))⟩

/-- C14: AddBlockHeader rejects, in this order of precedence and leaving the
state (header store and BlockHeaderState included) as it was: a chain id that
is not supported (ErrSupportedChains); a creator that is not an authorized
observer, whatever the flags are (ErrNotAuthorizedPolicy); a bitcoin or EVM
chain whose header-verification flag is off
(ErrBlockHeaderVerificationDisabled); a block hash under which a header is
already stored (ErrBlockAlreadyExist). -/
theorem AddBlockHeader_rejections (lib : Lib) (ctx : Ctx) (msg : MsgAddBlockHeader) :
    (GetSupportedChainFromChainID ctx msg.ChainId = none →
      AddBlockHeader lib ctx msg = (ctx, .error ObserverErr.SupportedChains))
    ∧ (∀ chain, GetSupportedChainFromChainID ctx msg.ChainId = some chain →
        ctx.observerIsAuthorized msg.Creator = false →
        AddBlockHeader lib ctx msg = (ctx, .error ObserverErr.NotAuthorizedPolicy))
    ∧ (∀ chain crosschainFlags flags,
        GetSupportedChainFromChainID ctx msg.ChainId = some chain →
        ctx.observerIsAuthorized msg.Creator = true →
        ctx.crosschainFlags = some crosschainFlags →
        crosschainFlags.BlockHeaderVerificationFlags = some flags →
        ((lib.IsBitcoinChain msg.ChainId = true ∧ flags.IsBtcTypeChainEnabled = false)
          ∨ (lib.IsEVMChain msg.ChainId = true ∧ flags.IsEthTypeChainEnabled = false)) →
        AddBlockHeader lib ctx msg = (ctx, .error ObserverErr.BlockHeaderVerificationDisabled))
    ∧ (∀ chain crosschainFlags flags bh,
        GetSupportedChainFromChainID ctx msg.ChainId = some chain →
        ctx.observerIsAuthorized msg.Creator = true →
        ctx.crosschainFlags = some crosschainFlags →
        crosschainFlags.BlockHeaderVerificationFlags = some flags →
        ¬ (lib.IsBitcoinChain msg.ChainId = true ∧ flags.IsBtcTypeChainEnabled = false) →
        ¬ (lib.IsEVMChain msg.ChainId = true ∧ flags.IsEthTypeChainEnabled = false) →
        GetBlockHeader ctx msg.BlockHash = some bh →
        AddBlockHeader lib ctx msg = (ctx, .error ObserverErr.BlockAlreadyExist)) := by
  refine ⟨?_, ?_, ?_, ?_⟩
  · intro h
    unfold AddBlockHeader
    simp [h]
  · intro chain h ha
    unfold AddBlockHeader
    simp [h, ha]
  · intro chain crosschainFlags flags h ha hf hv hoff
    unfold AddBlockHeader
    simp only [h, ha, hf, hv]
    rcases hoff with ⟨h1, h2⟩ | ⟨h1, h2⟩
    · simp [h1, h2]
    · simp [h1, h2]
  · intro chain crosschainFlags flags bh h ha hf hv hbtc hevm hbh
    unfold AddBlockHeader
    simp only [h, ha, hf, hv, hbh]
    have h1 : (lib.IsBitcoinChain msg.ChainId && !flags.IsBtcTypeChainEnabled) = false := by
      cases hb : lib.IsBitcoinChain msg.ChainId <;> cases hc : flags.IsBtcTypeChainEnabled <;>
        simp_all
    have h2 : (lib.IsEVMChain msg.ChainId && !flags.IsEthTypeChainEnabled) = false := by
      cases hb : lib.IsEVMChain msg.ChainId <;> cases hc : flags.IsEthTypeChainEnabled <;>
        simp_all
    simp [h1, h2]

/-- Witness of C14: an unsupported chain; a creator that is no observer, with
the EVM flag off; the header `[2]` that `exampleHeaderCtx` already holds. -/
theorem AddBlockHeader_rejections_witness :
    AddBlockHeader exampleLib exampleHeaderCtx { exampleHeaderMsg 3 [3, 2] with ChainId := 9999 }
      = (exampleHeaderCtx, .error ObserverErr.SupportedChains)
    ∧ AddBlockHeader exampleLib { exampleHeaderCtx with crosschainFlags := none }
        { exampleHeaderMsg 3 [3, 2] with Creator := "mallory" }
      = ({ exampleHeaderCtx with crosschainFlags := none },
          .error ObserverErr.NotAuthorizedPolicy)
    ∧ AddBlockHeader exampleLib exampleHeaderCtx (exampleHeaderMsg 2 [2])
      = (exampleHeaderCtx, .error ObserverErr.BlockAlreadyExist) :=
  ⟨(AddBlockHeader_rejections exampleLib exampleHeaderCtx
      { exampleHeaderMsg 3 [3, 2] with ChainId := 9999 }).1 (by decide),
   (AddBlockHeader_rejections exampleLib { exampleHeaderCtx with crosschainFlags := none }
      { exampleHeaderMsg 3 [3, 2] with Creator := "mallory" }).2.1 { ChainId := 5 }
      (by decide) (by decide),
   (AddBlockHeader_rejections exampleLib exampleHeaderCtx (exampleHeaderMsg 2 [2])).2.2.2
      { ChainId := 5 }
      { IsInboundEnabled := true, IsOutboundEnabled := true, GasPriceIncreaseFlags := none,
        BlockHeaderVerificationFlags :=
          some { IsEthTypeChainEnabled := true, IsBtcTypeChainEnabled := false } }
      { IsEthTypeChainEnabled := true, IsBtcTypeChainEnabled := false }
      { Header := [2], Height := 2, Hash := [2], ParentHash := [], ChainId := 5 }
      (by decide) (by decide) (by decide) rfl (by decide) (by decide) (by decide)⟩

theorem AddBlockHeader_finalized_run (lib : Lib) (ctx : Ctx) (msg : MsgAddBlockHeader)
    (hok : (AddBlockHeader lib ctx msg).2 = .ok ())
    (hfin : ctx.ballotVote (lib.AddBlockHeaderDigest msg) msg.Creator = BallotOutcome.voted true) :
    ∃ pHash, (AddBlockHeader lib ctx msg).1
      = SetBlockHeader (SetBlockHeaderState ctx (nextBlockHeaderState ctx msg))
          { Header := msg.Header, Height := msg.Height, Hash := msg.BlockHash,
            ParentHash := pHash, ChainId := msg.ChainId } := by
  cases hp : lib.HeaderParentHash msg.Header with
  | none =>
    exfalso
    unfold AddBlockHeader at hok
    repeat' split at hok
    all_goals simp_all
  | some pHash =>
    refine ⟨pHash, ?_⟩
    unfold AddBlockHeader at hok ⊢
    repeat' split at hok
    all_goals simp_all
    all_goals repeat' split
    all_goals simp_all

/-- C15, as stated, fails: on `exampleHeaderCtx` (LatestHeight 2) the header of
height 1 is accepted and its vote finalizes the ballot; afterwards the
BlockHeaderState of chain 5 still has LatestHeight 2, not the height 1 of the
message. -/
theorem AddBlockHeader_latest_height_kept :
    (AddBlockHeader exampleLib exampleHeaderCtx (exampleHeaderMsg 1 [9])).2 = .ok ()
    ∧ exampleHeaderCtx.ballotVote (exampleLib.AddBlockHeaderDigest (exampleHeaderMsg 1 [9]))
        (exampleHeaderMsg 1 [9]).Creator = BallotOutcome.voted true
    ∧ GetBlockHeaderState
        (AddBlockHeader exampleLib exampleHeaderCtx (exampleHeaderMsg 1 [9])).1 5
      = some { ChainId := 5, LatestHeight := 2, EarliestHeight := 2, LatestBlockHash := [2] }
    ∧ (2 : Int) ≠ (exampleHeaderMsg 1 [9]).Height := by
  refine ⟨by decide, by decide, by decide, by decide⟩

/-- C15, amended: after an AddBlockHeader call that returns without error and
whose vote finalizes the ballot, the BlockHeaderState of msg.ChainId exists and
its LatestHeight is the larger of msg.Height and the LatestHeight stored before
(msg.Height when no state was stored or msg.Height is above the stored latest
height; the stored one otherwise), and the header is stored under
msg.BlockHash with height msg.Height. -/
theorem AddBlockHeader_finalized_state (lib : Lib) (ctx : Ctx) (msg : MsgAddBlockHeader)
    (hok : (AddBlockHeader lib ctx msg).2 = .ok ())
    (hfin : ctx.ballotVote (lib.AddBlockHeaderDigest msg) msg.Creator = BallotOutcome.voted true) :
    (∃ bhs1, GetBlockHeaderState (AddBlockHeader lib ctx msg).1 msg.ChainId = some bhs1
      ∧ (GetBlockHeaderState ctx msg.ChainId = none → bhs1.LatestHeight = msg.Height)
      ∧ (∀ bhs, GetBlockHeaderState ctx msg.ChainId = some bhs →
          bhs1.LatestHeight = max bhs.LatestHeight msg.Height))
    ∧ ∃ bh, GetBlockHeader (AddBlockHeader lib ctx msg).1 msg.BlockHash = some bh
        ∧ bh.Height = msg.Height ∧ bh.Header = msg.Header ∧ bh.ChainId = msg.ChainId := by
  obtain ⟨pHash, hrun⟩ := AddBlockHeader_finalized_run lib ctx msg hok hfin
  rw [hrun]
  constructor
  · refine ⟨nextBlockHeaderState ctx msg, ?_, ?_, ?_⟩
    · have h := GetBlockHeaderState_SetBlockHeaderState ctx (nextBlockHeaderState ctx msg)
      rw [nextBlockHeaderState_chain] at h
      simpa [GetBlockHeaderState, SetBlockHeader] using h
    · intro hnone
      simp [nextBlockHeaderState, hnone]
    · intro bhs hsome
      unfold nextBlockHeaderState
      simp only [hsome]
      by_cases hgt : msg.Height > bhs.LatestHeight
      · simp only [hgt, if_true]
        split <;> simp <;> omega
      · simp only [hgt, if_false]
        split <;> simp <;> omega
  · exact ⟨_, GetBlockHeader_SetBlockHeader _
      { Header := msg.Header, Height := msg.Height, Hash := msg.BlockHash,
        ParentHash := pHash, ChainId := msg.ChainId }, rfl, rfl, rfl⟩

/-- Witness of the amended C15: the first header of chain 5, voted in on
`exampleBase`, and the header of height 3 voted in on `exampleHeaderCtx`. -/
theorem AddBlockHeader_finalized_state_witness :
    GetBlockHeaderState (AddBlockHeader exampleLib exampleBase (exampleHeaderMsg 2 [2])).1 5
      = some { ChainId := 5, LatestHeight := 2, EarliestHeight := 2, LatestBlockHash := [2] }
    ∧ ∃ bh, GetBlockHeader
          (AddBlockHeader exampleLib exampleHeaderCtx (exampleHeaderMsg 3 [3, 2])).1 [3, 2]
        = some bh ∧ bh.Height = 3 ∧ bh.Header = [3, 2] ∧ bh.ChainId = 5 :=
  ⟨by decide,
   (AddBlockHeader_finalized_state exampleLib exampleHeaderCtx (exampleHeaderMsg 3 [3, 2])
      (by decide) (by decide)).2⟩

/-! ## Lemmas on the EVM client -/

theorem mapGet_mapDelete_self {K V : Type} [DecidableEq K] (m : List (K × V)) (k : K) :
    mapGet (mapDelete m k) k = none := by
  induction m with
  | nil => rfl
  | cons e rest ih =>
    unfold mapDelete at ih ⊢
    by_cases h : e.1 = k
    · simp [List.filter_cons, h, ih]
    · simp [List.filter_cons, h, mapGet, ih]

theorem mapGet_mapSet_self {K V : Type} [DecidableEq K] (m : List (K × V)) (k : K) (v : V) :
    mapGet (mapSet m k v) k = some v := by
  simp [mapSet, mapGet]

theorem GetBlockByNumberCached_lastBlockScanned (w : EvmWorld) (ob : ChainClient) (bn : Nat) :
    (GetBlockByNumberCached w ob bn).1.lastBlockScanned = ob.lastBlockScanned := by
  unfold GetBlockByNumberCached
  repeat' split
  all_goals rfl

theorem GetBlockHeaderCached_lastBlockScanned (w : EvmWorld) (ob : ChainClient) (bn : Nat) :
    (GetBlockHeaderCached w ob bn).1.lastBlockScanned = ob.lastBlockScanned := by
  unfold GetBlockHeaderCached
  repeat' split
  all_goals rfl

theorem postBlockHeader_lastBlockScanned (w : EvmWorld) (ob : ChainClient) (tip : Nat) :
    (postBlockHeader w ob tip).1.lastBlockScanned = ob.lastBlockScanned := by
  unfold postBlockHeader
  simp only
  split
  · rfl
  · split
    · rename_i h
      have := GetBlockHeaderCached_lastBlockScanned w ob
        (match w.GetBlockHeaderStateByChain with
          | some bhs =>
            if bhs.EarliestHeight > 0 then addU64 (bhs.LatestHeight % 2 ^ 64).toNat 1 else tip
          | none => tip)
      rw [h] at this
      exact this
    · rename_i h
      have := GetBlockHeaderCached_lastBlockScanned w ob
        (match w.GetBlockHeaderStateByChain with
          | some bhs =>
            if bhs.EarliestHeight > 0 then addU64 (bhs.LatestHeight % 2 ^ 64).toNat 1 else tip
          | none => tip)
      rw [h] at this
      split
      · exact this
      · exact this

theorem observeZetaSentEvents_lastBlockScanned (w : EvmWorld) (events : List ContractEvent) :
    ∀ (ob : ChainClient) (beingScanned : Nat) (guard : List String),
      (observeZetaSentEvents w ob events beingScanned guard).1.lastBlockScanned
        = ob.lastBlockScanned := by
  induction events with
  | nil => intro ob b g; rfl
  | cons e rest ih =>
    intro ob b g
    unfold observeZetaSentEvents
    simp only
    split
    · exact ih _ _ _
    · split
      · exact ih _ _ _
      · split
        · rw [ih]
        · rfl

theorem observeZetaSent_lastBlockScanned (w : EvmWorld) (ob : ChainClient) (a b : Nat) :
    (observeZetaSent w ob a b).1.lastBlockScanned = ob.lastBlockScanned := by
  unfold observeZetaSent
  simp only
  split
  · rfl
  · split
    · rfl
    · split
      · rename_i h
        have h1 := congrArg (fun r : ChainClient × Option Nat => r.1.lastBlockScanned) h
        simp only [observeZetaSentEvents_lastBlockScanned] at h1
        exact h1.symm
      · rename_i h
        have h1 := congrArg (fun r : ChainClient × Option Nat => r.1.lastBlockScanned) h
        simp only [observeZetaSentEvents_lastBlockScanned] at h1
        exact h1.symm

theorem observeERC20DepositedEvents_lastBlockScanned (w : EvmWorld)
    (events : List ContractEvent) :
    ∀ (ob : ChainClient) (beingScanned : Nat) (guard : List String),
      (observeERC20DepositedEvents w ob events beingScanned guard).1.lastBlockScanned
        = ob.lastBlockScanned := by
  induction events with
  | nil => intro ob b g; rfl
  | cons e rest ih =>
    intro ob b g
    unfold observeERC20DepositedEvents
    simp only
    split
    · rfl
    · split
      · exact ih _ _ _
      · split
        · exact ih _ _ _
        · split
          · rw [ih]
          · rfl

theorem observeERC20Deposited_lastBlockScanned (w : EvmWorld) (ob : ChainClient) (a b : Nat) :
    (observeERC20Deposited w ob a b).1.lastBlockScanned = ob.lastBlockScanned := by
  unfold observeERC20Deposited
  simp only
  split
  · rfl
  · split
    · rfl
    · split
      · rename_i h
        have h1 := congrArg (fun r : ChainClient × Option Nat => r.1.lastBlockScanned) h
        simp only [observeERC20DepositedEvents_lastBlockScanned] at h1
        exact h1.symm
      · rename_i h
        have h1 := congrArg (fun r : ChainClient × Option Nat => r.1.lastBlockScanned) h
        simp only [observeERC20DepositedEvents_lastBlockScanned] at h1
        exact h1.symm

theorem observerTSSReceiveTxs_lastBlockScanned (w : EvmWorld) (txs : List RpcTransaction) :
    ∀ ob : ChainClient,
      (observerTSSReceiveTxs w ob txs).1.lastBlockScanned = ob.lastBlockScanned := by
  induction txs with
  | nil => intro ob; rfl
  | cons tx rest ih =>
    intro ob
    unfold observerTSSReceiveTxs
    split
    · split
      · rfl
      · simp only
        split
        · rw [ih]
        · rfl
    · exact ih _

theorem observerTSSReceiveBlocks_lastBlockScanned (w : EvmWorld) (flags : CrosschainFlags)
    (toBlock : Nat) (bns : List Nat) :
    ∀ ob : ChainClient,
      (observerTSSReceiveBlocks w flags toBlock ob bns).1.lastBlockScanned
        = ob.lastBlockScanned := by
  induction bns with
  | nil => intro ob; rfl
  | cons bn rest ih =>
    intro ob
    unfold observerTSSReceiveBlocks
    simp only
    have hpost : (if (match flags.BlockHeaderVerificationFlags with
          | some f => f.IsEthTypeChainEnabled && w.headerSupportedEvmChain
          | none => false) = true then (postBlockHeader w ob toBlock).1 else ob).lastBlockScanned
        = ob.lastBlockScanned := by
      split
      · exact postBlockHeader_lastBlockScanned w ob toBlock
      · rfl
    split
    · rename_i h
      have h1 := congrArg (fun r : ChainClient × Option RpcBlock => r.1.lastBlockScanned) h
      simp only [GetBlockByNumberCached_lastBlockScanned] at h1
      rw [← h1, hpost]
    · rename_i h
      have h1 := congrArg (fun r : ChainClient × Option RpcBlock => r.1.lastBlockScanned) h
      simp only [GetBlockByNumberCached_lastBlockScanned] at h1
      split
      · rename_i h2
        have h3 := congrArg (fun r : ChainClient × Bool => r.1.lastBlockScanned) h2
        simp only [observerTSSReceiveTxs_lastBlockScanned] at h3
        rw [← h3, ← h1, hpost]
      · rename_i h2
        have h3 := congrArg (fun r : ChainClient × Bool => r.1.lastBlockScanned) h2
        simp only [observerTSSReceiveTxs_lastBlockScanned] at h3
        rw [ih, ← h3, ← h1, hpost]

theorem observerTSSReceive_lastBlockScanned (w : EvmWorld) (ob : ChainClient) (a b : Nat)
    (flags : CrosschainFlags) :
    (observerTSSReceive w ob a b flags).1.lastBlockScanned = ob.lastBlockScanned := by
  unfold observerTSSReceive
  simp only
  split
  · rfl
  · split
    · rename_i h
      have h1 := congrArg (fun r : ChainClient × Option Nat => r.1.lastBlockScanned) h
      simp only [observerTSSReceiveBlocks_lastBlockScanned] at h1
      exact h1.symm
    · rename_i h
      have h1 := congrArg (fun r : ChainClient × Option Nat => r.1.lastBlockScanned) h
      simp only [observerTSSReceiveBlocks_lastBlockScanned] at h1
      exact h1.symm

theorem lastScannedLowest_eq_min (z d t : Nat) :
    (if t < (if d < z then d else z) then t else (if d < z then d else z))
      = min z (min d t) := by
  split_ifs <;> omega

theorem tssRecvdRun_lastBlockScanned (w : EvmWorld) (ob : ChainClient) (bn : Nat)
    (flags : CrosschainFlags) :
    (tssRecvdRun w ob bn flags).1.lastBlockScanned = ob.lastBlockScanned := by
  unfold tssRecvdRun depositedRun zetaSentRun
  rw [observerTSSReceive_lastBlockScanned, observeERC20Deposited_lastBlockScanned,
    observeZetaSent_lastBlockScanned]

theorem observeInTX_last_step (w : EvmWorld) (obT : ChainClient) (old z d t : Nat)
    (hfr : obT.lastBlockScanned = old) :
    (if (if t < (if d < z then d else z) then t else (if d < z then d else z)) > old then
        (if w.dbSave (if t < (if d < z then d else z) then t else (if d < z then d else z)) = true
          then
          (({ SetLastBlockHeightScanned obT
                (if t < (if d < z then d else z) then t else (if d < z then d else z)) with
              dbLastBlock :=
                some (if t < (if d < z then d else z) then t else (if d < z then d else z)) },
            Except.ok ()) : ChainClient × Except InTxErr Unit)
          else
            (SetLastBlockHeightScanned obT
              (if t < (if d < z then d else z) then t else (if d < z then d else z)),
             Except.ok ()))
      else (obT, Except.ok ())).1.lastBlockScanned = max old (min z (min d t)) := by
  rw [lastScannedLowest_eq_min]
  split
  · split
    · simp only [SetLastBlockHeightScanned]; omega
    · simp only [SetLastBlockHeightScanned]; omega
  · simp only [hfr]; omega

theorem observeInTX_reached (w : EvmWorld) (ob : ChainClient) (flags : CrosschainFlags)
    (bn : Nat) (h : reachesScan w ob flags bn) :
    (observeInTX w ob).1.lastBlockScanned
      = max ob.lastBlockScanned
          (min (zetaSentRun w ob bn).2
            (min (depositedRun w ob bn).2 (tssRecvdRun w ob bn flags).2)) := by
  obtain ⟨hf, hen, hbn, hle, hmax, hcc, hls⟩ := h
  have hlb : ¬ ob.lastBlock ≥ MaxInt64 := by omega
  have hnb : ¬ bn ≥ MaxInt64 := by omega
  have hnlt : ¬ bn < ob.lastBlock := by omega
  have hncc : ¬ bn < w.chainParams.ConfirmationCount := by omega
  have hnls : ¬ ob.lastBlockScanned ≥ bn - w.chainParams.ConfirmationCount := by omega
  have hfr := tssRecvdRun_lastBlockScanned w ob bn flags
  unfold observeInTX
  simp only [hf, hen, hbn, ChainClient.GetLastBlockHeight, ChainClient.SetLastBlockHeight,
    hlb, hnb, hnlt, hncc, if_false, GetLastBlockHeightScanned, hnls, Bool.not_true,
    Bool.false_eq_true]
  exact observeInTX_last_step w (tssRecvdRun w ob bn flags).1 ob.lastBlockScanned
    (zetaSentRun w ob bn).2 (depositedRun w ob bn).2 (tssRecvdRun w ob bn flags).2 hfr

theorem observeInTX_not_reached (w : EvmWorld) (ob : ChainClient) :
    (∃ flags bn, reachesScan w ob flags bn)
      ∨ (observeInTX w ob).1 = ob
      ∨ ∃ bn, w.BlockNumber = some bn ∧ (observeInTX w ob).1 = { ob with lastBlock := bn } := by
  cases hf : w.GetCrosschainFlags with
  | none => right; left; simp [observeInTX, hf]
  | some flags =>
    by_cases hen : flags.IsInboundEnabled = true
    · cases hbn : w.BlockNumber with
      | none => right; left; simp [observeInTX, hf, hen, hbn]
      | some bn =>
        by_cases hlb : ob.lastBlock ≥ MaxInt64
        · right; left; simp [observeInTX, hf, hen, hbn, ChainClient.GetLastBlockHeight, hlb]
        · by_cases hlt : bn < ob.lastBlock
          · right; left
            simp [observeInTX, hf, hen, hbn, ChainClient.GetLastBlockHeight, hlb, hlt]
          · by_cases hnb : bn ≥ MaxInt64
            · right; left
              simp [observeInTX, hf, hen, hbn, ChainClient.GetLastBlockHeight,
                ChainClient.SetLastBlockHeight, hlb, hlt, hnb]
            · by_cases hcc : bn < w.chainParams.ConfirmationCount
              · right; right
                refine ⟨bn, rfl, ?_⟩
                simp [observeInTX, hf, hen, hbn, ChainClient.GetLastBlockHeight,
                  ChainClient.SetLastBlockHeight, hlb, hlt, hnb, hcc]
              · by_cases hls : ob.lastBlockScanned ≥ bn - w.chainParams.ConfirmationCount
                · right; right
                  refine ⟨bn, rfl, ?_⟩
                  simp only [observeInTX, hf, hen, hbn, ChainClient.GetLastBlockHeight,
                    ChainClient.SetLastBlockHeight, hlb, hlt, hnb, hcc, if_false,
                    GetLastBlockHeightScanned, hls, if_true, Bool.not_true, Bool.false_eq_true]
                · left
                  exact ⟨flags, bn, hf, hen, hbn, by omega, by omega, by omega, by omega⟩
    · right; left; simp [observeInTX, hf, hen]

/-- C16: the scan cursor never decreases over a tick of `observeInTX`; in a tick
that reaches the scan its new value is the maximum of the old one and of the
minimum of the three last-block values returned by the ZetaSent, ERC20
Deposited and TSS-receive extractors, whatever these are; and it moves only in
such a tick. -/
theorem observeInTX_cursor_never_decreases (w : EvmWorld) (ob : ChainClient) :
    ob.lastBlockScanned ≤ (observeInTX w ob).1.lastBlockScanned
    ∧ (∀ flags blockNumber, reachesScan w ob flags blockNumber →
        (observeInTX w ob).1.lastBlockScanned
          = max ob.lastBlockScanned
              (min (zetaSentRun w ob blockNumber).2
                (min (depositedRun w ob blockNumber).2 (tssRecvdRun w ob blockNumber flags).2)))
    ∧ ((observeInTX w ob).1.lastBlockScanned ≠ ob.lastBlockScanned →
        ∃ flags blockNumber, reachesScan w ob flags blockNumber
          ∧ (observeInTX w ob).1.lastBlockScanned
              = min (zetaSentRun w ob blockNumber).2
                  (min (depositedRun w ob blockNumber).2
                    (tssRecvdRun w ob blockNumber flags).2)) := by
  refine ⟨?_, fun flags bn h => observeInTX_reached w ob flags bn h, ?_⟩
  · rcases observeInTX_not_reached w ob with ⟨flags, bn, h⟩ | h | ⟨bn, _, h⟩
    · rw [observeInTX_reached w ob flags bn h]; exact Nat.le_max_left _ _
    · rw [h]
    · rw [h]
  · intro hne
    rcases observeInTX_not_reached w ob with ⟨flags, bn, h⟩ | h | ⟨bn, _, h⟩
    · refine ⟨flags, bn, h, ?_⟩
      have h1 := observeInTX_reached w ob flags bn h
      rw [h1] at hne ⊢
      omega
    · rw [h] at hne; exact absurd rfl hne
    · rw [h] at hne; exact absurd rfl hne

/-- C16, at a tick of `exampleWorld` from block 10: the extractors return 18,
18 and 14 and the cursor goes to 14. -/
theorem observeInTX_cursor_never_decreases_witness :
    reachesScan exampleWorld exampleClient
        { IsInboundEnabled := true, IsOutboundEnabled := true,
          GasPriceIncreaseFlags := none, BlockHeaderVerificationFlags := none } 20
    ∧ (observeInTX exampleWorld exampleClient).1.lastBlockScanned = 14
    ∧ (observeInTX exampleWorld exampleClient).1.lastBlockScanned
        = max exampleClient.lastBlockScanned
            (min (zetaSentRun exampleWorld exampleClient 20).2
              (min (depositedRun exampleWorld exampleClient 20).2
                (tssRecvdRun exampleWorld exampleClient 20
                  { IsInboundEnabled := true, IsOutboundEnabled := true,
                    GasPriceIncreaseFlags := none,
                    BlockHeaderVerificationFlags := none }).2)) := by
  have hr : reachesScan exampleWorld exampleClient
        { IsInboundEnabled := true, IsOutboundEnabled := true,
          GasPriceIncreaseFlags := none, BlockHeaderVerificationFlags := none } 20 := by
    refine ⟨rfl, rfl, rfl, ?_, ?_, ?_, ?_⟩ <;> decide
  exact ⟨hr, by decide,
    (observeInTX_cursor_never_decreases exampleWorld exampleClient).2.1 _ 20 hr⟩

/-- C17: when the external height `tip` is below the confirmation count, or the
cursor is at or beyond `tip - ConfirmationCount`, a tick of `observeInTX`
leaves the client as it was up to the last block height: no extractor is
entered, nothing is posted and `lastBlockScanned` is unchanged. -/
theorem observeInTX_no_new_confirmed_block (w : EvmWorld) (ob : ChainClient) (tip : Nat)
    (htip : w.BlockNumber = some tip)
    (h : tip < w.chainParams.ConfirmationCount
      ∨ ob.lastBlockScanned ≥ tip - w.chainParams.ConfirmationCount) :
    ((observeInTX w ob).1 = ob ∨ (observeInTX w ob).1 = { ob with lastBlock := tip })
    ∧ (observeInTX w ob).1.calls = ob.calls
    ∧ (observeInTX w ob).1.lastBlockScanned = ob.lastBlockScanned := by
  have key : (observeInTX w ob).1 = ob
      ∨ (observeInTX w ob).1 = { ob with lastBlock := tip } := by
    rcases observeInTX_not_reached w ob with ⟨flags, bn, hr⟩ | h1 | ⟨bn, hbn, h1⟩
    · obtain ⟨_, _, hbn, _, _, hcc, hls⟩ := hr
      rw [htip] at hbn
      cases hbn
      omega
    · exact Or.inl h1
    · rw [htip] at hbn
      cases hbn
      exact Or.inr h1
  refine ⟨key, ?_, ?_⟩
  · rcases key with h1 | h1 <;> rw [h1]
  · rcases key with h1 | h1 <;> rw [h1]

/-- C17, at `exampleWorld` (height 20, confirmation count 2) with the cursor
at block 18. -/
theorem observeInTX_no_new_confirmed_block_witness :
    exampleWorld.BlockNumber = some 20
    ∧ ({ exampleClient with lastBlockScanned := 18 } : ChainClient).lastBlockScanned
        ≥ 20 - exampleWorld.chainParams.ConfirmationCount
    ∧ (observeInTX exampleWorld { exampleClient with lastBlockScanned := 18 }).1.calls = []
    ∧ (observeInTX exampleWorld
        { exampleClient with lastBlockScanned := 18 }).1.lastBlockScanned = 18 :=
  ⟨rfl, by decide,
   (observeInTX_no_new_confirmed_block exampleWorld
      { exampleClient with lastBlockScanned := 18 } 20 rfl (Or.inr (by decide))).2.1,
   (observeInTX_no_new_confirmed_block exampleWorld
      { exampleClient with lastBlockScanned := 18 } 20 rfl (Or.inr (by decide))).2.2⟩

theorem CheckTxInclusion_true (w : EvmWorld) (ob ob1 : ChainClient) (tx : Transaction)
    (receipt : Receipt) (h : CheckTxInclusion w ob tx receipt = (ob1, true)) :
    ∃ block txAtIndex,
      (GetBlockByNumberCached w ob receipt.BlockNumber).2 = some block
        ∧ block.Transactions.get? receipt.TransactionIndex = some txAtIndex
        ∧ w.EqualFold txAtIndex.Hash tx.HashHex = true := by
  unfold CheckTxInclusion at h
  rcases hg : GetBlockByNumberCached w ob receipt.BlockNumber with ⟨ob2, _ | block⟩
  · rw [hg] at h; simp at h
  · rw [hg] at h
    simp only at h
    cases hi : block.Transactions.get? receipt.TransactionIndex with
    | none => rw [hi] at h; simp at h
    | some txAtIndex =>
      rw [hi] at h
      simp only at h
      cases he : w.EqualFold txAtIndex.Hash tx.HashHex with
      | false => rw [he] at h; simp at h
      | true => exact ⟨block, txAtIndex, rfl, hi, he⟩

theorem CheckTxInclusion_mismatch (w : EvmWorld) (ob : ChainClient) (tx : Transaction)
    (receipt : Receipt) (block : RpcBlock) (txAtIndex : RpcTransaction)
    (hb : (GetBlockByNumberCached w ob receipt.BlockNumber).2 = some block)
    (hi : block.Transactions.get? receipt.TransactionIndex = some txAtIndex)
    (he : w.EqualFold txAtIndex.Hash tx.HashHex = false) :
    (CheckTxInclusion w ob tx receipt).2 = false
      ∧ mapGet (CheckTxInclusion w ob tx receipt).1.blockCache receipt.BlockNumber = none := by
  unfold CheckTxInclusion
  rcases hg : GetBlockByNumberCached w ob receipt.BlockNumber with ⟨ob2, r⟩
  rw [hg] at hb
  simp only at hb
  subst hb
  simp only [hi, he, Bool.not_false, if_true, RemoveCachedBlock, mapGet_mapDelete_self,
    and_self]

/-- C18, as stated, fails: at `exampleOtherHashWorld` the endpoint answers the
query for `0xc` with the transaction of hash `0xa`, sent by the TSS address with
nonce 7 and included at position 0 of block 12; `checkConfirmedTx` accepts
`0xc` for nonce 7, and the hash at that position, `0xA`, is the hash of the
transaction returned and not the accepted hash `0xc`. -/
theorem checkConfirmedTx_accepts_other_hash :
    checkConfirmedTx exampleOtherHashWorld exampleClient "0xc" 7
        = ((GetBlockByNumberCached exampleOtherHashWorld exampleClient 12).1,
            Confirmation.confirmed (exampleReceipt "0xa" 0) (exampleTransaction "0xa"))
    ∧ (exampleReceipt "0xa" 0).BlockNumber = 12
    ∧ (exampleReceipt "0xa" 0).TransactionIndex = 0
    ∧ (GetBlockByNumberCached exampleOtherHashWorld exampleClient 12).2
        = some { Number := 12,
                 Transactions := [{ Hash := "0xA", From := "0xtss", To := "0xr" },
                                  { Hash := "0xB", From := "0xtss", To := "0xr" }] }
    ∧ exampleOtherHashWorld.EqualFold "0xA" (exampleTransaction "0xa").HashHex = true
    ∧ exampleOtherHashWorld.EqualFold "0xA" "0xc" = false := by
  refine ⟨by decide, by decide, by decide, by decide, by decide, by decide⟩

/-- C18, amended: when `checkConfirmedTx(txHash, nonce)` confirms a receipt and
a transaction, the transaction is the one the endpoint returned for `txHash`
and is not pending, its recovered sender is the TSS EVM address, its nonce is
`nonce`, the receipt is the one of `txHash` and has enough confirmations at the
last block height, and the block at `receipt.BlockNumber` holds at position
`receipt.TransactionIndex` a transaction whose hash equals (`strings.EqualFold`)
the hash of the transaction returned; this is the accepted hash `txHash` when
the transaction returned has that hash. When the hash at that position differs
from the hash of the transaction, `CheckTxInclusion` fails and the block of
that height is no longer cached, and so `checkConfirmedTx` does not confirm. -/
theorem checkConfirmedTx_inclusion_consistency (w : EvmWorld) (ob : ChainClient)
    (txHash : String) (nonce : Nat) :
    (∀ ob1 receipt transaction,
      checkConfirmedTx w ob txHash nonce = (ob1, Confirmation.confirmed receipt transaction) →
        w.TransactionByHash txHash = some (some transaction, false)
        ∧ w.Sender transaction = some w.tssEVMAddress
        ∧ transaction.Nonce = nonce
        ∧ w.TransactionReceipt txHash = ReceiptAnswer.receipt receipt
        ∧ (∃ lastHeight, ob.GetLastBlockHeight = some lastHeight
            ∧ w.HasEnoughConfirmations receipt lastHeight = true)
        ∧ ∃ block txAtIndex,
            (GetBlockByNumberCached w ob receipt.BlockNumber).2 = some block
            ∧ block.Transactions.get? receipt.TransactionIndex = some txAtIndex
            ∧ w.EqualFold txAtIndex.Hash transaction.HashHex = true
            ∧ (transaction.HashHex = txHash → w.EqualFold txAtIndex.Hash txHash = true))
    ∧ (∀ (transaction : Transaction) (receipt : Receipt) block txAtIndex,
        (GetBlockByNumberCached w ob receipt.BlockNumber).2 = some block →
        block.Transactions.get? receipt.TransactionIndex = some txAtIndex →
        w.EqualFold txAtIndex.Hash transaction.HashHex = false →
          (CheckTxInclusion w ob transaction receipt).2 = false
          ∧ mapGet (CheckTxInclusion w ob transaction receipt).1.blockCache
              receipt.BlockNumber = none
          ∧ (w.TransactionByHash txHash = some (some transaction, false) →
              w.TransactionReceipt txHash = ReceiptAnswer.receipt receipt →
              (checkConfirmedTx w ob txHash nonce).2 = Confirmation.notConfirmed
                ∨ (checkConfirmedTx w ob txHash nonce).2 = Confirmation.panicked)) := by
  refine ⟨?_, ?_⟩
  · intro ob1 receipt transaction h
    unfold checkConfirmedTx at h
    cases ht : w.TransactionByHash txHash with
    | none => rw [ht] at h; simp at h
    | some r =>
      rcases r with ⟨_ | tx, isPending⟩
      · rw [ht] at h; simp at h
      · rw [ht] at h
        simp only at h
        cases hs : w.Sender tx with
        | none => rw [hs] at h; simp at h
        | some sender =>
          rw [hs] at h
          simp only at h
          by_cases hsender : sender = w.tssEVMAddress
          · by_cases hnonce : tx.Nonce = nonce
            · cases isPending with
              | true => simp [hsender, hnonce] at h
              | false =>
                simp only [hsender, hnonce, ne_eq, not_true_eq_false, if_false,
                  Bool.false_eq_true] at h
                cases hr : w.TransactionReceipt txHash with
                | failed => rw [hr] at h; simp at h
                | nilReceipt => rw [hr] at h; simp at h
                | receipt rc =>
                  rw [hr] at h
                  simp only at h
                  cases hl : ob.GetLastBlockHeight with
                  | none => rw [hl] at h; simp at h
                  | some lastHeight =>
                    rw [hl] at h
                    simp only at h
                    cases hc : w.HasEnoughConfirmations rc lastHeight with
                    | false => rw [hc] at h; simp at h
                    | true =>
                      rw [hc] at h
                      simp only [Bool.not_true, Bool.false_eq_true, if_false] at h
                      rcases hin : CheckTxInclusion w ob tx rc with ⟨ob2, _ | _⟩
                      · rw [hin] at h; simp at h
                      · rw [hin] at h
                        simp only [Prod.mk.injEq, Confirmation.confirmed.injEq] at h
                        obtain ⟨_, hrc, htx⟩ := h
                        subst hrc
                        subst htx
                        obtain ⟨block, txAtIndex, hb, hi, he⟩ :=
                          CheckTxInclusion_true w ob ob2 tx rc hin
                        exact ⟨rfl, by rw [hs, hsender], hnonce, rfl,
                          ⟨lastHeight, rfl, hc⟩, block, txAtIndex, hb, hi, he,
                          fun heq => heq ▸ he⟩
            · simp [hsender, hnonce] at h
          · simp [hsender] at h
  · intro transaction receipt block txAtIndex hb hi he
    have hm := CheckTxInclusion_mismatch w ob transaction receipt block txAtIndex hb hi he
    refine ⟨hm.1, hm.2, ?_⟩
    intro ht hr
    unfold checkConfirmedTx
    simp only [ht, hr]
    repeat' split
    all_goals first
      | exact Or.inl rfl
      | exact Or.inr rfl
      | (rename_i hin; rw [hin] at hm; simp at hm)

/-- C18, amended, at `exampleWorld`, whose endpoint returns for a hash the
transaction of that hash: `0xa` is confirmed for nonce 7 against block 12,
which holds `0xA` at position 0, the accepted hash up to case; `0xm`, whose
receipt points at that position, is not confirmed and block 12 leaves the
cache. -/
theorem checkConfirmedTx_inclusion_consistency_witness :
    checkConfirmedTx exampleWorld exampleClient "0xa" 7
        = ((GetBlockByNumberCached exampleWorld exampleClient 12).1,
            Confirmation.confirmed (exampleReceipt "0xa" 0) (exampleTransaction "0xa"))
    ∧ (∃ block txAtIndex,
        (GetBlockByNumberCached exampleWorld exampleClient
          (exampleReceipt "0xa" 0).BlockNumber).2 = some block
        ∧ block.Transactions.get? (exampleReceipt "0xa" 0).TransactionIndex = some txAtIndex
        ∧ exampleWorld.EqualFold txAtIndex.Hash (exampleTransaction "0xa").HashHex = true
        ∧ exampleWorld.EqualFold txAtIndex.Hash "0xa" = true)
    ∧ (checkConfirmedTx exampleWorld exampleClient "0xm" 7).2 = Confirmation.notConfirmed
    ∧ mapGet (checkConfirmedTx exampleWorld exampleClient "0xm" 7).1.blockCache 12 = none := by
  have h : checkConfirmedTx exampleWorld exampleClient "0xa" 7
        = ((GetBlockByNumberCached exampleWorld exampleClient 12).1,
            Confirmation.confirmed (exampleReceipt "0xa" 0) (exampleTransaction "0xa")) := by
    decide
  obtain ⟨block, txAtIndex, hb, hi, he, himp⟩ :=
    ((checkConfirmedTx_inclusion_consistency exampleWorld exampleClient "0xa" 7).1
      _ _ _ h).2.2.2.2.2
  exact ⟨h, ⟨block, txAtIndex, hb, hi, he, himp rfl⟩, by decide, by decide⟩

theorem GetBlockByNumberCached_confirmed (w : EvmWorld) (ob : ChainClient) (bn : Nat) :
    (GetBlockByNumberCached w ob bn).1.outTXConfirmedReceipts = ob.outTXConfirmedReceipts
    ∧ (GetBlockByNumberCached w ob bn).1.outTXConfirmedTransactions
        = ob.outTXConfirmedTransactions
    ∧ (GetBlockByNumberCached w ob bn).1.lastBlock = ob.lastBlock := by
  unfold GetBlockByNumberCached
  repeat' split
  all_goals exact ⟨rfl, rfl, rfl⟩

theorem CheckTxInclusion_confirmed (w : EvmWorld) (ob : ChainClient) (tx : Transaction)
    (receipt : Receipt) :
    (CheckTxInclusion w ob tx receipt).1.outTXConfirmedReceipts = ob.outTXConfirmedReceipts
    ∧ (CheckTxInclusion w ob tx receipt).1.outTXConfirmedTransactions
        = ob.outTXConfirmedTransactions
    ∧ (CheckTxInclusion w ob tx receipt).1.lastBlock = ob.lastBlock := by
  have hg := GetBlockByNumberCached_confirmed w ob receipt.BlockNumber
  unfold CheckTxInclusion
  rcases hc : GetBlockByNumberCached w ob receipt.BlockNumber with ⟨ob2, r⟩
  rw [hc] at hg
  cases r with
  | none => exact hg
  | some block =>
    simp only
    repeat' split
    all_goals exact hg

theorem checkConfirmedTx_confirmed (w : EvmWorld) (ob : ChainClient) (txHash : String)
    (nonce : Nat) :
    (checkConfirmedTx w ob txHash nonce).1.outTXConfirmedReceipts = ob.outTXConfirmedReceipts
    ∧ (checkConfirmedTx w ob txHash nonce).1.outTXConfirmedTransactions
        = ob.outTXConfirmedTransactions
    ∧ (checkConfirmedTx w ob txHash nonce).1.lastBlock = ob.lastBlock := by
  unfold checkConfirmedTx
  repeat' split
  all_goals first
    | exact ⟨rfl, rfl, rfl⟩
    | (rename_i hin
       have hf := congrArg Prod.fst hin
       simp only at hf
       subst hf
       exact CheckTxInclusion_confirmed _ _ _ _)

theorem checkConfirmedTx_no_panic (w : EvmWorld) (ob : ChainClient) (txHash : String)
    (nonce : Nat) (h : ob.lastBlock < MaxInt64) :
    (checkConfirmedTx w ob txHash nonce).2 ≠ Confirmation.panicked := by
  have hl : ob.GetLastBlockHeight = some ob.lastBlock := by
    unfold ChainClient.GetLastBlockHeight
    rw [if_neg (by omega)]
  unfold checkConfirmedTx
  rw [hl]
  repeat' split
  all_goals first
    | (simp; done)
    | (rename_i hn; simp at hn)

theorem observeOutTxHashes_finished (w : EvmWorld) (nonce : Nat) (hashes : List TxHashList) :
    ∀ (ob : ChainClient) (i txCount : Nat) (last : Option (Receipt × Transaction)),
      ob.lastBlock < MaxInt64 →
      (∀ j, j < hashes.length → w.outTimeout nonce (i + j) = false) →
      ∃ ob1,
        observeOutTxHashes w nonce ob hashes i txCount last
          = (ob1, LoopExit.finished, txCount + (passingHashes w nonce ob hashes).length,
              match (passingHashes w nonce ob hashes).getLast? with
              | some p => some p
              | none => last)
        ∧ ob1.outTXConfirmedReceipts = ob.outTXConfirmedReceipts
        ∧ ob1.outTXConfirmedTransactions = ob.outTXConfirmedTransactions := by
  induction hashes with
  | nil => intro ob i c last _ _; exact ⟨ob, rfl, rfl, rfl⟩
  | cons h rest ih =>
    intro ob i c last hl ht
    have ht0 : w.outTimeout nonce i = false := by simpa using ht 0 (by simp)
    have htr : ∀ j, j < rest.length → w.outTimeout nonce (i + 1 + j) = false := by
      intro j hj
      have := ht (j + 1) (by simp only [List.length_cons]; omega)
      rwa [show i + (j + 1) = i + 1 + j by omega] at this
    have hfr := checkConfirmedTx_confirmed w ob h.TxHash nonce
    have hnp := checkConfirmedTx_no_panic w ob h.TxHash nonce hl
    unfold observeOutTxHashes passingHashes
    rw [ht0]
    simp only [Bool.false_eq_true, if_false]
    rcases hc : checkConfirmedTx w ob h.TxHash nonce with ⟨ob1, r⟩
    rw [hc] at hfr hnp
    simp only at hfr hnp
    cases r with
    | confirmed receipt transaction =>
      simp only
      obtain ⟨ob2, h2, hr2, ht2⟩ := ih ob1 (i + 1) (c + 1) (some (receipt, transaction))
        (by rw [hfr.2.2]; exact hl) htr
      refine ⟨ob2, ?_, hr2.trans hfr.1, ht2.trans hfr.2.1⟩
      rw [h2]
      generalize passingHashes w nonce ob1 rest = l
      cases l with
      | nil => simp
      | cons x l =>
        simp only [List.length_cons, List.getLast?_cons_cons, Prod.mk.injEq, true_and]
        refine ⟨by omega, ?_⟩
        cases hg : (x :: l).getLast? with
        | none => simp at hg
        | some p => rfl
    | notConfirmed =>
      simp only
      obtain ⟨ob2, h2, hr2, ht2⟩ := ih ob1 (i + 1) c last (by rw [hfr.2.2]; exact hl) htr
      exact ⟨ob2, h2, hr2.trans hfr.1, ht2.trans hfr.2.1⟩
    | panicked => exact absurd rfl hnp

theorem isTxConfirmed_congr (w : EvmWorld) (a b : ChainClient) (nonce : Nat)
    (hr : a.outTXConfirmedReceipts = b.outTXConfirmedReceipts)
    (ht : a.outTXConfirmedTransactions = b.outTXConfirmedTransactions) :
    isTxConfirmed w a nonce = isTxConfirmed w b nonce := by
  unfold isTxConfirmed
  rw [hr, ht]

theorem GetTxNReceipt_SetTxNReceipt (w : EvmWorld) (ob : ChainClient) (nonce : Nat)
    (receipt : Receipt) (transaction : Transaction) :
    GetTxNReceipt w (SetTxNReceipt w ob nonce receipt transaction) nonce
      = (some receipt, some transaction) := by
  simp only [GetTxNReceipt, SetTxNReceipt, mapGet_mapSet_self]

/-- One pass of the tracker loop of `observeOutTx`, for one tracker from any
client state. A nonce that already has a recorded receipt and transaction is
skipped, the client is unchanged.
Otherwise, when the hash list is checked to its end (the timeout of the tick
does not fire on it and the last block height is a valid one): if exactly one
hash passes `checkConfirmedTx`, its receipt and transaction are recorded for
the nonce; if none or several pass, nothing is recorded; so a pair is recorded
for the nonce if and only if exactly one hash passes. -/
theorem observeOutTxTracker_records_single_confirmation (w : EvmWorld) (ob : ChainClient)
    (tracker : OutTxTracker) :
    (isTxConfirmed w ob tracker.Nonce = true →
      observeOutTxTracker w ob tracker = (ob, LoopExit.finished))
    ∧ (isTxConfirmed w ob tracker.Nonce = false →
        ob.lastBlock < MaxInt64 →
        (∀ i, i < tracker.HashList.length → w.outTimeout tracker.Nonce i = false) →
        (observeOutTxTracker w ob tracker).2 = LoopExit.finished
        ∧ (∀ receipt transaction,
            passingHashes w tracker.Nonce ob tracker.HashList = [(receipt, transaction)] →
            GetTxNReceipt w (observeOutTxTracker w ob tracker).1 tracker.Nonce
              = (some receipt, some transaction))
        ∧ ((passingHashes w tracker.Nonce ob tracker.HashList).length ≠ 1 →
            (observeOutTxTracker w ob tracker).1.outTXConfirmedReceipts
              = ob.outTXConfirmedReceipts
            ∧ (observeOutTxTracker w ob tracker).1.outTXConfirmedTransactions
              = ob.outTXConfirmedTransactions)
        ∧ (isTxConfirmed w (observeOutTxTracker w ob tracker).1 tracker.Nonce = true
            ↔ (passingHashes w tracker.Nonce ob tracker.HashList).length = 1)) := by
  refine ⟨?_, ?_⟩
  · intro h
    unfold observeOutTxTracker
    simp only [h, if_true]
  · intro hc hl ht
    obtain ⟨ob1, h1, hr1, ht1⟩ := observeOutTxHashes_finished w tracker.Nonce tracker.HashList
      ob 0 0 none hl (by intro j hj; rw [Nat.zero_add]; exact ht j hj)
    have hsingle : ∀ receipt transaction,
        passingHashes w tracker.Nonce ob tracker.HashList = [(receipt, transaction)] →
        observeOutTxTracker w ob tracker
          = (SetTxNReceipt w ob1 tracker.Nonce receipt transaction, LoopExit.finished) := by
      intro receipt transaction hp
      unfold observeOutTxTracker
      simp only [hc, Bool.false_eq_true, if_false, h1, hp, List.length_singleton,
        List.getLast?_singleton, Nat.zero_add, if_true]
    have hother : (passingHashes w tracker.Nonce ob tracker.HashList).length ≠ 1 →
        observeOutTxTracker w ob tracker = (ob1, LoopExit.finished) := by
      intro hp
      unfold observeOutTxTracker
      simp only [hc, Bool.false_eq_true, if_false, h1, Nat.zero_add, hp]
    have hfin : (observeOutTxTracker w ob tracker).2 = LoopExit.finished := by
      by_cases hp : (passingHashes w tracker.Nonce ob tracker.HashList).length = 1
      · obtain ⟨⟨receipt, transaction⟩, hp1⟩ := List.length_eq_one.mp hp
        rw [hsingle receipt transaction hp1]
      · rw [hother hp]
    refine ⟨hfin, ?_, ?_, ?_⟩
    · intro receipt transaction hp
      rw [hsingle receipt transaction hp]
      exact GetTxNReceipt_SetTxNReceipt w ob1 tracker.Nonce receipt transaction
    · intro hp
      rw [hother hp]
      exact ⟨hr1, ht1⟩
    · constructor
      · intro hconf
        by_contra hp
        rw [hother hp] at hconf
        rw [isTxConfirmed_congr w ob1 ob tracker.Nonce hr1 ht1, hc] at hconf
        exact Bool.noConfusion hconf
      · intro hp
        obtain ⟨⟨receipt, transaction⟩, hp1⟩ := List.length_eq_one.mp hp
        have hg := GetTxNReceipt_SetTxNReceipt w ob1 tracker.Nonce receipt transaction
        rw [hsingle receipt transaction hp1]
        unfold GetTxNReceipt at hg
        unfold isTxConfirmed
        simp only [Prod.mk.injEq] at hg
        simp only [hg.1, hg.2, Option.isSome_some, Bool.and_self]

/-- One pass at `exampleWorld`: of the hashes `0xa`, `0xz` only `0xa` passes
and its pair is recorded for nonce 7; of `0xa`, `0xb` both pass and nothing is
recorded. -/
theorem observeOutTxTracker_records_single_confirmation_witness :
    isTxConfirmed exampleWorld exampleClient (exampleHashes ["0xa", "0xz"]).Nonce = false
    ∧ passingHashes exampleWorld 7 exampleClient (exampleHashes ["0xa", "0xz"]).HashList
        = [(exampleReceipt "0xa" 0, exampleTransaction "0xa")]
    ∧ GetTxNReceipt exampleWorld
        (observeOutTxTracker exampleWorld exampleClient (exampleHashes ["0xa", "0xz"])).1 7
        = (some (exampleReceipt "0xa" 0), some (exampleTransaction "0xa"))
    ∧ (passingHashes exampleWorld 7 exampleClient
        (exampleHashes ["0xa", "0xb"]).HashList).length = 2
    ∧ (observeOutTxTracker exampleWorld exampleClient
        (exampleHashes ["0xa", "0xb"])).1.outTXConfirmedReceipts = [] :=
  ⟨by decide, by decide,
   ((observeOutTxTracker_records_single_confirmation exampleWorld exampleClient
      (exampleHashes ["0xa", "0xz"])).2 (by decide) (by decide)
      (fun _ _ => rfl)).2.1 _ _ (by decide),
   by decide,
   (((observeOutTxTracker_records_single_confirmation exampleWorld exampleClient
      (exampleHashes ["0xa", "0xb"])).2 (by decide) (by decide)
      (fun _ _ => rfl)).2.2.1 (by decide)).1⟩

/-- C20, counterexample: `exampleCmdCctx` has a Cmd outbound of amount 100 and
is not restricted; the confirmed transaction of its nonce has value 5; the vote
that `IsSendOutTxProcessed` posts carries the amount 5 of the transaction, not
the amount 100 of the CCTX. -/
theorem IsSendOutTxProcessed_cmd_posts_transaction_value :
    (GetCurrentOutTxParam exampleCmdCctx).CoinType = CoinType.Cmd
    ∧ (GetCurrentOutTxParam exampleCmdCctx).Amount = 100
    ∧ GetTxNReceipt exampleWorld exampleConfirmedClient
        (GetCurrentOutTxParam exampleCmdCctx).OutboundTxTssNonce
        = (some (exampleReceipt "0xa" 0), some (exampleTransaction "0xa"))
    ∧ (IsSendOutTxProcessed exampleWorld exampleConfirmedClient exampleCmdCctx).1.calls
        = [Call.postVoteOutbound
            { SendHash := "idx1", OutTxHash := "0xa", OutBlockHeight := 12,
              OutTxGasUsed := 21000, OutTxEffectiveGasPrice := 1,
              OutTxEffectiveGasLimit := 21000, Amount := 5,
              Status := ReceiveStatus.Success, ChainId := 5, Nonce := 7,
              CoinType := CoinType.Cmd }] := by
  decide

/-- C20, amended: for a CCTX whose current outbound has coin type Cmd and for
whose nonce a confirmed receipt and transaction are recorded,
`IsSendOutTxProcessed` posts one outbound vote of coin type Cmd and returns
(true, true, nil); the status of the vote is Success if and only if
`receipt.Status == 1`; its amount is the Amount of the current outbound of the
CCTX when the CCTX is restricted, and the value of the external transaction
when it is not. -/
theorem IsSendOutTxProcessed_cmd_vote (w : EvmWorld) (ob : ChainClient) (cctx : CrossChainTx)
    (receipt : Receipt) (transaction : Transaction)
    (hcoin : (GetCurrentOutTxParam cctx).CoinType = CoinType.Cmd)
    (hconf : GetTxNReceipt w ob (GetCurrentOutTxParam cctx).OutboundTxTssNonce
      = (some receipt, some transaction)) :
    ∃ vote : OutboundVote,
      IsSendOutTxProcessed w ob cctx
        = ({ ob with calls := ob.calls ++ [Call.postVoteOutbound vote] },
            Processed.result true true)
      ∧ vote.CoinType = CoinType.Cmd
      ∧ vote.SendHash = cctx.Index
      ∧ vote.OutTxHash = receipt.TxHash
      ∧ vote.Nonce = (GetCurrentOutTxParam cctx).OutboundTxTssNonce
      ∧ (vote.Status = ReceiveStatus.Success ↔ receipt.Status = 1)
      ∧ (vote.Status = ReceiveStatus.Failed ↔ receipt.Status ≠ 1)
      ∧ (w.IsCctxRestricted cctx = true → vote.Amount = (GetCurrentOutTxParam cctx).Amount)
      ∧ (w.IsCctxRestricted cctx = false → vote.Amount = transaction.Value) := by
  have hstatus : ∀ amount : Nat,
      ((receiptVote w cctx.Index receipt transaction
          (GetCurrentOutTxParam cctx).OutboundTxTssNonce amount
          (if receipt.Status = 1 then ReceiveStatus.Success else ReceiveStatus.Failed)
          CoinType.Cmd).Status = ReceiveStatus.Success ↔ receipt.Status = 1)
      ∧ ((receiptVote w cctx.Index receipt transaction
          (GetCurrentOutTxParam cctx).OutboundTxTssNonce amount
          (if receipt.Status = 1 then ReceiveStatus.Success else ReceiveStatus.Failed)
          CoinType.Cmd).Status = ReceiveStatus.Failed ↔ receipt.Status ≠ 1) := by
    intro amount
    unfold receiptVote
    by_cases h1 : receipt.Status = 1 <;> simp [h1]
  cases hr : w.IsCctxRestricted cctx with
  | true =>
    refine ⟨receiptVote w cctx.Index receipt transaction
      (GetCurrentOutTxParam cctx).OutboundTxTssNonce (GetCurrentOutTxParam cctx).Amount
      (if receipt.Status = 1 then ReceiveStatus.Success else ReceiveStatus.Failed)
      CoinType.Cmd, ?_, rfl, rfl, rfl, rfl, (hstatus _).1, (hstatus _).2, fun _ => rfl, ?_⟩
    · unfold IsSendOutTxProcessed
      simp only [hconf, hr, if_true, postVoteOutbound]
    · intro h; exact Bool.noConfusion h
  | false =>
    refine ⟨receiptVote w cctx.Index receipt transaction
      (GetCurrentOutTxParam cctx).OutboundTxTssNonce transaction.Value
      (if receipt.Status = 1 then ReceiveStatus.Success else ReceiveStatus.Failed)
      CoinType.Cmd, ?_, rfl, rfl, rfl, rfl, (hstatus _).1, (hstatus _).2, ?_, fun _ => rfl⟩
    · unfold IsSendOutTxProcessed
      simp only [hconf, hr, hcoin, if_true, postVoteOutbound, Bool.false_eq_true, if_false]
    · intro h; exact Bool.noConfusion h

/-- C20, amended, at `exampleWorld`, where no CCTX is restricted: the vote on
`exampleCmdCctx` carries the value 5 of the confirmed transaction. -/
theorem IsSendOutTxProcessed_cmd_vote_witness :
    (GetCurrentOutTxParam exampleCmdCctx).CoinType = CoinType.Cmd
    ∧ ∃ vote : OutboundVote,
      IsSendOutTxProcessed exampleWorld exampleConfirmedClient exampleCmdCctx
        = ({ exampleConfirmedClient with
              calls := exampleConfirmedClient.calls ++ [Call.postVoteOutbound vote] },
            Processed.result true true)
      ∧ vote.Status = ReceiveStatus.Success
      ∧ vote.Amount = 5 := by
  obtain ⟨vote, h, _, _, _, _, hs, _, _, ha⟩ :=
    IsSendOutTxProcessed_cmd_vote exampleWorld exampleConfirmedClient exampleCmdCctx
      (exampleReceipt "0xa" 0) (exampleTransaction "0xa") (by decide) (by decide)
  exact ⟨by decide, vote, h, hs.mpr rfl, ha rfl⟩

/-! ## UpdateCrosschainFlags -/

/-- C21: an UpdateCrosschainFlags message whose creator is authorized for the
policy type the message requires succeeds, and the flags stored afterwards have
IsInboundEnabled and IsOutboundEnabled of the message; each of the groups
GasPriceIncreaseFlags and BlockHeaderVerificationFlags is the one of the
message when that is set, and otherwise the one stored before, or the one of
the default flags when no flags were stored before. -/
theorem UpdateCrosschainFlags_stored_flags (lib : Lib) (ctx : Ctx)
    (msg : MsgUpdateCrosschainFlags)
    (hauth : ctx.authorityIsAuthorized msg.Creator (lib.GetRequiredPolicyType msg) = true) :
    (UpdateCrosschainFlags lib ctx msg).2 = .ok ()
    ∧ ∃ flags, GetCrosschainFlags (UpdateCrosschainFlags lib ctx msg).1 = some flags
      ∧ flags.IsInboundEnabled = msg.IsInboundEnabled
      ∧ flags.IsOutboundEnabled = msg.IsOutboundEnabled
      ∧ (∀ g, msg.GasPriceIncreaseFlags = some g → flags.GasPriceIncreaseFlags = some g)
      ∧ (msg.GasPriceIncreaseFlags = none →
          (∀ old, GetCrosschainFlags ctx = some old →
            flags.GasPriceIncreaseFlags = old.GasPriceIncreaseFlags)
          ∧ (GetCrosschainFlags ctx = none →
            flags.GasPriceIncreaseFlags = lib.DefaultCrosschainFlags.GasPriceIncreaseFlags))
      ∧ (∀ b, msg.BlockHeaderVerificationFlags = some b →
          flags.BlockHeaderVerificationFlags = some b)
      ∧ (msg.BlockHeaderVerificationFlags = none →
          (∀ old, GetCrosschainFlags ctx = some old →
            flags.BlockHeaderVerificationFlags = old.BlockHeaderVerificationFlags)
          ∧ (GetCrosschainFlags ctx = none →
            flags.BlockHeaderVerificationFlags
              = lib.DefaultCrosschainFlags.BlockHeaderVerificationFlags)) := by
  unfold UpdateCrosschainFlags
  simp only [hauth, Bool.not_true, Bool.false_eq_true, if_false, true_and]
  refine ⟨_, rfl, ?_, ?_, ?_, ?_, ?_, ?_⟩
  · cases msg.GasPriceIncreaseFlags <;> cases msg.BlockHeaderVerificationFlags <;> rfl
  · cases msg.GasPriceIncreaseFlags <;> cases msg.BlockHeaderVerificationFlags <;> rfl
  · intro g hg
    rw [hg]
    cases msg.BlockHeaderVerificationFlags <;> rfl
  · intro hg
    rw [hg]
    refine ⟨fun old ho => ?_, fun ho => ?_⟩
    · rw [ho]; cases msg.BlockHeaderVerificationFlags <;> rfl
    · rw [ho]; cases msg.BlockHeaderVerificationFlags <;> rfl
  · intro b hb
    rw [hb]
  · intro hb
    rw [hb]
    refine ⟨fun old ho => ?_, fun ho => ?_⟩
    · rw [ho]; cases msg.GasPriceIncreaseFlags <;> rfl
    · rw [ho]; cases msg.GasPriceIncreaseFlags <;> rfl

/-- C21, at `exampleBase`: the admin disables inbound and sets no group; the
stored gas price group stays absent and the header verification group stays
the stored one. -/
theorem UpdateCrosschainFlags_stored_flags_witness :
    exampleBase.authorityIsAuthorized "admin"
        (exampleLib.GetRequiredPolicyType
          { Creator := "admin", IsInboundEnabled := false, IsOutboundEnabled := true,
            GasPriceIncreaseFlags := none, BlockHeaderVerificationFlags := none }) = true
    ∧ (UpdateCrosschainFlags exampleLib exampleBase
          { Creator := "admin", IsInboundEnabled := false, IsOutboundEnabled := true,
            GasPriceIncreaseFlags := none, BlockHeaderVerificationFlags := none }).2 = .ok ()
    ∧ GetCrosschainFlags (UpdateCrosschainFlags exampleLib exampleBase
          { Creator := "admin", IsInboundEnabled := false, IsOutboundEnabled := true,
            GasPriceIncreaseFlags := none, BlockHeaderVerificationFlags := none }).1
        = some { IsInboundEnabled := false, IsOutboundEnabled := true,
                 GasPriceIncreaseFlags := none,
                 BlockHeaderVerificationFlags :=
                   some { IsEthTypeChainEnabled := true, IsBtcTypeChainEnabled := false } } :=
  ⟨by decide,
   (UpdateCrosschainFlags_stored_flags exampleLib exampleBase
      { Creator := "admin", IsInboundEnabled := false, IsOutboundEnabled := true,
        GasPriceIncreaseFlags := none, BlockHeaderVerificationFlags := none } (by decide)).1,
   by decide⟩

/-! ## VerifyEVMOutTxBody -/

/-- C22: VerifyEVMOutTxBody returns nil exactly when the transaction decodes,
its recovered sender is the TSS EVM address, this address is not the zero
address, and the chain id, the nonce and the hash of the transaction are those
of the message; in every other case it returns an error. -/
theorem VerifyEVMOutTxBody_nil_iff (lib : Lib) (msg : MsgAddToOutTxTracker) (txBytes : Bytes)
    (tssEth : String) :
    (VerifyEVMOutTxBody lib msg txBytes tssEth = .ok ()
      ↔ ∃ txx, lib.EvmUnmarshalBinary txBytes = some txx
          ∧ lib.EvmSender txx = some (lib.HexToAddress tssEth)
          ∧ lib.HexToAddress tssEth ≠ zeroAddress
          ∧ txx.ChainId = msg.ChainId ∧ txx.Nonce = msg.Nonce ∧ txx.HashHex = msg.TxHash)
    ∧ (∀ txx sender, lib.EvmUnmarshalBinary txBytes = some txx →
        lib.EvmSender txx = some sender →
        (sender ≠ lib.HexToAddress tssEth ∨ lib.HexToAddress tssEth = zeroAddress
          ∨ txx.ChainId ≠ msg.ChainId ∨ txx.Nonce ≠ msg.Nonce ∨ txx.HashHex ≠ msg.TxHash) →
        ∃ e, VerifyEVMOutTxBody lib msg txBytes tssEth = .error e) := by
  have hiff : VerifyEVMOutTxBody lib msg txBytes tssEth = .ok ()
      ↔ ∃ txx, lib.EvmUnmarshalBinary txBytes = some txx
          ∧ lib.EvmSender txx = some (lib.HexToAddress tssEth)
          ∧ lib.HexToAddress tssEth ≠ zeroAddress
          ∧ txx.ChainId = msg.ChainId ∧ txx.Nonce = msg.Nonce ∧ txx.HashHex = msg.TxHash := by
    unfold VerifyEVMOutTxBody
    cases hd : lib.EvmUnmarshalBinary txBytes with
    | none => simp
    | some txx =>
      cases hs : lib.EvmSender txx with
      | none => simp [hs]
      | some sender =>
        simp only [Option.some.injEq, exists_eq_left', hs]
        by_cases h0 : lib.HexToAddress tssEth = zeroAddress
        · simp [h0]
        · by_cases h1 : sender = lib.HexToAddress tssEth
          · by_cases h2 : txx.ChainId = msg.ChainId
            · by_cases h3 : txx.Nonce = msg.Nonce
              · by_cases h4 : txx.HashHex = msg.TxHash
                · simp [h0, h1, h2, h3, h4]
                · simp [h0, h1, h2, h3, h4]
              · simp [h0, h1, h2, h3]
            · simp [h0, h1, h2]
          · simp [h0, h1]
  refine ⟨hiff, ?_⟩
  intro txx sender hd hs hne
  cases hr : VerifyEVMOutTxBody lib msg txBytes tssEth with
  | error e => exact ⟨e, rfl⟩
  | ok u =>
    exfalso
    obtain ⟨txx1, hd1, hs1, h0, h2, h3, h4⟩ := hiff.mp hr
    rw [hd] at hd1
    cases hd1
    rw [hs] at hs1
    cases hs1
    rcases hne with h | h | h | h | h
    · exact h rfl
    · exact h0 h
    · exact h h2
    · exact h h3
    · exact h h4

/-- C22, under `exampleLib`: a body of 7 bytes decodes to chain 5, nonce 7 and
hash `0xCD`, sent by the TSS address; the message of nonce 7 passes, the one of
nonce 8 does not. -/
theorem VerifyEVMOutTxBody_nil_iff_witness :
    VerifyEVMOutTxBody exampleLib { exampleMsg with TxHash := "0xCD" }
        [0, 0, 0, 0, 0, 0, 0] "0x01" = .ok ()
    ∧ ∃ e, VerifyEVMOutTxBody exampleLib { exampleMsg with TxHash := "0xCD", Nonce := 8 }
        [0, 0, 0, 0, 0, 0, 0] "0x01" = .error e :=
  ⟨(VerifyEVMOutTxBody_nil_iff exampleLib { exampleMsg with TxHash := "0xCD" }
      [0, 0, 0, 0, 0, 0, 0] "0x01").1.mpr
      ⟨_, rfl, rfl, by decide, rfl, rfl, rfl⟩,
   (VerifyEVMOutTxBody_nil_iff exampleLib { exampleMsg with TxHash := "0xCD", Nonce := 8 }
      [0, 0, 0, 0, 0, 0, 0] "0x01").2 _ _ rfl rfl (Or.inr (Or.inr (Or.inr (Or.inl (by decide)))))⟩

/-! ## CreateNewCCTX -/

/-- C24: CreateNewCCTX returns a CCTX with the given index and status that has
exactly one outbound entry, which is its current outbound: Receiver, gas limit
and coin type are those of the message, ReceiverChainId and TssPubkey are the
arguments, amount and TSS nonce are 0 and the hash is empty; the inbound
TxOrigin is the TxOrigin of the message, or its Sender when the TxOrigin is
empty. -/
theorem CreateNewCCTX_spec (ctx : Ctx) (msg : MsgVoteOnObservedInboundTx)
    (index tssPubkey : String) (s : CctxStatus) (senderChainID receiverChainID : Int) :
    (CreateNewCCTX ctx msg index tssPubkey s senderChainID receiverChainID).Index = index
    ∧ (CreateNewCCTX ctx msg index tssPubkey s senderChainID
        receiverChainID).CctxStatus.Status = s
    ∧ (∃ o, (CreateNewCCTX ctx msg index tssPubkey s senderChainID
          receiverChainID).OutboundTxParams = [o]
        ∧ GetCurrentOutTxParam (CreateNewCCTX ctx msg index tssPubkey s senderChainID
            receiverChainID) = o
        ∧ o.Receiver = msg.Receiver ∧ o.OutboundTxGasLimit = msg.GasLimit
        ∧ o.CoinType = msg.CoinType ∧ o.ReceiverChainId = receiverChainID
        ∧ o.TssPubkey = tssPubkey ∧ o.Amount = 0 ∧ o.OutboundTxTssNonce = 0
        ∧ o.OutboundTxHash = "")
    ∧ (msg.TxOrigin ≠ "" →
        (CreateNewCCTX ctx msg index tssPubkey s senderChainID
          receiverChainID).InboundTxParams.TxOrigin = msg.TxOrigin)
    ∧ (msg.TxOrigin = "" →
        (CreateNewCCTX ctx msg index tssPubkey s senderChainID
          receiverChainID).InboundTxParams.TxOrigin = msg.Sender) := by
  by_cases h : msg.TxOrigin = ""
  · simp [CreateNewCCTX, GetCurrentOutTxParam, h]
  · simp [CreateNewCCTX, GetCurrentOutTxParam, h]

/-- C24, on the example vote with its TxOrigin emptied: the CCTX opened for it
has the sender `0x95` as TxOrigin. -/
theorem CreateNewCCTX_spec_witness :
    ({ exampleVote "zeta1observer" 1 with TxOrigin := "" } : MsgVoteOnObservedInboundTx).TxOrigin
      = ""
    ∧ (CreateNewCCTX exampleBase { exampleVote "zeta1observer" 1 with TxOrigin := "" } "idx"
        "tss" CctxStatus.PendingInbound 1337 101).InboundTxParams.TxOrigin = "0x95" :=
  ⟨rfl,
   (CreateNewCCTX_spec exampleBase { exampleVote "zeta1observer" 1 with TxOrigin := "" } "idx"
      "tss" CctxStatus.PendingInbound 1337 101).2.2.2.2 rfl⟩

/-! ## calcBlockRangeToScan -/

/-- C25: for `uint64` arguments whose sum `lastScanned + batchSize` does not
overflow, calcBlockRangeToScan returns `lastScanned + 1` (as a `uint64`; the
sum itself as soon as `batchSize ≥ 1`) and the smaller of
`lastScanned + batchSize` and `latestConfirmed`; so for
`lastScanned < latestConfirmed` and `batchSize ≥ 1` the window is not empty,
ends at or before `latestConfirmed` and holds at most `batchSize` blocks. -/
theorem calcBlockRangeToScan_window (latestConfirmed lastScanned batchSize : Nat)
    (hsum : lastScanned + batchSize < 2 ^ 64) :
    calcBlockRangeToScan latestConfirmed lastScanned batchSize
      = ((lastScanned + 1) % 2 ^ 64, min (lastScanned + batchSize) latestConfirmed)
    ∧ (1 ≤ batchSize →
        calcBlockRangeToScan latestConfirmed lastScanned batchSize
          = (lastScanned + 1, min (lastScanned + batchSize) latestConfirmed))
    ∧ (lastScanned < latestConfirmed → 1 ≤ batchSize →
        (calcBlockRangeToScan latestConfirmed lastScanned batchSize).1
          ≤ (calcBlockRangeToScan latestConfirmed lastScanned batchSize).2
        ∧ (calcBlockRangeToScan latestConfirmed lastScanned batchSize).2 ≤ latestConfirmed
        ∧ (calcBlockRangeToScan latestConfirmed lastScanned batchSize).2 + 1
            - (calcBlockRangeToScan latestConfirmed lastScanned batchSize).1 ≤ batchSize) := by
  have h1 : calcBlockRangeToScan latestConfirmed lastScanned batchSize
      = ((lastScanned + 1) % 2 ^ 64, min (lastScanned + batchSize) latestConfirmed) := by
    unfold calcBlockRangeToScan addU64
    rw [Nat.mod_eq_of_lt hsum]
    simp only
    split
    · rw [Nat.min_eq_right (by omega)]
    · rw [Nat.min_eq_left (by omega)]
  have h2 : 1 ≤ batchSize →
      calcBlockRangeToScan latestConfirmed lastScanned batchSize
        = (lastScanned + 1, min (lastScanned + batchSize) latestConfirmed) := by
    intro hb
    rw [h1, Nat.mod_eq_of_lt (by omega)]
  refine ⟨h1, h2, ?_⟩
  intro hlt hb
  rw [h2 hb]
  simp only
  omega

/-- C25, at the cursor 10 with confirmed height 18 and batches of 100: the
window is 11 to 18. -/
theorem calcBlockRangeToScan_window_witness :
    10 + 100 < 2 ^ 64 ∧ calcBlockRangeToScan 18 10 100 = (11, 18) :=
  ⟨by decide, ((calcBlockRangeToScan_window 18 10 100 (by decide)).2.1 (by decide)).trans rfl⟩

/-! ## Order of the events in the extractors -/

theorem eventLess_false_iff (a b : ContractEvent) : eventLess b a = false ↔ eventLe a b := by
  unfold eventLess eventLe
  by_cases h1 : b.Raw.BlockNumber = a.Raw.BlockNumber
  · by_cases h2 : b.Raw.TxIndex = a.Raw.TxIndex
    · rw [if_pos h1, if_pos h2, decide_eq_false_iff_not]
      constructor <;> intro h <;> omega
    · rw [if_pos h1, if_neg h2, decide_eq_false_iff_not]
      constructor <;> intro h <;> omega
  · rw [if_neg h1, decide_eq_false_iff_not]
    constructor <;> intro h <;> omega

theorem eventLe_total (a b : ContractEvent) : eventLe a b ∨ eventLe b a := by
  unfold eventLe
  omega

theorem eventLe_trans (a b c : ContractEvent) (h1 : eventLe a b) (h2 : eventLe b c) :
    eventLe a c := by
  unfold eventLe at *
  omega

theorem sortEvents_pairwise (events : List ContractEvent) :
    List.Pairwise eventLe (sortEvents events) := by
  haveI : IsTotal ContractEvent (fun a b => eventLess b a = false) :=
    ⟨fun a b => by
      rcases eventLe_total a b with h | h
      · exact Or.inl ((eventLess_false_iff a b).mpr h)
      · exact Or.inr ((eventLess_false_iff b a).mpr h)⟩
  haveI : IsTrans ContractEvent (fun a b => eventLess b a = false) :=
    ⟨fun a b c h1 h2 => (eventLess_false_iff a c).mpr
      (eventLe_trans a b c ((eventLess_false_iff a b).mp h1) ((eventLess_false_iff b c).mp h2))⟩
  have h := List.sorted_insertionSort (fun a b : ContractEvent => eventLess b a = false) events
  exact List.Pairwise.imp (fun {a b} hab => (eventLess_false_iff a b).mp hab) h

theorem observeZetaSentEvents_calls (w : EvmWorld) (events : List ContractEvent) :
    ∀ (ob : ChainClient) (beingScanned : Nat) (guard : List String),
      ∃ voted, List.Sublist voted events
        ∧ (observeZetaSentEvents w ob events beingScanned guard).1.calls
            = ob.calls ++ voted.filterMap (fun e =>
                (w.BuildInboundVoteMsgForZetaSentEvent e).map (fun msg =>
                  Call.postVoteInbound msg CoinType.Zeta
                    w.PostVoteInboundMessagePassingExecutionGasLimit)) := by
  induction events with
  | nil => intro ob b g; exact ⟨[], List.Sublist.slnil, by simp [observeZetaSentEvents]⟩
  | cons e rest ih =>
    intro ob b g
    unfold observeZetaSentEvents
    simp only
    split
    · obtain ⟨voted, hs, hc⟩ := ih ob
        (if e.Raw.BlockNumber > b then e.Raw.BlockNumber else b) g
      exact ⟨voted, List.Sublist.cons e hs, hc⟩
    · split
      · obtain ⟨voted, hs, hc⟩ := ih ob
          (if e.Raw.BlockNumber > b then e.Raw.BlockNumber else b) (e.Raw.TxHash :: g)
        exact ⟨voted, List.Sublist.cons e hs, hc⟩
      · rename_i msg hmsg
        split
        · obtain ⟨voted, hs, hc⟩ := ih
            { ob with calls := ob.calls ++ [Call.postVoteInbound msg CoinType.Zeta
                w.PostVoteInboundMessagePassingExecutionGasLimit] }
            (if e.Raw.BlockNumber > b then e.Raw.BlockNumber else b) (e.Raw.TxHash :: g)
          refine ⟨e :: voted, List.Sublist.cons₂ e hs, ?_⟩
          rw [hc, List.filterMap_cons_some (by rw [hmsg]; rfl)]
          simp
        · refine ⟨[e], List.Sublist.cons₂ e (List.nil_sublist rest), ?_⟩
          rw [List.filterMap_cons_some (by rw [hmsg]; rfl)]
          simp

theorem observeERC20DepositedEvents_calls (w : EvmWorld) (events : List ContractEvent) :
    ∀ (ob : ChainClient) (beingScanned : Nat) (guard : List String),
      ∃ voted, List.Sublist voted events
        ∧ (observeERC20DepositedEvents w ob events beingScanned guard).1.calls
            = ob.calls ++ voted.filterMap (fun e =>
                (ChainClient.TransactionByHash w e.Raw.TxHash).bind (fun tx =>
                  (w.BuildInboundVoteMsgForDepositedEvent e (w.HexToAddress tx.From)).map
                    (fun msg => Call.postVoteInbound msg CoinType.ERC20
                      w.PostVoteInboundExecutionGasLimit))) := by
  induction events with
  | nil => intro ob b g; exact ⟨[], List.Sublist.slnil, by simp [observeERC20DepositedEvents]⟩
  | cons e rest ih =>
    intro ob b g
    unfold observeERC20DepositedEvents
    simp only
    split
    · exact ⟨[], List.nil_sublist _, by simp⟩
    · rename_i tx htx
      split
      · obtain ⟨voted, hs, hc⟩ := ih ob
          (if e.Raw.BlockNumber > b then e.Raw.BlockNumber else b) g
        exact ⟨voted, List.Sublist.cons e hs, hc⟩
      · split
        · obtain ⟨voted, hs, hc⟩ := ih ob
            (if e.Raw.BlockNumber > b then e.Raw.BlockNumber else b) (e.Raw.TxHash :: g)
          exact ⟨voted, List.Sublist.cons e hs, hc⟩
        · rename_i msg hmsg
          split
          · obtain ⟨voted, hs, hc⟩ := ih
              { ob with calls := ob.calls ++ [Call.postVoteInbound msg CoinType.ERC20
                  w.PostVoteInboundExecutionGasLimit] }
              (if e.Raw.BlockNumber > b then e.Raw.BlockNumber else b) (e.Raw.TxHash :: g)
            refine ⟨e :: voted, List.Sublist.cons₂ e hs, ?_⟩
            rw [hc, List.filterMap_cons_some (by rw [htx, Option.bind, hmsg]; rfl)]
            simp
          · refine ⟨[e], List.Sublist.cons₂ e (List.nil_sublist rest), ?_⟩
            rw [List.filterMap_cons_some (by rw [htx, Option.bind, hmsg]; rfl)]
            simp

/-- C26: the list that observeZetaSent and observeERC20Deposited sort is, after
the sort, a permutation of the validated events in which every event is at or
before every later one, and so every two consecutive ones, in the ascending
lexicographic order of (block number, transaction index, log index); and the
votes an extractor posts are those of a sublist of this sorted list, in its
order. -/
theorem sortEvents_ascending_permutation (w : EvmWorld) (ob : ChainClient)
    (startBlock toBlock : Nat) (events : List ContractEvent) :
    List.Perm (sortEvents events) events
    ∧ List.Pairwise eventLe (sortEvents events)
    ∧ List.Chain' eventLe (sortEvents events)
    ∧ (∀ iter, w.ConnectorContractOk = true → w.FilterZetaSent startBlock toBlock = some iter →
        ∃ voted,
          List.Sublist voted (sortEvents (iter.filter (fun e =>
            w.ValidateEvmTxLog e.Raw (w.HexToAddress w.chainParams.ConnectorContractAddress) ""
              TopicsKind.ZetaSent)))
          ∧ (observeZetaSent w ob startBlock toBlock).1.calls
              = ob.calls ++ Call.observeZetaSent startBlock toBlock
                  :: voted.filterMap (fun e =>
                      (w.BuildInboundVoteMsgForZetaSentEvent e).map (fun msg =>
                        Call.postVoteInbound msg CoinType.Zeta
                          w.PostVoteInboundMessagePassingExecutionGasLimit)))
    ∧ (∀ iter, w.ERC20CustodyContractOk = true →
        w.FilterDeposited startBlock toBlock = some iter →
        ∃ voted,
          List.Sublist voted (sortEvents (iter.filter (fun e =>
            w.ValidateEvmTxLog e.Raw
              (w.HexToAddress w.chainParams.Erc20CustodyContractAddress) ""
              TopicsKind.Deposited)))
          ∧ (observeERC20Deposited w ob startBlock toBlock).1.calls
              = ob.calls ++ Call.observeERC20Deposited startBlock toBlock
                  :: voted.filterMap (fun e =>
                      (ChainClient.TransactionByHash w e.Raw.TxHash).bind (fun tx =>
                        (w.BuildInboundVoteMsgForDepositedEvent e
                            (w.HexToAddress tx.From)).map
                          (fun msg => Call.postVoteInbound msg CoinType.ERC20
                            w.PostVoteInboundExecutionGasLimit)))) := by
  refine ⟨List.perm_insertionSort _ events, sortEvents_pairwise events,
    (sortEvents_pairwise events).chain', ?_, ?_⟩
  · intro iter hok hfilter
    obtain ⟨voted, hs, hc⟩ := observeZetaSentEvents_calls w
      (sortEvents (iter.filter (fun e =>
        w.ValidateEvmTxLog e.Raw (w.HexToAddress w.chainParams.ConnectorContractAddress) ""
          TopicsKind.ZetaSent)))
      { ob with calls := ob.calls ++ [Call.observeZetaSent startBlock toBlock] } 0 []
    refine ⟨voted, hs, ?_⟩
    unfold observeZetaSent
    simp only [hok, hfilter, Bool.not_true, Bool.false_eq_true, if_false]
    split
    · rename_i h
      have h1 := congrArg (fun r : ChainClient × Option Nat => r.1.calls) h
      simp only at h1
      rw [← h1, hc]
      simp
    · rename_i h
      have h1 := congrArg (fun r : ChainClient × Option Nat => r.1.calls) h
      simp only at h1
      rw [← h1, hc]
      simp
  · intro iter hok hfilter
    obtain ⟨voted, hs, hc⟩ := observeERC20DepositedEvents_calls w
      (sortEvents (iter.filter (fun e =>
        w.ValidateEvmTxLog e.Raw (w.HexToAddress w.chainParams.Erc20CustodyContractAddress) ""
          TopicsKind.Deposited)))
      { ob with calls := ob.calls ++ [Call.observeERC20Deposited startBlock toBlock] } 0 []
    refine ⟨voted, hs, ?_⟩
    unfold observeERC20Deposited
    simp only [hok, hfilter, Bool.not_true, Bool.false_eq_true, if_false]
    split
    · rename_i h
      have h1 := congrArg (fun r : ChainClient × Option Nat => r.1.calls) h
      simp only at h1
      rw [← h1, hc]
      simp
    · rename_i h
      have h1 := congrArg (fun r : ChainClient × Option Nat => r.1.calls) h
      simp only at h1
      rw [← h1, hc]
      simp

/-- C26, on three events given out of order. -/
theorem sortEvents_ascending_permutation_witness :
    sortEvents [exampleEvent 12 0 1, exampleEvent 11 3 0, exampleEvent 12 0 0]
      = [exampleEvent 11 3 0, exampleEvent 12 0 0, exampleEvent 12 0 1]
    ∧ List.Chain' eventLe
        (sortEvents [exampleEvent 12 0 1, exampleEvent 11 3 0, exampleEvent 12 0 0]) :=
  ⟨by decide,
   (sortEvents_ascending_permutation exampleWorld exampleClient 11 18
      [exampleEvent 12 0 1, exampleEvent 11 3 0, exampleEvent 12 0 0]).2.2.1⟩

/-! ## AddToOutTxTracker: a proof that verifies -/

theorem markProved_proved (lib : Lib) (txHash : String) (l : List TxHashList)
    (h : isDupHash lib txHash l = true) :
    ∃ e, e ∈ markProved lib txHash l ∧ lib.EqualFold e.TxHash txHash = true
      ∧ e.Proved = true := by
  induction l with
  | nil => simp [isDupHash] at h
  | cons hash rest ih =>
    unfold isDupHash at h
    unfold markProved
    by_cases hf : lib.EqualFold hash.TxHash txHash = true
    · rw [if_pos hf]
      exact ⟨{ hash with Proved := true }, List.mem_cons_self _ _, hf, rfl⟩
    · rw [if_neg hf] at h
      rw [if_neg hf]
      obtain ⟨e, he, h1, h2⟩ := ih h
      exact ⟨e, List.mem_cons_of_mem _ he, h1, h2⟩

/-- When a tracker is stored for (chainId, nonce), a message with a proof that
verifies on a pending CCTX leaves a tracker with an entry that is proved and
whose hash is the hash of the message, or equals it ignoring case. -/
theorem AddToOutTxTracker_existing_tracker_proved (lib : Lib) (ctx : Ctx)
    (msg : MsgAddToOutTxTracker) (chain : Chain) (cctx : CrossChainTx) (tracker : OutTxTracker)
    (hchain : GetSupportedChainFromChainID ctx msg.ChainId = some chain)
    (hcctx : CctxByNonce ctx msg.ChainId msg.Nonce = .ok (some cctx))
    (hpending : IsPending cctx = true)
    (hproof : checkProof lib ctx msg = .ok true)
    (htracker : GetOutTxTracker ctx msg.ChainId msg.Nonce = some tracker) :
    ∃ t1 e, GetOutTxTracker (AddToOutTxTracker lib ctx msg).1 msg.ChainId msg.Nonce = some t1
      ∧ e ∈ t1.HashList ∧ e.Proved = true
      ∧ (e.TxHash = msg.TxHash ∨ lib.EqualFold e.TxHash msg.TxHash = true) := by
  have hk := GetOutTxTracker_key ctx _ _ tracker htracker
  have hsome : msg.Proof.isNone = false := by
    cases hp : msg.Proof with
    | none => simp [checkProof, hp] at hproof
    | some _ => rfl
  by_cases hdup : isDupHash lib msg.TxHash tracker.HashList = true
  · have hrun : AddToOutTxTracker lib ctx msg =
        (SetOutTxTracker ctx
          { tracker with HashList := markProved lib msg.TxHash tracker.HashList },
         .ok { IsRemoved := false }) := by
      unfold AddToOutTxTracker
      simp [hchain, hcctx, hpending, hsome, hproof, htracker, hdup]
    obtain ⟨e, he, h1, h2⟩ := markProved_proved lib msg.TxHash tracker.HashList hdup
    rw [hrun]
    exact ⟨_, e, GetOutTxTracker_SetOutTxTracker _ _ _ _
      (by simpa [OutTxTracker.key] using hk), he, h2, Or.inr h1⟩
  · have hrun : AddToOutTxTracker lib ctx msg =
        (SetOutTxTracker ctx
          { tracker with HashList :=
              { TxHash := msg.TxHash, TxSigner := msg.Creator, Proved := true }
                :: tracker.HashList },
         .ok { IsRemoved := false }) := by
      unfold AddToOutTxTracker
      simp [hchain, hcctx, hpending, hsome, hproof, htracker, hdup]
    rw [hrun]
    exact ⟨_, _, GetOutTxTracker_SetOutTxTracker _ _ _ _
      (by simpa [OutTxTracker.key] using hk), List.mem_cons_self _ _, rfl, Or.inl rfl⟩

/-- C27 fails when no tracker is stored: on `exampleNoTrackerCtx` the CCTX of
(chain 5, nonce 7) is pending and no tracker exists; the message
`exampleProofMsg` carries a proof that verifies (VerifyProof and
VerifyOutTxBody succeed); the call succeeds and the tracker stored afterwards
holds the hash of the message with Proved = false, and no other entry. -/
theorem AddToOutTxTracker_new_tracker_not_proved :
    checkProof exampleLib exampleNoTrackerCtx exampleProofMsg = .ok true
    ∧ GetOutTxTracker exampleNoTrackerCtx 5 7 = none
    ∧ (AddToOutTxTracker exampleLib exampleNoTrackerCtx exampleProofMsg).2
        = .ok { IsRemoved := false }
    ∧ GetOutTxTracker (AddToOutTxTracker exampleLib exampleNoTrackerCtx exampleProofMsg).1 5 7
        = some { Index := "", ChainId := 5, Nonce := 7,
                 HashList := [{ TxHash := "0xCD", TxSigner := "mallory", Proved := false }] }
    ∧ GetOutTxTracker
        (AddToOutTxTracker exampleLib (exampleCtx CctxStatus.PendingOutbound)
          exampleProofMsg).1 5 7
        = some { Index := "", ChainId := 5, Nonce := 7,
                 HashList := [{ TxHash := "0xCD", TxSigner := "mallory", Proved := true },
                              { TxHash := "0xab", TxSigner := "obs", Proved := false }] } := by
  refine ⟨by decide, by decide, by decide, by decide, by decide⟩

/-! ## AbortStuckCCTX: what it leaves -/

theorem AbortStuckCCTX_success_run (ctx : Ctx) (msg : MsgAbortStuckCCTX)
    (hok : (AbortStuckCCTX ctx msg).2 = .ok ()) :
    ∃ c, GetCrossChainTx ctx msg.CctxIndex = some c
      ∧ AbortStuckCCTX ctx msg =
          (SetCrossChainTx ctx
            { c with CctxStatus :=
                { Status := CctxStatus.Aborted, StatusMessage := AbortMessage,
                  LastUpdateTimestamp := 0, IsAbortRefunded := false } }, .ok ()) := by
  unfold AbortStuckCCTX at hok ⊢
  split at hok
  · simp at hok
  · rename_i hauth
    rw [if_neg hauth]
    cases hget : GetCrossChainTx ctx msg.CctxIndex with
    | none => rw [hget] at hok; simp at hok
    | some c =>
      rw [hget] at hok
      simp only at hok ⊢
      split at hok
      · simp at hok
      · rename_i hp
        rw [if_neg hp]
        exact ⟨c, rfl, rfl⟩

/-- C28, as stated, fails: the example CCTX pending outbound has
LastUpdateTimestamp 9; after the admin has aborted it, the CCTX stored under
its index has LastUpdateTimestamp 0. -/
theorem AbortStuckCCTX_resets_timestamp :
    (GetCrossChainTx (exampleCtx CctxStatus.PendingOutbound) "idx1").map
        (fun c => c.CctxStatus.LastUpdateTimestamp) = some 9
    ∧ (AbortStuckCCTX (exampleCtx CctxStatus.PendingOutbound)
        { Creator := "admin", CctxIndex := "idx1" }).2 = .ok ()
    ∧ (GetCrossChainTx (AbortStuckCCTX (exampleCtx CctxStatus.PendingOutbound)
        { Creator := "admin", CctxIndex := "idx1" }).1 "idx1").map
        (fun c => c.CctxStatus.LastUpdateTimestamp) = some 0 := by
  refine ⟨by decide, by decide, by decide⟩

/-- C28, amended: a successful AbortStuckCCTX replaces the status record of the
CCTX by (Aborted, "CCTX aborted with admin cmd", LastUpdateTimestamp 0,
IsAbortRefunded false) and leaves every other field of the stored CCTX as it
was (creator, index, ZetaFees, RelayedMessage, inbound parameters, outbound
entries); no other CCTX is modified and no other store is written. -/
theorem AbortStuckCCTX_frame (ctx : Ctx) (msg : MsgAbortStuckCCTX)
    (hok : (AbortStuckCCTX ctx msg).2 = .ok ()) :
    ∃ c, GetCrossChainTx ctx msg.CctxIndex = some c
      ∧ GetCrossChainTx (AbortStuckCCTX ctx msg).1 msg.CctxIndex
          = some { c with CctxStatus :=
                    { Status := CctxStatus.Aborted, StatusMessage := AbortMessage,
                      LastUpdateTimestamp := 0, IsAbortRefunded := false } }
      ∧ (∀ index, index ≠ msg.CctxIndex →
          GetCrossChainTx (AbortStuckCCTX ctx msg).1 index = GetCrossChainTx ctx index)
      ∧ (AbortStuckCCTX ctx msg).1
          = { ctx with cctxs := (AbortStuckCCTX ctx msg).1.cctxs } := by
  obtain ⟨c, hget, hrun⟩ := AbortStuckCCTX_success_run ctx msg hok
  have hidx : c.Index = msg.CctxIndex := GetCrossChainTx_index ctx msg.CctxIndex c hget
  refine ⟨c, hget, ?_, ?_, ?_⟩
  · rw [hrun]
    have := GetCrossChainTx_SetCrossChainTx ctx
      { c with CctxStatus :=
          { Status := CctxStatus.Aborted, StatusMessage := AbortMessage,
            LastUpdateTimestamp := 0, IsAbortRefunded := false } }
    simpa [hidx] using this
  · intro index hne
    rw [hrun]
    unfold GetCrossChainTx SetCrossChainTx
    exact storeGet_storeSet_ne CrossChainTx.Index ctx.cctxs _ index
      (by simpa [hidx] using hne)
  · rw [hrun]
    rfl

/-- C28, amended, at the example CCTX pending outbound. -/
theorem AbortStuckCCTX_frame_witness :
    (AbortStuckCCTX (exampleCtx CctxStatus.PendingOutbound)
        { Creator := "admin", CctxIndex := "idx1" }).2 = .ok ()
    ∧ ∃ c, GetCrossChainTx (exampleCtx CctxStatus.PendingOutbound) "idx1" = some c
      ∧ GetCrossChainTx (AbortStuckCCTX (exampleCtx CctxStatus.PendingOutbound)
          { Creator := "admin", CctxIndex := "idx1" }).1 "idx1"
          = some { c with CctxStatus :=
                    { Status := CctxStatus.Aborted, StatusMessage := AbortMessage,
                      LastUpdateTimestamp := 0, IsAbortRefunded := false } } := by
  obtain ⟨c, h1, h2, _⟩ := AbortStuckCCTX_frame (exampleCtx CctxStatus.PendingOutbound)
    { Creator := "admin", CctxIndex := "idx1" } (by decide)
  exact ⟨by decide, c, h1, h2⟩

/-! ## VerifyEVMInTxBody -/

theorem VerifyEVMInTxBody_contract_creation (lib : Lib) (ctx : Ctx) (msg : MsgAddToInTxTracker)
    (txBytes : Bytes) (txx : EvmTx)
    (hdecode : lib.EvmUnmarshalBinary txBytes = some txx)
    (hhash : txx.HashHex = msg.TxHash) (hchain : txx.ChainId = msg.ChainId)
    (hto : txx.To = none) :
    (msg.CoinType = CoinType.Zeta → (ctx.chainParamsByChainID msg.ChainId).isSome = true →
      VerifyEVMInTxBody lib ctx msg txBytes = BodyCheck.nilDereference)
    ∧ (msg.CoinType = CoinType.ERC20 → (ctx.chainParamsByChainID msg.ChainId).isSome = true →
      VerifyEVMInTxBody lib ctx msg txBytes = BodyCheck.nilDereference)
    ∧ (msg.CoinType = CoinType.Gas →
      ∀ tss, ctx.tssAddress msg.ChainId = some tss → lib.HexToAddress tss.Eth ≠ zeroAddress →
      VerifyEVMInTxBody lib ctx msg txBytes = BodyCheck.nilDereference) := by
  refine ⟨?_, ?_, ?_⟩
  · intro hc hp
    cases hcp : ctx.chainParamsByChainID msg.ChainId with
    | none => rw [hcp] at hp; simp at hp
    | some cp => simp [VerifyEVMInTxBody, hdecode, hhash, hchain, hto, hc, hcp]
  · intro hc hp
    cases hcp : ctx.chainParamsByChainID msg.ChainId with
    | none => rw [hcp] at hp; simp at hp
    | some cp => simp [VerifyEVMInTxBody, hdecode, hhash, hchain, hto, hc, hcp]
  · intro hc tss ht hz
    simp [VerifyEVMInTxBody, hdecode, hhash, hchain, hto, hc, ht, hz]

/-- C29 fails on a contract creation: under `exampleLib` a body decodes to a
transaction of chain 5 with hash `0xCD` and no recipient; on `exampleBase`,
where the chain params of chain 5 and a non-zero TSS address are found, the
body check of a message with that hash and chain id dereferences the missing
recipient for the coin types Zeta, ERC20 and Gas; only for Cmd does it return
an error. -/
theorem VerifyEVMInTxBody_nil_recipient :
    exampleLib.EvmUnmarshalBinary []
        = some { ChainId := 5, Nonce := 0, HashHex := "0xCD", To := none }
    ∧ VerifyEVMInTxBody exampleLib exampleBase (exampleInTxMsg CoinType.Zeta) []
        = BodyCheck.nilDereference
    ∧ VerifyEVMInTxBody exampleLib exampleBase (exampleInTxMsg CoinType.ERC20) []
        = BodyCheck.nilDereference
    ∧ VerifyEVMInTxBody exampleLib exampleBase (exampleInTxMsg CoinType.Gas) []
        = BodyCheck.nilDereference
    ∧ VerifyEVMInTxBody exampleLib exampleBase (exampleInTxMsg CoinType.Cmd) []
        = BodyCheck.error "coin type not supported" := by
  refine ⟨by decide, by decide, by decide, by decide, by decide⟩

/-! ## FinalizedInboundKey -/

theorem digitChar_digit : ∀ k, k < 10 →
    (Nat.digitChar k).isDigit = true ∧ (Nat.digitChar k).toNat - 48 = k := by
  decide

theorem digitsVal_append_singleton (pre : List Char) (d : Char) :
    digitsVal (pre ++ [d]) = 10 * digitsVal pre + (d.toNat - 48) := by
  unfold digitsVal
  rw [List.foldl_append]
  rfl

theorem toDigitsCore_spec (fuel : Nat) :
    ∀ (n : Nat) (ds : List Char), n < fuel →
      ∃ pre, Nat.toDigitsCore 10 fuel n ds = pre ++ ds ∧ pre ≠ []
        ∧ (∀ c ∈ pre, c.isDigit = true) ∧ digitsVal pre = n := by
  induction fuel with
  | zero => intro n ds h; omega
  | succ fuel ih =>
    intro n ds h
    have hd := digitChar_digit (n % 10) (Nat.mod_lt _ (by decide))
    by_cases h0 : n / 10 = 0
    · refine ⟨[Nat.digitChar (n % 10)], ?_, by simp, ?_, ?_⟩
      · simp [Nat.toDigitsCore, h0]
      · intro c hc
        rw [List.mem_singleton] at hc
        rw [hc]; exact hd.1
      · have := digitsVal_append_singleton [] (Nat.digitChar (n % 10))
        simp only [List.nil_append] at this
        rw [this, hd.2]
        simp only [digitsVal, List.foldl_nil]
        omega
    · obtain ⟨pre, hp, _, hdig, hval⟩ := ih (n / 10) (Nat.digitChar (n % 10) :: ds) (by omega)
      refine ⟨pre ++ [Nat.digitChar (n % 10)], ?_, by simp, ?_, ?_⟩
      · simp [Nat.toDigitsCore, h0, hp]
      · intro c hc
        rw [List.mem_append, List.mem_singleton] at hc
        rcases hc with hc | hc
        · exact hdig c hc
        · rw [hc]; exact hd.1
      · rw [digitsVal_append_singleton, hval, hd.2]
        omega

theorem natRepr_spec (n : Nat) :
    (toString n).data ≠ [] ∧ (∀ c ∈ (toString n).data, c.isDigit = true)
      ∧ digitsVal (toString n).data = n := by
  obtain ⟨pre, hp, hne, hdig, hval⟩ := toDigitsCore_spec (n + 1) n [] (by omega)
  have hdata : (toString n).data = pre := by
    show Nat.toDigits 10 n = pre
    unfold Nat.toDigits
    rw [hp, List.append_nil]
  rw [hdata]
  exact ⟨hne, hdig, hval⟩

theorem natRepr_injective (a b : Nat) (h : (toString a).data = (toString b).data) : a = b := by
  have ha := (natRepr_spec a).2.2
  have hb := (natRepr_spec b).2.2
  rw [h] at ha
  omega

theorem intRepr_cases (i : Int) :
    (∃ n : Nat, i = Int.ofNat n ∧ (toString i).data = (toString n).data)
    ∨ (∃ n : Nat, i = Int.negSucc n ∧ (toString i).data = '-' :: (toString (n + 1)).data) := by
  cases i with
  | ofNat n => exact Or.inl ⟨n, rfl, rfl⟩
  | negSucc n =>
    refine Or.inr ⟨n, rfl, ?_⟩
    show ("-" ++ toString (n + 1)).data = _
    rw [String.data_append]
    rfl

theorem intRepr_form (i : Int) :
    (toString i).data ≠ [] ∧ ∀ c ∈ (toString i).data.tail, c.isDigit = true := by
  rcases intRepr_cases i with ⟨n, _, h⟩ | ⟨n, _, h⟩
  · rw [h]
    exact ⟨(natRepr_spec n).1, fun c hc => (natRepr_spec n).2.1 c (List.mem_of_mem_tail hc)⟩
  · rw [h]
    exact ⟨by simp, fun c hc => (natRepr_spec (n + 1)).2.1 c (by simpa using hc)⟩

theorem intRepr_injective (a b : Int) (h : (toString a).data = (toString b).data) : a = b := by
  have hdash : ('-' : Char).isDigit = false := by decide
  rcases intRepr_cases a with ⟨n, hn, ha⟩ | ⟨n, hn, ha⟩ <;>
    rcases intRepr_cases b with ⟨m, hm, hb⟩ | ⟨m, hm, hb⟩
  · rw [ha, hb] at h
    rw [hn, hm, natRepr_injective n m h]
  · exfalso
    rw [ha, hb] at h
    have h1 := (natRepr_spec n).2.1 '-' (by rw [h]; exact List.mem_cons_self _ _)
    rw [hdash] at h1
    exact Bool.noConfusion h1
  · exfalso
    rw [ha, hb] at h
    have h1 := (natRepr_spec m).2.1 '-' (by rw [← h]; exact List.mem_cons_self _ _)
    rw [hdash] at h1
    exact Bool.noConfusion h1
  · rw [ha, hb] at h
    have h1 := natRepr_injective (n + 1) (m + 1) (List.tail_eq_of_cons_eq h)
    rw [hn, hm]
    congr 1
    omega

theorem dash_prefix_split (l1 l2 r1 r2 : List Char)
    (h1 : l1 ≠ []) (h2 : l2 ≠ [])
    (d1 : ∀ c ∈ l1.tail, c.isDigit = true) (d2 : ∀ c ∈ l2.tail, c.isDigit = true)
    (h : l1 ++ '-' :: r1 = l2 ++ '-' :: r2) : l1 = l2 ∧ r1 = r2 := by
  have hdash : ('-' : Char).isDigit = false := by decide
  have key : ∀ (a b ra rb : List Char), a ≠ [] → (∀ c ∈ b.tail, c.isDigit = true) →
      ∀ a', b = a ++ a' → '-' :: ra = a' ++ '-' :: rb → a' = [] := by
    intro a b ra rb ha db a' hb hr
    cases a' with
    | nil => rfl
    | cons x a'' =>
      exfalso
      have hx : x = '-' := by
        have := List.head_eq_of_cons_eq hr
        exact this.symm
      cases a with
      | nil => exact ha rfl
      | cons y t =>
        have hmem : '-' ∈ b.tail := by
          rw [hb, hx]
          simp
        have := db '-' hmem
        rw [hdash] at this
        exact Bool.noConfusion this
  rcases List.append_eq_append_iff.mp h with ⟨a', hb, hr⟩ | ⟨c', ha, hr⟩
  · have := key l1 l2 r1 r2 h1 d2 a' hb hr
    subst this
    simp only [List.append_nil, List.nil_append, List.cons.injEq, true_and] at hb hr
    exact ⟨hb.symm, hr⟩
  · have := key l2 l1 r2 r1 h2 d1 c' ha hr
    subst this
    simp only [List.append_nil, List.nil_append, List.cons.injEq, true_and] at ha hr
    exact ⟨ha, hr.symm⟩

theorem dash_suffix_split (l1 l2 d1 d2 : List Char)
    (h1 : ∀ c ∈ d1, c.isDigit = true) (h2 : ∀ c ∈ d2, c.isDigit = true)
    (h : l1 ++ '-' :: d1 = l2 ++ '-' :: d2) : l1 = l2 ∧ d1 = d2 := by
  have hdash : ('-' : Char).isDigit = false := by decide
  have key : ∀ (da db : List Char), (∀ c ∈ da, c.isDigit = true) →
      ∀ a', '-' :: da = a' ++ '-' :: db → a' = [] := by
    intro da db hda a' hr
    cases a' with
    | nil => rfl
    | cons x a'' =>
      exfalso
      have ht : da = a'' ++ '-' :: db := List.tail_eq_of_cons_eq hr
      have := hda '-' (by rw [ht]; simp)
      rw [hdash] at this
      exact Bool.noConfusion this
  rcases List.append_eq_append_iff.mp h with ⟨a', hb, hr⟩ | ⟨c', ha, hr⟩
  · have := key d1 d2 h1 a' hr
    subst this
    simp only [List.append_nil, List.nil_append, List.cons.injEq, true_and] at hb hr
    exact ⟨hb.symm, hr⟩
  · have := key d2 d1 h2 c' hr
    subst this
    simp only [List.append_nil, List.nil_append, List.cons.injEq, true_and] at ha hr
    exact ⟨ha, hr.symm⟩

theorem FinalizedInboundKey_data (intxHash : String) (chainID : Int) (eventIndex : Nat) :
    (FinalizedInboundKey intxHash chainID eventIndex).data
      = (toString chainID).data ++ '-' :: (intxHash.data ++ '-' :: (toString eventIndex).data) := by
  unfold FinalizedInboundKey
  simp only [String.data_append, List.append_assoc]
  rfl

/-- C30: FinalizedInboundKey is injective: two triples (hash, chain id, event
index) with the same key are the same triple, whatever the sign of the chain
ids and whatever characters the hashes hold; two distinct triples have
distinct keys. -/
theorem FinalizedInboundKey_injective (txHash1 txHash2 : String) (chainId1 chainId2 : Int)
    (eventIndex1 eventIndex2 : Nat)
    (h : FinalizedInboundKey txHash1 chainId1 eventIndex1
      = FinalizedInboundKey txHash2 chainId2 eventIndex2) :
    txHash1 = txHash2 ∧ chainId1 = chainId2 ∧ eventIndex1 = eventIndex2 := by
  have hd := congrArg String.data h
  rw [FinalizedInboundKey_data, FinalizedInboundKey_data] at hd
  obtain ⟨hc, hrest⟩ := dash_prefix_split _ _ _ _ (intRepr_form chainId1).1
    (intRepr_form chainId2).1 (intRepr_form chainId1).2 (intRepr_form chainId2).2 hd
  obtain ⟨hh, he⟩ := dash_suffix_split _ _ _ _ (natRepr_spec eventIndex1).2.1
    (natRepr_spec eventIndex2).2.1 hrest
  exact ⟨String.ext hh, intRepr_injective _ _ hc, natRepr_injective _ _ he⟩

/-- C30, on a negative chain id and a hash that holds dashes and digits. -/
theorem FinalizedInboundKey_injective_witness :
    FinalizedInboundKey "0x-1-2" (-5) 3 = "-5-0x-1-2-3"
    ∧ ("0x-1-2" = "0x-1-2" ∧ (-5 : Int) = -5 ∧ 3 = 3) :=
  ⟨by decide, FinalizedInboundKey_injective "0x-1-2" "0x-1-2" (-5) (-5) 3 3 rfl⟩

/-! ## The codec of NonceToCctx -/

theorem or_one_eq (x : Nat) : x ||| 1 = 2 * (x / 2) + 1 := by
  have h1 : (x ||| 1) / 2 = x / 2 := by rw [Nat.or_div_two]; simp
  have h2 : (x ||| 1) % 2 = 1 := by simp
  omega

theorem Len64Loop_le_iff : ∀ (fuel x n : Nat), x < 2 ^ fuel →
    (Len64Loop fuel x ≤ n ↔ x < 2 ^ n)
  | 0, x, n, h => by
    have hx : x = 0 := by simpa using h
    subst hx
    simp [Len64Loop]
  | fuel + 1, x, n, h => by
    unfold Len64Loop
    by_cases hx : x = 0
    · subst hx; simp
    · rw [if_neg hx]
      have hlt : x / 2 < 2 ^ fuel := by
        rw [pow_succ] at h; omega
      cases n with
      | zero => simp; omega
      | succ n =>
        rw [Nat.add_le_add_iff_right, Len64Loop_le_iff fuel (x / 2) n hlt, pow_succ]
        omega

theorem sov_eq (v n : Nat) (hn : 1 ≤ n) (hv : v < 2 ^ 64) (hlt : v < 2 ^ (7 * n))
    (hge : n = 1 ∨ 2 ^ (7 * (n - 1)) ≤ v) : pb.sovNonceToCctx v = n := by
  unfold pb.sovNonceToCctx Len64
  have h64 : v ||| 1 < 2 ^ 64 := Nat.or_lt_two_pow hv (by norm_num)
  have hone : (1 : Nat) < 2 ^ (7 * n) := Nat.one_lt_two_pow (by omega)
  have hup : Len64Loop 64 (v ||| 1) ≤ 7 * n :=
    (Len64Loop_le_iff 64 _ _ h64).mpr (Nat.or_lt_two_pow hlt hone)
  have hlo : ¬ Len64Loop 64 (v ||| 1) ≤ 7 * (n - 1) := by
    rw [Len64Loop_le_iff 64 _ _ h64, or_one_eq]
    rcases hge with h | h
    · subst h; simp
    · omega
  omega

theorem and_7f (v : Nat) : v &&& 0x7f = v % 128 := Nat.and_pow_two_sub_one_eq_mod v 7

theorem and_7F (v : Nat) : v &&& 0x7F = v % 128 := Nat.and_pow_two_sub_one_eq_mod v 7

theorem shr_7 (v : Nat) : v >>> 7 = v / 128 := Nat.shiftRight_eq_div_pow v 7

theorem or_80 (x : Nat) (h : x < 128) : x ||| 0x80 = x + 128 := by
  have := Nat.mul_add_lt_is_or (i := 7) (b := x) h 1
  rw [Nat.lor_comm]
  simpa [Nat.add_comm] using this.symm

theorem encodeVarintLoop_succ_ge (fuel v : Nat) (h : 128 ≤ v) :
    pb.encodeVarintLoop (fuel + 1) v = (v % 128 + 128) :: pb.encodeVarintLoop fuel (v / 128) := by
  rw [pb.encodeVarintLoop, if_pos h, and_7f, or_80 _ (Nat.mod_lt _ (by norm_num)), shr_7]
  congr 1
  omega

theorem encodeVarintLoop_lt (fuel v : Nat) (h : v < 128) :
    pb.encodeVarintLoop fuel v = [v] := by
  cases fuel with
  | zero => simp [pb.encodeVarintLoop]; omega
  | succ fuel => rw [pb.encodeVarintLoop, if_neg (by omega)]; simp; omega

theorem encodeVarintLoop_bounds : ∀ (fuel v : Nat), v < 2 ^ (7 * (fuel + 1)) →
    1 ≤ (pb.encodeVarintLoop fuel v).length ∧
    v < 2 ^ (7 * (pb.encodeVarintLoop fuel v).length) ∧
    ((pb.encodeVarintLoop fuel v).length = 1 ∨
      2 ^ (7 * ((pb.encodeVarintLoop fuel v).length - 1)) ≤ v) ∧
    (pb.encodeVarintLoop fuel v).length ≤ fuel + 1
  | 0, v, h => by
    have h1 : v < 128 := by simpa using h
    rw [encodeVarintLoop_lt 0 v h1]
    simp; omega
  | fuel + 1, v, h => by
    by_cases h1 : v < 128
    · rw [encodeVarintLoop_lt _ v h1]
      simp; omega
    · rw [encodeVarintLoop_succ_ge fuel v (by omega)]
      have hv : v / 128 < 2 ^ (7 * (fuel + 1)) := by
        have : 2 ^ (7 * (fuel + 1 + 1)) = 2 ^ (7 * (fuel + 1)) * 128 := by
          rw [show 7 * (fuel + 1 + 1) = 7 * (fuel + 1) + 7 by ring, pow_add]; norm_num
        rw [this] at h
        exact Nat.div_lt_of_lt_mul (by rw [Nat.mul_comm]; exact h)
      obtain ⟨ih1, ih2, ih3, ih4⟩ := encodeVarintLoop_bounds fuel (v / 128) hv
      simp only [List.length_cons, Nat.add_sub_cancel]
      generalize (pb.encodeVarintLoop fuel (v / 128)).length = n at ih1 ih2 ih3 ih4 ⊢
      have e1 : 2 ^ (7 * (n + 1)) = 2 ^ (7 * n) * 128 := by
        rw [show 7 * (n + 1) = 7 * n + 7 by ring, pow_add]; norm_num
      refine ⟨by omega, ?_, Or.inr ?_, by omega⟩
      · rw [e1]; omega
      · rcases ih3 with h3 | h3
        · subst h3; norm_num; omega
        · have e2 : 2 ^ (7 * n) = 2 ^ (7 * (n - 1)) * 128 := by
            rw [show 7 * n = 7 * (n - 1) + 7 by omega, pow_add]; norm_num
          rw [e2]; omega

theorem encodeVarintLoop_length (v : Nat) (hv : v < 2 ^ 64) :
    (pb.encodeVarintLoop 9 v).length = pb.sovNonceToCctx v := by
  have hv70 : v < 2 ^ (7 * (9 + 1)) := lt_trans hv (by norm_num)
  obtain ⟨h1, h2, h3, _⟩ := encodeVarintLoop_bounds 9 v hv70
  exact (sov_eq v _ h1 hv h2 h3).symm


theorem pow_shift_split (shift k : Nat) (h : shift + k ≤ 64) :
    2 ^ shift * 2 ^ k ≤ 2 ^ 64 := by
  rw [← pow_add]; exact Nat.pow_le_pow_right (by norm_num) h

theorem readVarint_last (v shift acc : Nat) (rest : Bytes) (h1 : v < 128) (hs : shift < 64)
    (hv : v * 2 ^ shift < 2 ^ 64) (ha : acc < 2 ^ shift) :
    pb.readVarint (v :: rest) shift acc = .ok (acc + v * 2 ^ shift, rest) := by
  rw [pb.readVarint, if_neg (by omega)]
  simp only []
  rw [if_pos h1, and_7F, Nat.mod_eq_of_lt h1, Nat.shiftLeft_eq, Nat.lor_comm,
    Nat.mul_comm v, ← Nat.mul_add_lt_is_or ha]
  have h64 : 2 ^ shift * 2 ^ (64 - shift) = 2 ^ 64 := by
    rw [← pow_add]; congr 1; omega
  have hv2 : v < 2 ^ (64 - shift) := by
    by_contra hc
    have : 2 ^ shift * 2 ^ (64 - shift) ≤ 2 ^ shift * v := Nat.mul_le_mul_left _ (by omega)
    rw [Nat.mul_comm v] at hv
    omega
  have hv3 : 2 ^ shift * (v + 1) ≤ 2 ^ shift * 2 ^ (64 - shift) := Nat.mul_le_mul_left _ hv2
  rw [Nat.mul_add, Nat.mul_one] at hv3
  rw [Nat.mod_eq_of_lt (by omega), Nat.add_comm]

theorem readVarint_more (b shift acc : Nat) (rest : Bytes) (h1 : b < 128) (hs : shift + 7 ≤ 64)
    (ha : acc < 2 ^ shift) :
    pb.readVarint ((b + 128) :: rest) shift acc =
      pb.readVarint rest (shift + 7) (acc + b * 2 ^ shift) := by
  rw [pb.readVarint, if_neg (by omega)]
  simp only []
  rw [if_neg (by omega), and_7F, show (b + 128) % 128 = b by omega, Nat.shiftLeft_eq,
    Nat.lor_comm, Nat.mul_comm b, ← Nat.mul_add_lt_is_or ha]
  have h7 : 2 ^ shift * 128 ≤ 2 ^ 64 := pow_shift_split shift 7 hs
  have hb : 2 ^ shift * (b + 1) ≤ 2 ^ shift * 128 := Nat.mul_le_mul_left _ (by omega)
  rw [Nat.mul_add, Nat.mul_one] at hb
  rw [Nat.mod_eq_of_lt (by omega), Nat.add_comm (2 ^ shift * b)]

theorem readVarint_encodeVarintLoop : ∀ (fuel v shift acc : Nat) (rest : Bytes),
    v < 2 ^ (7 * (fuel + 1)) → shift < 64 → v * 2 ^ shift < 2 ^ 64 → acc < 2 ^ shift →
    pb.readVarint (pb.encodeVarintLoop fuel v ++ rest) shift acc =
      .ok (acc + v * 2 ^ shift, rest) := by
  intro fuel
  induction fuel with
  | zero =>
    intro v shift acc rest h hs hv ha
    have h1 : v < 128 := by simpa using h
    rw [encodeVarintLoop_lt 0 v h1]
    exact readVarint_last v shift acc rest h1 hs hv ha
  | succ fuel ih =>
    intro v shift acc rest h hs hv ha
    by_cases h1 : v < 128
    · rw [encodeVarintLoop_lt _ v h1]
      exact readVarint_last v shift acc rest h1 hs hv ha
    · rw [encodeVarintLoop_succ_ge fuel v (by omega)]
      have hdm : v = 128 * (v / 128) + v % 128 := (Nat.div_add_mod v 128).symm
      have hp7 : 2 ^ (shift + 7) = 2 ^ shift * 128 := by rw [pow_add]; norm_num
      have hle : 128 * 2 ^ shift ≤ v * 2 ^ shift := Nat.mul_le_mul_right _ (by omega)
      have hs7 : shift + 7 ≤ 64 := by
        by_contra hc
        have : 2 ^ 64 ≤ 2 ^ (shift + 7) := Nat.pow_le_pow_right (by norm_num) (by omega)
        omega
      have hs7lt : shift + 7 < 64 := by
        rcases Nat.lt_or_ge (shift + 7) 64 with h | h
        · exact h
        · have : shift + 7 = 64 := by omega
          rw [this] at hp7
          omega
      have hsplit : v * 2 ^ shift = (v / 128) * 2 ^ (shift + 7) + (v % 128) * 2 ^ shift := by
        rw [hp7]
        nth_rewrite 1 [hdm]
        ring
      have hmod : v % 128 < 128 := Nat.mod_lt _ (by norm_num)
      have hacc : acc + v % 128 * 2 ^ shift < 2 ^ (shift + 7) := by
        have : (v % 128 + 1) * 2 ^ shift ≤ 128 * 2 ^ shift := Nat.mul_le_mul_right _ (by omega)
        rw [Nat.add_mul, Nat.one_mul] at this
        rw [hp7]; omega
      have hv7 : v / 128 < 2 ^ (7 * (fuel + 1)) := by
        have : 2 ^ (7 * (fuel + 1 + 1)) = 2 ^ (7 * (fuel + 1)) * 128 := by
          rw [show 7 * (fuel + 1 + 1) = 7 * (fuel + 1) + 7 by ring, pow_add]; norm_num
        rw [this] at h
        exact Nat.div_lt_of_lt_mul (by rw [Nat.mul_comm]; exact h)
      rw [List.cons_append, readVarint_more _ shift acc _ hmod hs7 ha,
        ih (v / 128) (shift + 7) _ rest hv7 hs7lt (by omega) hacc]
      congr 2
      omega

theorem readVarint_encode (v : Nat) (rest : Bytes) (hv : v < 2 ^ 64) :
    pb.readVarint (pb.encodeVarintLoop 9 v ++ rest) 0 0 = .ok (v, rest) := by
  have := readVarint_encodeVarintLoop 9 v 0 0 rest (lt_trans hv (by norm_num)) (by norm_num)
    (by simpa using hv) (by norm_num)
  simpa using this

theorem putAt_replicate (i k : Nat) (bs suf : Bytes) (hk : bs.length = k) (hi : k ≤ i) :
    pb.putAt (List.replicate i 0 ++ suf) (i - k) bs =
      some (List.replicate (i - k) 0 ++ (bs ++ suf)) := by
  unfold pb.putAt
  have h1 : i - k + bs.length = i := by omega
  rw [h1, if_pos (by simp)]
  have h2 : List.take (i - k) (List.replicate i 0 ++ suf) = List.replicate (i - k) 0 := by
    rw [List.take_append_of_le_length (by simp), List.take_replicate]
    congr 1; omega
  have h3 : List.drop i (List.replicate i 0 ++ suf) = suf := by
    rw [List.drop_append_of_le_length (by simp)]; simp
  rw [h2, h3, List.append_assoc]

theorem toUint64_lt (x : Int) : toUint64 x < 2 ^ 64 := by
  unfold toUint64
  have h := Int.emod_lt_of_pos x (show (0 : Int) < 2 ^ 64 by norm_num)
  have h0 := Int.emod_nonneg x (show (2 : Int) ^ 64 ≠ 0 by norm_num)
  omega

theorem toInt64_toUint64 (x : Int) (h1 : -2 ^ 63 ≤ x) (h2 : x < 2 ^ 63) :
    toInt64 (toUint64 x) = x := by
  unfold toInt64 toUint64
  have hm : (x % 2 ^ 64).toNat % 2 ^ 64 = (x % 2 ^ 64).toNat := Nat.mod_eq_of_lt (toUint64_lt x)
  rw [hm]
  have h0 := Int.emod_nonneg x (show (2 : Int) ^ 64 ≠ 0 by norm_num)
  have hc : ((x % 2 ^ 64).toNat : Int) = x % 2 ^ 64 := Int.toNat_of_nonneg h0
  split
  · rename_i h
    rw [hc]
    have : ((x % 2 ^ 64).toNat : Int) < 2 ^ 63 := by exact_mod_cast h
    rw [hc] at this
    omega
  · rename_i h
    rw [hc]
    have : ¬ ((x % 2 ^ 64).toNat : Int) < 2 ^ 63 := by
      intro hh; exact h (by exact_mod_cast hh)
    rw [hc] at this
    omega

theorem encodeVarint_replicate (i v : Nat) (suf : Bytes) (hv : v < 2 ^ 64)
    (hi : pb.sovNonceToCctx v ≤ i) :
    pb.encodeVarintNonceToCctx (List.replicate i 0 ++ suf) i v =
      some (List.replicate (i - pb.sovNonceToCctx v) 0 ++ (pb.encodeVarintLoop 9 v ++ suf),
        i - pb.sovNonceToCctx v) := by
  unfold pb.encodeVarintNonceToCctx
  rw [if_neg (by omega)]
  simp only []
  rw [putAt_replicate i _ _ suf (encodeVarintLoop_length v hv) hi]

theorem marshalInt64_replicate (tag : Nat) (x : Int) (i : Nat) (suf : Bytes)
    (hi : (pb.wireInt64 tag x).length ≤ i) :
    pb.marshalInt64 tag x (List.replicate i 0 ++ suf) i =
      some (List.replicate (i - (pb.wireInt64 tag x).length) 0 ++ (pb.wireInt64 tag x ++ suf),
        i - (pb.wireInt64 tag x).length) := by
  unfold pb.marshalInt64 pb.wireInt64 at *
  by_cases hx : x ≠ 0
  · rw [if_pos hx] at hi ⊢
    rw [if_pos hx]
    have hl := encodeVarintLoop_length (toUint64 x) (toUint64_lt x)
    simp only [List.length_cons, hl] at hi ⊢
    rw [encodeVarint_replicate i _ suf (toUint64_lt x) (by omega)]
    simp only []
    rw [if_neg (by omega)]
    have := putAt_replicate (i - pb.sovNonceToCctx (toUint64 x)) 1 [tag]
      (pb.encodeVarintLoop 9 (toUint64 x) ++ suf) rfl (by omega)
    rw [this]
    rw [Nat.sub_sub]
    simp only [List.singleton_append, List.cons_append, List.nil_append]
  · rw [if_neg hx, if_neg hx]
    simp

theorem marshalString_replicate (tag : Nat) (s : Bytes) (i : Nat) (suf : Bytes)
    (hs : s.length < 2 ^ 64) (hi : (pb.wireString tag s).length ≤ i) :
    pb.marshalString tag s (List.replicate i 0 ++ suf) i =
      some (List.replicate (i - (pb.wireString tag s).length) 0 ++ (pb.wireString tag s ++ suf),
        i - (pb.wireString tag s).length) := by
  unfold pb.marshalString pb.wireString at *
  by_cases hx : s.length > 0
  · rw [if_pos hx] at hi ⊢
    rw [if_pos hx]
    have hl := encodeVarintLoop_length s.length hs
    simp only [List.length_cons, List.length_append, hl] at hi ⊢
    rw [if_neg (by omega), putAt_replicate i s.length s suf rfl (by omega)]
    simp only []
    rw [encodeVarint_replicate (i - s.length) _ (s ++ suf) hs (by omega)]
    simp only []
    rw [if_neg (by omega)]
    have := putAt_replicate (i - s.length - pb.sovNonceToCctx s.length) 1 [tag]
      (pb.encodeVarintLoop 9 s.length ++ (s ++ suf)) rfl (by omega)
    rw [this]
    have e : i - s.length - pb.sovNonceToCctx s.length - 1 =
        i - (pb.sovNonceToCctx s.length + s.length + 1) := by omega
    rw [e]
    simp only [List.singleton_append, List.cons_append, List.append_assoc, List.nil_append]
  · rw [if_neg hx, if_neg hx]
    simp

theorem wireInt64_length (tag : Nat) (x : Int) :
    (pb.wireInt64 tag x).length =
      if x ≠ 0 then 1 + pb.sovNonceToCctx (toUint64 x) else 0 := by
  unfold pb.wireInt64
  split
  · simp [encodeVarintLoop_length _ (toUint64_lt x)]; omega
  · rfl

theorem wireString_length (tag : Nat) (s : Bytes) (hs : s.length < 2 ^ 64) :
    (pb.wireString tag s).length =
      if s.length > 0 then 1 + s.length + pb.sovNonceToCctx s.length else 0 := by
  unfold pb.wireString
  split
  · simp [encodeVarintLoop_length _ hs]; omega
  · rfl

theorem Size_eq_wire_length (m : pb.NonceToCctx) (h3 : m.CctxIndex.length < 2 ^ 64)
    (h4 : m.Tss.length < 2 ^ 64) : m.Size = (pb.wire m).length := by
  unfold pb.NonceToCctx.Size pb.wire
  simp only [List.length_append, wireInt64_length, wireString_length _ _ h3,
    wireString_length _ _ h4]
  split <;> split <;> split <;> split <;> omega

theorem Marshal_eq_wire (m : pb.NonceToCctx) (h3 : m.CctxIndex.length < 2 ^ 64)
    (h4 : m.Tss.length < 2 ^ 64) : m.Marshal = some (pb.wire m) := by
  unfold pb.NonceToCctx.Marshal
  simp only []
  rw [Size_eq_wire_length m h3 h4]
  unfold pb.NonceToCctx.MarshalToSizedBuffer
  have hlen : (pb.wire m).length = (pb.wireInt64 0x8 m.ChainId).length +
      ((pb.wireInt64 0x10 m.Nonce).length + ((pb.wireString 0x1a m.CctxIndex).length +
        (pb.wireString 0x22 m.Tss).length)) := by
    simp [pb.wire]
  generalize hL : (pb.wire m).length = L at hlen
  rw [List.length_replicate]
  have e0 : List.replicate L (0 : Nat) = List.replicate L 0 ++ [] := by simp
  rw [e0, marshalString_replicate 0x22 m.Tss L [] h4 (by omega)]
  simp only []
  rw [marshalString_replicate 0x1a m.CctxIndex _ _ h3 (by omega)]
  simp only []
  rw [marshalInt64_replicate 0x10 m.Nonce _ _ (by omega)]
  simp only []
  rw [marshalInt64_replicate 0x8 m.ChainId _ _ (by omega)]
  simp only []
  have e1 : L - (pb.wireString 0x22 m.Tss).length - (pb.wireString 0x1a m.CctxIndex).length -
      (pb.wireInt64 0x10 m.Nonce).length - (pb.wireInt64 0x8 m.ChainId).length = 0 := by omega
  rw [e1]
  simp only [List.replicate_zero, List.nil_append, List.append_nil, Nat.sub_zero]
  have e2 : pb.wireInt64 0x8 m.ChainId ++ (pb.wireInt64 0x10 m.Nonce ++
      (pb.wireString 0x1a m.CctxIndex ++ pb.wireString 0x22 m.Tss)) = pb.wire m := rfl
  rw [e2, ← hL, List.take_length]

theorem readVarint_tag (tag : Nat) (rest : Bytes) (h : tag < 128) :
    pb.readVarint (tag :: rest) 0 0 = .ok (tag, rest) := by
  have := readVarint_last tag 0 0 rest h (by norm_num)
    (by simpa using lt_trans h (by norm_num)) (by norm_num)
  simpa using this

theorem unmarshalLoop_nil (l fuel : Nat) (m : pb.NonceToCctx) :
    pb.unmarshalLoop l (fuel + 1) [] m = .ok m := by
  rw [pb.unmarshalLoop]

theorem readString_encode (l : Nat) (s r : Bytes) (hl : l < 2 ^ 63)
    (hle : s.length + r.length ≤ l) :
    pb.readString l (pb.encodeVarintLoop 9 s.length ++ (s ++ r)) = .ok (s, r) := by
  have hs : s.length < 2 ^ 64 := by omega
  unfold pb.readString
  rw [readVarint_encode _ _ hs]
  simp only [List.length_append]
  have h63 : ¬ toInt64 s.length < 0 := by
    unfold toInt64
    rw [Nat.mod_eq_of_lt hs, if_pos (by omega)]
    omega
  rw [if_neg h63, if_neg (by omega), if_neg (by omega)]
  simp

theorem unmarshalLoop_ChainId (l fuel : Nat) (x : Int) (r : Bytes) (m : pb.NonceToCctx)
    (hx : x ≠ 0) (h1 : -2 ^ 63 ≤ x) (h2 : x < 2 ^ 63) :
    pb.unmarshalLoop l (fuel + 1) (pb.wireInt64 0x8 x ++ r) m =
      pb.unmarshalLoop l fuel r { m with ChainId := x } := by
  unfold pb.wireInt64
  rw [if_pos hx, List.cons_append, pb.unmarshalLoop]
  have e1 : toInt32 (8 >>> 3) = 1 := by decide
  have e2 : 8 &&& 0x7 = 0 := by decide
  simp only [readVarint_tag 8 _ (by norm_num), e1, e2]
  simp [readVarint_encode _ _ (toUint64_lt x), toInt64_toUint64 x h1 h2]

theorem unmarshalLoop_Nonce (l fuel : Nat) (x : Int) (r : Bytes) (m : pb.NonceToCctx)
    (hx : x ≠ 0) (h1 : -2 ^ 63 ≤ x) (h2 : x < 2 ^ 63) :
    pb.unmarshalLoop l (fuel + 1) (pb.wireInt64 0x10 x ++ r) m =
      pb.unmarshalLoop l fuel r { m with Nonce := x } := by
  unfold pb.wireInt64
  rw [if_pos hx, List.cons_append, pb.unmarshalLoop]
  have e1 : toInt32 (16 >>> 3) = 2 := by decide
  have e2 : 16 &&& 0x7 = 0 := by decide
  simp only [readVarint_tag 16 _ (by norm_num), e1, e2]
  simp [readVarint_encode _ _ (toUint64_lt x), toInt64_toUint64 x h1 h2]

theorem unmarshalLoop_CctxIndex (l fuel : Nat) (s r : Bytes) (m : pb.NonceToCctx)
    (hs : s.length > 0) (hl : l < 2 ^ 63) (hle : s.length + r.length ≤ l) :
    pb.unmarshalLoop l (fuel + 1) (pb.wireString 0x1a s ++ r) m =
      pb.unmarshalLoop l fuel r { m with CctxIndex := s } := by
  unfold pb.wireString
  rw [if_pos hs, List.cons_append, List.append_assoc, pb.unmarshalLoop]
  have e1 : toInt32 (26 >>> 3) = 3 := by decide
  have e2 : 26 &&& 0x7 = 2 := by decide
  simp only [readVarint_tag 26 _ (by norm_num), e1, e2]
  simp [readString_encode l s r hl hle]

theorem unmarshalLoop_Tss (l fuel : Nat) (s r : Bytes) (m : pb.NonceToCctx)
    (hs : s.length > 0) (hl : l < 2 ^ 63) (hle : s.length + r.length ≤ l) :
    pb.unmarshalLoop l (fuel + 1) (pb.wireString 0x22 s ++ r) m =
      pb.unmarshalLoop l fuel r { m with Tss := s } := by
  unfold pb.wireString
  rw [if_pos hs, List.cons_append, List.append_assoc, pb.unmarshalLoop]
  have e1 : toInt32 (34 >>> 3) = 4 := by decide
  have e2 : 34 &&& 0x7 = 2 := by decide
  simp only [readVarint_tag 34 _ (by norm_num), e1, e2]
  simp [readString_encode l s r hl hle]

theorem wireString_nil (tag : Nat) : pb.wireString tag [] = [] := by
  simp [pb.wireString]

theorem wireInt64_zero (tag : Nat) : pb.wireInt64 tag 0 = [] := by
  simp [pb.wireInt64]

theorem wireString_length_pos (tag : Nat) (s : Bytes) (h : s.length > 0) :
    s.length + 1 ≤ (pb.wireString tag s).length := by
  unfold pb.wireString
  rw [if_pos h]
  simp only [List.length_cons, List.length_append]; omega

theorem wireInt64_length_pos (tag : Nat) (x : Int) (h : x ≠ 0) :
    1 ≤ (pb.wireInt64 tag x).length := by
  unfold pb.wireInt64
  rw [if_pos h]
  simp

theorem unmarshalLoop_field4 (l fuel : Nat) (a b : Int) (c t : Bytes)
    (hf : (pb.wireString 0x22 t).length + 1 ≤ fuel)
    (hl : l < 2 ^ 63) (hle : (pb.wireString 0x22 t).length ≤ l) :
    pb.unmarshalLoop l fuel (pb.wireString 0x22 t)
      { ChainId := a, Nonce := b, CctxIndex := c, Tss := [] } =
      .ok { ChainId := a, Nonce := b, CctxIndex := c, Tss := t } := by
  by_cases ht : t.length > 0
  · have hp := wireString_length_pos 0x22 t ht
    obtain ⟨f, rfl⟩ : ∃ f, fuel = f + 2 := ⟨fuel - 2, by omega⟩
    have h := unmarshalLoop_Tss l (f + 1) t []
      { ChainId := a, Nonce := b, CctxIndex := c, Tss := [] } ht hl
      (by simp only [List.length_nil]; omega)
    rw [List.append_nil] at h
    rw [h, unmarshalLoop_nil]
  · have ht0 : t = [] := List.length_eq_zero.mp (by omega)
    subst ht0
    obtain ⟨f, rfl⟩ : ∃ f, fuel = f + 1 := ⟨fuel - 1, by omega⟩
    rw [wireString_nil, unmarshalLoop_nil]

theorem unmarshalLoop_field3 (l fuel : Nat) (a b : Int) (c t : Bytes)
    (hf : (pb.wireString 0x1a c).length + (pb.wireString 0x22 t).length + 1 ≤ fuel)
    (hl : l < 2 ^ 63)
    (hle : (pb.wireString 0x1a c).length + (pb.wireString 0x22 t).length ≤ l) :
    pb.unmarshalLoop l fuel (pb.wireString 0x1a c ++ pb.wireString 0x22 t)
      { ChainId := a, Nonce := b, CctxIndex := [], Tss := [] } =
      .ok { ChainId := a, Nonce := b, CctxIndex := c, Tss := t } := by
  by_cases hc : c.length > 0
  · have hp := wireString_length_pos 0x1a c hc
    obtain ⟨f, rfl⟩ : ∃ f, fuel = f + 1 := ⟨fuel - 1, by omega⟩
    rw [unmarshalLoop_CctxIndex l f c _ _ hc hl (by omega)]
    exact unmarshalLoop_field4 l f a b c t (by omega) hl (by omega)
  · have hc0 : c = [] := List.length_eq_zero.mp (by omega)
    subst hc0
    rw [wireString_nil] at hf hle ⊢
    rw [List.nil_append]
    exact unmarshalLoop_field4 l fuel a b [] t (by simpa using hf) hl (by simpa using hle)

theorem unmarshalLoop_field2 (l fuel : Nat) (a b : Int) (c t : Bytes)
    (hf : (pb.wireInt64 0x10 b).length +
      ((pb.wireString 0x1a c).length + (pb.wireString 0x22 t).length) + 1 ≤ fuel)
    (hb1 : -2 ^ 63 ≤ b) (hb2 : b < 2 ^ 63) (hl : l < 2 ^ 63)
    (hle : (pb.wireString 0x1a c).length + (pb.wireString 0x22 t).length ≤ l) :
    pb.unmarshalLoop l fuel
      (pb.wireInt64 0x10 b ++ (pb.wireString 0x1a c ++ pb.wireString 0x22 t))
      { ChainId := a, Nonce := 0, CctxIndex := [], Tss := [] } =
      .ok { ChainId := a, Nonce := b, CctxIndex := c, Tss := t } := by
  by_cases hb : b ≠ 0
  · have hp := wireInt64_length_pos 0x10 b hb
    obtain ⟨f, rfl⟩ : ∃ f, fuel = f + 1 := ⟨fuel - 1, by omega⟩
    rw [unmarshalLoop_Nonce l f b _ _ hb hb1 hb2]
    exact unmarshalLoop_field3 l f a b c t (by omega) hl hle
  · have hb0 : b = 0 := by simpa using hb
    subst hb0
    rw [wireInt64_zero] at hf ⊢
    rw [List.nil_append]
    exact unmarshalLoop_field3 l fuel a 0 c t (by simpa using hf) hl hle

theorem unmarshalLoop_wire (l fuel : Nat) (n : pb.NonceToCctx)
    (hf : (pb.wire n).length + 1 ≤ fuel)
    (ha1 : -2 ^ 63 ≤ n.ChainId) (ha2 : n.ChainId < 2 ^ 63)
    (hb1 : -2 ^ 63 ≤ n.Nonce) (hb2 : n.Nonce < 2 ^ 63)
    (hl : l < 2 ^ 63) (hle : (pb.wire n).length ≤ l) :
    pb.unmarshalLoop l fuel (pb.wire n)
      { ChainId := 0, Nonce := 0, CctxIndex := [], Tss := [] } = .ok n := by
  obtain ⟨a, b, c, t⟩ := n
  simp only at ha1 ha2 hb1 hb2
  have hlen : (pb.wire ⟨a, b, c, t⟩).length = (pb.wireInt64 0x8 a).length +
      ((pb.wireInt64 0x10 b).length + ((pb.wireString 0x1a c).length +
        (pb.wireString 0x22 t).length)) := by
    simp [pb.wire]
  rw [hlen] at hf hle
  unfold pb.wire
  simp only
  by_cases hx : a ≠ 0
  · have hp := wireInt64_length_pos 0x8 a hx
    obtain ⟨f, rfl⟩ : ∃ f, fuel = f + 1 := ⟨fuel - 1, by omega⟩
    rw [unmarshalLoop_ChainId l f a _ _ hx ha1 ha2]
    exact unmarshalLoop_field2 l f a b c t (by omega) hb1 hb2 hl (by omega)
  · have ha0 : a = 0 := by simpa using hx
    subst ha0
    rw [wireInt64_zero] at hf hle ⊢
    rw [List.nil_append]
    exact unmarshalLoop_field2 l fuel 0 b c t (by simpa using hf) hb1 hb2 hl
      (by simp only [List.length_nil] at hle; omega)

theorem Unmarshal_wire (n : pb.NonceToCctx)
    (ha1 : -2 ^ 63 ≤ n.ChainId) (ha2 : n.ChainId < 2 ^ 63)
    (hb1 : -2 ^ 63 ≤ n.Nonce) (hb2 : n.Nonce < 2 ^ 63)
    (hl : (pb.wire n).length < 2 ^ 63) :
    pb.NonceToCctx.Unmarshal { ChainId := 0, Nonce := 0, CctxIndex := [], Tss := [] }
      (pb.wire n) = .ok n :=
  unmarshalLoop_wire _ _ n (le_refl _) ha1 ha2 hb1 hb2 hl (le_refl _)

theorem Size_strings_lt (n : pb.NonceToCctx) (h : n.Size < 2 ^ 63) :
    n.CctxIndex.length < 2 ^ 64 ∧ n.Tss.length < 2 ^ 64 := by
  unfold pb.NonceToCctx.Size at h
  simp only at h
  constructor
  · by_contra hc
    rw [if_pos (show n.CctxIndex.length > 0 by omega)] at h
    split at h <;> omega
  · by_contra hc
    rw [if_pos (show n.Tss.length > 0 by omega)] at h
    omega

/-- C23: store round trip of NonceToCctx. For every record whose chain id and
nonce are `int64` values, negative ones included, and whose `Size()` is a
length a Go slice can have, `Marshal` returns bytes, their number is `Size()`,
`Unmarshal` of these bytes into the empty message succeeds and yields the
record, and after `SetNonceToCctx` of the record on any store `GetNonceToCctx`
under its tss, chain id and nonce returns the record. -/
theorem NonceToCctx_store_round_trip (n : pb.NonceToCctx)
    (store : List ((Bytes × Int × Int) × Bytes))
    (ha1 : -2 ^ 63 ≤ n.ChainId) (ha2 : n.ChainId < 2 ^ 63)
    (hb1 : -2 ^ 63 ≤ n.Nonce) (hb2 : n.Nonce < 2 ^ 63)
    (hsize : n.Size < 2 ^ 63) :
    ∃ bz, n.Marshal = some bz ∧ bz.length = n.Size ∧
      pb.NonceToCctx.Unmarshal { ChainId := 0, Nonce := 0, CctxIndex := [], Tss := [] } bz
        = .ok n ∧
      ∃ store1, pb.SetNonceToCctx store n = some store1 ∧
        pb.GetNonceToCctx store1 n.Tss n.ChainId n.Nonce = some (.ok n) := by
  obtain ⟨h3, h4⟩ := Size_strings_lt n hsize
  have hm := Marshal_eq_wire n h3 h4
  have hs := Size_eq_wire_length n h3 h4
  have hu := Unmarshal_wire n ha1 ha2 hb1 hb2 (by rw [← hs]; exact hsize)
  refine ⟨pb.wire n, hm, hs.symm, hu, mapSet store (n.Tss, n.ChainId, n.Nonce) (pb.wire n), ?_, ?_⟩
  · simp only [pb.SetNonceToCctx, hm]
  · simp only [pb.GetNonceToCctx, mapGet_mapSet_self, hu]

/-- Witness of C23 on a record with a negative chain id: its 21 bytes, and the
round trip through an empty store. -/
theorem NonceToCctx_store_round_trip_witness :
    exampleNonceToCctx.Size < 2 ^ 63 ∧
    exampleNonceToCctx.Marshal = some [8, 255, 255, 255, 255, 255, 255, 255, 255, 255, 1,
      16, 172, 2, 26, 2, 97, 98, 34, 1, 116] ∧
    ∃ bz, exampleNonceToCctx.Marshal = some bz ∧ bz.length = exampleNonceToCctx.Size ∧
      pb.NonceToCctx.Unmarshal { ChainId := 0, Nonce := 0, CctxIndex := [], Tss := [] } bz
        = .ok exampleNonceToCctx ∧
      ∃ store1, pb.SetNonceToCctx [] exampleNonceToCctx = some store1 ∧
        pb.GetNonceToCctx store1 exampleNonceToCctx.Tss exampleNonceToCctx.ChainId
          exampleNonceToCctx.Nonce = some (.ok exampleNonceToCctx) :=
  ⟨by decide, by decide,
    NonceToCctx_store_round_trip exampleNonceToCctx [] (by decide) (by decide) (by decide)
      (by decide) (by decide)⟩

/-! ## One tick of observeOutTx -/

theorem mapGet_mapDelete_ne {K V : Type} [DecidableEq K] (m : List (K × V)) (k k1 : K)
    (h : k1 ≠ k) : mapGet (mapDelete m k1) k = mapGet m k := by
  induction m with
  | nil => rfl
  | cons e rest ih =>
    obtain ⟨a, v⟩ := e
    unfold mapDelete at ih ⊢
    by_cases ha : a = k1
    · subst ha
      simp only [List.filter_cons, decide_True, Bool.not_true, Bool.false_eq_true, if_false]
      rw [ih, mapGet, if_neg h]
    · simp only [List.filter_cons, ha, decide_False, Bool.not_false, if_true]
      rw [mapGet, mapGet, ih]

theorem mapGet_mapSet_ne {K V : Type} [DecidableEq K] (m : List (K × V)) (k k1 : K) (v : V)
    (h : k1 ≠ k) : mapGet (mapSet m k1 v) k = mapGet m k := by
  unfold mapSet
  rw [mapGet, if_neg h, mapGet_mapDelete_ne m k k1 h]

theorem GetTxID_injective (w : EvmWorld) (a b : Nat) (h : GetTxID w a = GetTxID w b) : a = b := by
  unfold GetTxID at h
  have hd := congrArg String.data h
  simp only [String.data_append] at hd
  exact natRepr_injective a b (List.append_cancel_left hd)

theorem isTxConfirmed_iff (w : EvmWorld) (ob : ChainClient) (nonce : Nat) :
    isTxConfirmed w ob nonce = true
      ↔ ∃ receipt transaction, GetTxNReceipt w ob nonce = (some receipt, some transaction) := by
  unfold isTxConfirmed GetTxNReceipt
  cases mapGet ob.outTXConfirmedReceipts (GetTxID w nonce) <;>
    cases mapGet ob.outTXConfirmedTransactions (GetTxID w nonce) <;> simp

theorem isTxConfirmed_of_GetTxNReceipt (w : EvmWorld) (a b : ChainClient) (nonce : Nat)
    (h : GetTxNReceipt w a nonce = GetTxNReceipt w b nonce) :
    isTxConfirmed w a nonce = isTxConfirmed w b nonce := by
  unfold GetTxNReceipt at h
  unfold isTxConfirmed
  simp only [Prod.mk.injEq] at h
  rw [h.1, h.2]

theorem observeOutTxHashes_frame (w : EvmWorld) (nonce : Nat) (hashes : List TxHashList) :
    ∀ (ob : ChainClient) (i txCount : Nat) (last : Option (Receipt × Transaction)),
      (observeOutTxHashes w nonce ob hashes i txCount last).1.outTXConfirmedReceipts
        = ob.outTXConfirmedReceipts
      ∧ (observeOutTxHashes w nonce ob hashes i txCount last).1.outTXConfirmedTransactions
        = ob.outTXConfirmedTransactions
      ∧ (observeOutTxHashes w nonce ob hashes i txCount last).1.lastBlock = ob.lastBlock := by
  induction hashes with
  | nil => intro ob i c last; exact ⟨rfl, rfl, rfl⟩
  | cons h rest ih =>
    intro ob i c last
    have hfr := checkConfirmedTx_confirmed w ob h.TxHash nonce
    unfold observeOutTxHashes
    by_cases ht : w.outTimeout nonce i = true
    · rw [if_pos ht]; exact ⟨rfl, rfl, rfl⟩
    · rw [if_neg ht]
      rcases hc : checkConfirmedTx w ob h.TxHash nonce with ⟨ob1, r⟩
      rw [hc] at hfr
      simp only at hfr
      cases r with
      | confirmed receipt transaction =>
        simp only
        obtain ⟨h1, h2, h3⟩ := ih ob1 (i + 1) (c + 1) (some (receipt, transaction))
        exact ⟨h1.trans hfr.1, h2.trans hfr.2.1, h3.trans hfr.2.2⟩
      | notConfirmed =>
        simp only
        obtain ⟨h1, h2, h3⟩ := ih ob1 (i + 1) c last
        exact ⟨h1.trans hfr.1, h2.trans hfr.2.1, h3.trans hfr.2.2⟩
      | panicked => exact hfr

theorem observeOutTxTracker_frame (w : EvmWorld) (ob : ChainClient) (tracker : OutTxTracker)
    (nonce : Nat) (h : tracker.Nonce ≠ nonce) :
    GetTxNReceipt w (observeOutTxTracker w ob tracker).1 nonce = GetTxNReceipt w ob nonce := by
  have hk : GetTxID w tracker.Nonce ≠ GetTxID w nonce :=
    fun he => h (GetTxID_injective w _ _ he)
  have hfr := observeOutTxHashes_frame w tracker.Nonce tracker.HashList ob 0 0 none
  unfold observeOutTxTracker
  simp only
  split
  · rfl
  · rcases hh : observeOutTxHashes w tracker.Nonce ob tracker.HashList 0 0 none with
      ⟨ob1, exit, txCount, last⟩
    rw [hh] at hfr
    simp only at hfr
    have hbase : GetTxNReceipt w ob1 nonce = GetTxNReceipt w ob nonce := by
      unfold GetTxNReceipt
      rw [hfr.1, hfr.2.1]
    cases exit with
    | timedOut => exact hbase
    | panicked => exact hbase
    | finished =>
      simp only
      split
      · cases last with
        | none => exact hbase
        | some p =>
          obtain ⟨receipt, transaction⟩ := p
          simp only
          rw [← hbase]
          unfold GetTxNReceipt SetTxNReceipt
          simp only [mapGet_mapSet_ne _ _ _ _ hk]
      · exact hbase

theorem observeOutTxTracker_lastBlock (w : EvmWorld) (ob : ChainClient)
    (tracker : OutTxTracker) :
    (observeOutTxTracker w ob tracker).1.lastBlock = ob.lastBlock := by
  have hfr := observeOutTxHashes_frame w tracker.Nonce tracker.HashList ob 0 0 none
  unfold observeOutTxTracker
  simp only
  split
  · rfl
  · rcases hh : observeOutTxHashes w tracker.Nonce ob tracker.HashList 0 0 none with
      ⟨ob1, exit, txCount, last⟩
    rw [hh] at hfr
    simp only at hfr
    cases exit with
    | timedOut => exact hfr.2.2
    | panicked => exact hfr.2.2
    | finished =>
      simp only
      split
      · cases last with
        | none => exact hfr.2.2
        | some p => exact hfr.2.2
      · exact hfr.2.2

theorem observeOutTxTracker_skips_confirmed (w : EvmWorld) (ob : ChainClient)
    (tracker : OutTxTracker) (h : isTxConfirmed w ob tracker.Nonce = true) :
    observeOutTxTracker w ob tracker = (ob, LoopExit.finished) := by
  unfold observeOutTxTracker
  simp only [h, if_true]

theorem observeOutTxTrackers_cons (w : EvmWorld) (ob : ChainClient) (tracker : OutTxTracker)
    (rest : List OutTxTracker)
    (h : (observeOutTxTracker w ob tracker).2 = LoopExit.finished) :
    observeOutTxTrackers w ob (tracker :: rest)
      = observeOutTxTrackers w (observeOutTxTracker w ob tracker).1 rest := by
  rw [observeOutTxTrackers]
  rcases hc : observeOutTxTracker w ob tracker with ⟨ob1, exit⟩
  rw [hc] at h
  simp only at h
  subst h
  rfl

theorem observeOutTxTrackers_stop (w : EvmWorld) (ob : ChainClient) (tracker : OutTxTracker)
    (rest : List OutTxTracker)
    (h : (observeOutTxTracker w ob tracker).2 ≠ LoopExit.finished) :
    observeOutTxTrackers w ob (tracker :: rest) = observeOutTxTracker w ob tracker := by
  rw [observeOutTxTrackers]
  rcases hc : observeOutTxTracker w ob tracker with ⟨ob1, exit⟩
  rw [hc] at h
  simp only at h
  cases exit with
  | finished => exact absurd rfl h
  | timedOut => rfl
  | panicked => rfl

theorem observeOutTxTrackers_append (w : EvmWorld) (pre rest : List OutTxTracker) :
    ∀ (ob obT : ChainClient), observeOutTxTrackers w ob pre = (obT, LoopExit.finished) →
      observeOutTxTrackers w ob (pre ++ rest) = observeOutTxTrackers w obT rest := by
  induction pre with
  | nil =>
    intro ob obT h
    rw [observeOutTxTrackers] at h
    simp only [Prod.mk.injEq, and_true] at h
    subst h
    rfl
  | cons t pre ih =>
    intro ob obT h
    by_cases hf : (observeOutTxTracker w ob t).2 = LoopExit.finished
    · rw [observeOutTxTrackers_cons w ob t pre hf] at h
      rw [List.cons_append, observeOutTxTrackers_cons w ob t _ hf]
      exact ih _ _ h
    · rw [observeOutTxTrackers_stop w ob t pre hf] at h
      rw [h] at hf
      exact absurd rfl hf

theorem observeOutTxTrackers_lastBlock (w : EvmWorld) (l : List OutTxTracker) :
    ∀ ob : ChainClient, (observeOutTxTrackers w ob l).1.lastBlock = ob.lastBlock := by
  induction l with
  | nil => intro ob; rfl
  | cons t rest ih =>
    intro ob
    by_cases hf : (observeOutTxTracker w ob t).2 = LoopExit.finished
    · rw [observeOutTxTrackers_cons w ob t rest hf, ih, observeOutTxTracker_lastBlock]
    · rw [observeOutTxTrackers_stop w ob t rest hf, observeOutTxTracker_lastBlock]

theorem observeOutTxTrackers_other_nonces (w : EvmWorld) (nonce : Nat)
    (l : List OutTxTracker) :
    ∀ ob : ChainClient, (∀ t, t ∈ l → t.Nonce ≠ nonce) →
      GetTxNReceipt w (observeOutTxTrackers w ob l).1 nonce = GetTxNReceipt w ob nonce := by
  induction l with
  | nil => intro ob _; rfl
  | cons t rest ih =>
    intro ob h
    have ht := observeOutTxTracker_frame w ob t nonce (h t (List.mem_cons_self _ _))
    by_cases hf : (observeOutTxTracker w ob t).2 = LoopExit.finished
    · rw [observeOutTxTrackers_cons w ob t rest hf,
        ih _ (fun t1 h1 => h t1 (List.mem_cons_of_mem _ h1)), ht]
    · rw [observeOutTxTrackers_stop w ob t rest hf, ht]

theorem observeOutTxTrackers_keeps_confirmed (w : EvmWorld) (nonce : Nat)
    (l : List OutTxTracker) :
    ∀ ob : ChainClient, isTxConfirmed w ob nonce = true →
      GetTxNReceipt w (observeOutTxTrackers w ob l).1 nonce = GetTxNReceipt w ob nonce := by
  induction l with
  | nil => intro ob _; rfl
  | cons t rest ih =>
    intro ob h
    by_cases hn : t.Nonce = nonce
    · have hs := observeOutTxTracker_skips_confirmed w ob t (by rw [hn]; exact h)
      rw [observeOutTxTrackers_cons w ob t rest (by rw [hs]), hs]
      exact ih ob h
    · have ht := observeOutTxTracker_frame w ob t nonce hn
      by_cases hf : (observeOutTxTracker w ob t).2 = LoopExit.finished
      · rw [observeOutTxTrackers_cons w ob t rest hf,
          ih _ (by rw [isTxConfirmed_of_GetTxNReceipt w _ ob nonce ht]; exact h), ht]
      · rw [observeOutTxTrackers_stop w ob t rest hf, ht]

/-- C19: one tick of `observeOutTx` over the trackers zetacore lists, at a
tracker that the tick reaches (the passes over the trackers before it ran to
their end, leaving the client `obT`). A nonce that already has a recorded
receipt and transaction is skipped: the pass leaves the client as it was and
the pair recorded is still the one at the end of the tick. Otherwise, when the
hash list is checked to its end (the timeout of the tick does not fire on it
and the last block height is a valid one), the tick goes on with the trackers
after it, and: if exactly one hash passes `checkConfirmedTx`, its receipt and
transaction are recorded for the nonce, by this pass and still at the end of
the tick; if none or several pass, the pass records nothing, and at the end of
the tick nothing is recorded for the nonce when no later tracker has the same
nonce; so a pair is recorded for the nonce if and only if exactly one hash
passes. -/
theorem observeOutTx_records_single_confirmation (w : EvmWorld) (ob obT : ChainClient)
    (pre post : List OutTxTracker) (tracker : OutTxTracker)
    (htrackers : w.GetAllOutTxTrackerByChain = some (pre ++ tracker :: post))
    (hpre : observeOutTxTrackers w ob pre = (obT, LoopExit.finished)) :
    (isTxConfirmed w obT tracker.Nonce = true →
      observeOutTxTracker w obT tracker = (obT, LoopExit.finished)
      ∧ observeOutTx w ob = observeOutTxTrackers w obT post
      ∧ GetTxNReceipt w (observeOutTx w ob).1 tracker.Nonce
          = GetTxNReceipt w obT tracker.Nonce)
    ∧ (isTxConfirmed w obT tracker.Nonce = false →
        ob.lastBlock < MaxInt64 →
        (∀ i, i < tracker.HashList.length → w.outTimeout tracker.Nonce i = false) →
        observeOutTx w ob = observeOutTxTrackers w (observeOutTxTracker w obT tracker).1 post
        ∧ (∀ receipt transaction,
            passingHashes w tracker.Nonce obT tracker.HashList = [(receipt, transaction)] →
            GetTxNReceipt w (observeOutTxTracker w obT tracker).1 tracker.Nonce
              = (some receipt, some transaction)
            ∧ GetTxNReceipt w (observeOutTx w ob).1 tracker.Nonce
              = (some receipt, some transaction))
        ∧ ((passingHashes w tracker.Nonce obT tracker.HashList).length ≠ 1 →
            (observeOutTxTracker w obT tracker).1.outTXConfirmedReceipts
              = obT.outTXConfirmedReceipts
            ∧ (observeOutTxTracker w obT tracker).1.outTXConfirmedTransactions
              = obT.outTXConfirmedTransactions
            ∧ ((∀ t, t ∈ post → t.Nonce ≠ tracker.Nonce) →
                GetTxNReceipt w (observeOutTx w ob).1 tracker.Nonce
                  = GetTxNReceipt w obT tracker.Nonce
                ∧ isTxConfirmed w (observeOutTx w ob).1 tracker.Nonce = false))
        ∧ (isTxConfirmed w (observeOutTxTracker w obT tracker).1 tracker.Nonce = true
            ↔ (passingHashes w tracker.Nonce obT tracker.HashList).length = 1)
        ∧ ((∀ t, t ∈ post → t.Nonce ≠ tracker.Nonce) →
            (isTxConfirmed w (observeOutTx w ob).1 tracker.Nonce = true
              ↔ (passingHashes w tracker.Nonce obT tracker.HashList).length = 1))) := by
  have htick : observeOutTx w ob = observeOutTxTrackers w obT (tracker :: post) := by
    unfold observeOutTx
    rw [htrackers]
    exact observeOutTxTrackers_append w pre (tracker :: post) ob obT hpre
  have hlast : obT.lastBlock = ob.lastBlock := by
    have := observeOutTxTrackers_lastBlock w pre ob
    rw [hpre] at this
    exact this
  have hpass := observeOutTxTracker_records_single_confirmation w obT tracker
  refine ⟨?_, ?_⟩
  · intro hc
    have hs := hpass.1 hc
    have hgo : observeOutTx w ob = observeOutTxTrackers w obT post := by
      rw [htick, observeOutTxTrackers_cons w obT tracker post (by rw [hs]), hs]
    exact ⟨hs, hgo, by
      rw [hgo]; exact observeOutTxTrackers_keeps_confirmed w tracker.Nonce post obT hc⟩
  · intro hc hl ht
    obtain ⟨hfin, hone, hother, hiff⟩ := hpass.2 hc (by rw [hlast]; exact hl) ht
    have hgo : observeOutTx w ob
        = observeOutTxTrackers w (observeOutTxTracker w obT tracker).1 post := by
      rw [htick, observeOutTxTrackers_cons w obT tracker post hfin]
    have hrest : (∀ t, t ∈ post → t.Nonce ≠ tracker.Nonce) →
        GetTxNReceipt w (observeOutTx w ob).1 tracker.Nonce
          = GetTxNReceipt w (observeOutTxTracker w obT tracker).1 tracker.Nonce := by
      intro hp
      rw [hgo]
      exact observeOutTxTrackers_other_nonces w tracker.Nonce post _ hp
    refine ⟨hgo, ?_, ?_, hiff, ?_⟩
    · intro receipt transaction hp
      have h1 := hone receipt transaction hp
      refine ⟨h1, ?_⟩
      rw [hgo, observeOutTxTrackers_keeps_confirmed w tracker.Nonce post _
        ((isTxConfirmed_iff w _ _).mpr ⟨receipt, transaction, h1⟩), h1]
    · intro hp
      obtain ⟨hr, htx⟩ := hother hp
      refine ⟨hr, htx, ?_⟩
      intro hpost
      have hsame : GetTxNReceipt w (observeOutTxTracker w obT tracker).1 tracker.Nonce
          = GetTxNReceipt w obT tracker.Nonce := by
        unfold GetTxNReceipt
        rw [hr, htx]
      have hend := (hrest hpost).trans hsame
      exact ⟨hend, by rw [isTxConfirmed_of_GetTxNReceipt w _ obT tracker.Nonce hend]; exact hc⟩
    · intro hpost
      rw [isTxConfirmed_of_GetTxNReceipt w _ _ tracker.Nonce (hrest hpost)]
      exact hiff

/-- C19, at `exampleWorld` with the three trackers of `exampleTrackers`
listed: no hash of the tracker of nonce 8 passes; of the hashes `0xa`, `0xz` of
the first tracker of nonce 7 only `0xa` passes. At the end of the tick the pair
of `0xa` is recorded for nonce 7 and nothing is recorded for nonce 8. When the
one tracker listed has the hashes `0xa`, `0xb` of nonce 7, which both pass, the
tick records nothing. -/
theorem observeOutTx_records_single_confirmation_witness :
    observeOutTxTrackers (exampleTrackerWorld exampleTrackers) exampleClient
        [{ exampleHashes ["0xa"] with Nonce := 8 }] = (exampleClient, LoopExit.finished)
    ∧ isTxConfirmed (exampleTrackerWorld exampleTrackers) exampleClient 7 = false
    ∧ passingHashes (exampleTrackerWorld exampleTrackers) 7 exampleClient
        (exampleHashes ["0xa", "0xz"]).HashList
        = [(exampleReceipt "0xa" 0, exampleTransaction "0xa")]
    ∧ GetTxNReceipt (exampleTrackerWorld exampleTrackers)
        (observeOutTx (exampleTrackerWorld exampleTrackers) exampleClient).1 7
        = (some (exampleReceipt "0xa" 0), some (exampleTransaction "0xa"))
    ∧ GetTxNReceipt (exampleTrackerWorld exampleTrackers)
        (observeOutTx (exampleTrackerWorld exampleTrackers) exampleClient).1 8
        = (none, none)
    ∧ (passingHashes (exampleTrackerWorld [exampleHashes ["0xa", "0xb"]]) 7 exampleClient
        (exampleHashes ["0xa", "0xb"]).HashList).length = 2
    ∧ GetTxNReceipt (exampleTrackerWorld [exampleHashes ["0xa", "0xb"]])
        (observeOutTx (exampleTrackerWorld [exampleHashes ["0xa", "0xb"]]) exampleClient).1 7
        = (none, none) :=
  ⟨by decide, by decide, by decide,
   (((observeOutTx_records_single_confirmation (exampleTrackerWorld exampleTrackers)
      exampleClient exampleClient [{ exampleHashes ["0xa"] with Nonce := 8 }]
      [exampleHashes ["0xb"]] (exampleHashes ["0xa", "0xz"]) rfl (by decide)).2
      (by decide) (by decide) (fun _ _ => rfl)).2.1 _ _ (by decide)).2,
   by decide, by decide, by decide⟩

end Zetacore
